import Mathlib

/-!
# gondor CLI: multiplexed websocket connection and attach session

A shallow embedding of `lib/wsstream.go` and `lib/exec.go`.

* Byte slices are lists of `Fin 256`; the conversion `byte(i)` keeps the low eight bits.
* Go pointers that may be nil are `Option`s; a nil dereference, an index out of range,
  closing a closed Go channel and a receive that can never complete are `Fault`s of the
  `Exec` monad.
* The underlying `*websocket.Conn` is a record `WS`: the list of calls made on it, the
  current clock reading, and the scripted results of the `Send` calls still to come.
* An `io.Pipe` is the list of chunks its write end accepted plus a closed flag.  The
  blocking of a pipe write until the reader has taken the chunk is not represented.
* Logging (`conn.logger`) has no effect on any value and is left out.
-/

namespace gondorcli

/-! ## Bytes, errors, faults -/

/-- One octet. -/
abbrev Byte := Fin 256

/-- Go conversion `byte(i)` of a non-negative `int`: the low eight bits. -/
def toByte (i : Nat) : Byte := ⟨i % 256, Nat.mod_lt i (by decide)⟩

/-- The bytes of an ASCII literal of the source. -/
def ascii (s : String) : List Byte := s.toList.map (fun c => toByte c.toNat)

/-- Go `error` values as far as the package tells them apart. -/
inductive GoError where
  /-- The value `io.EOF`. -/
  | EOF
  /-- The value `io.ErrClosedPipe`. -/
  | ErrClosedPipe
  /-- An error made by `fmt.Errorf`, with its message. -/
  | Errorf (msg : List Byte)
  /-- Any other error (transport, operating system), with its message. -/
  | other (msg : List Byte)
  deriving DecidableEq, Repr

/-- The method `Error()`. -/
def GoError.Error : GoError → List Byte
  | .EOF => ascii "EOF"
  | .ErrClosedPipe => ascii "io: read/write on closed pipe"
  | .Errorf msg => msg
  | .other msg => msg

/-- Ways in which a call fails to return. -/
inductive Fault where
  /-- A method that reads a field was called through a nil pointer. -/
  | nilDereference
  /-- A slice was indexed outside its bounds. -/
  | indexOutOfRange
  /-- The built-in `close` was applied to a channel that is closed already. -/
  | closeOfClosedChannel
  /-- The call waits for an event that never happens. -/
  | blocksForever
  deriving DecidableEq, Repr

/-- Computations that return a value or stop with a `Fault`. -/
abbrev Exec (α : Type) := Except Fault α

/-! ## The underlying websocket -/

/-- A call made on the underlying `*websocket.Conn`. -/
inductive WsEvent where
  /-- The call `ws.SetDeadline(t)`. -/
  | SetDeadline (t : Int)
  /-- The call `websocket.Message.Send(ws, frame)`. -/
  | Send (frame : List Byte)
  /-- The call `websocket.Message.Receive(ws, &data)`. -/
  | Receive
  /-- The call `ws.Close()`. -/
  | Close
  deriving DecidableEq, Repr

/-- The underlying connection: `now` is what `time.Now()` reads (in nanoseconds),
`events` the calls made so far, oldest first, and `sendErrs` the results of the coming
`Send` calls (an exhausted script means success). -/
structure WS where
  now : Int
  events : List WsEvent
  sendErrs : List (Option GoError)
  deriving DecidableEq, Repr

/-- The call `ws.SetDeadline(t)`. -/
def WS.SetDeadline (w : WS) (t : Int) : WS :=
  { w with events := w.events ++ [WsEvent.SetDeadline t] }

/-- The call `websocket.Message.Send(ws, frame)`: the call is recorded, its result is the
next entry of the script. -/
def WS.Send (w : WS) (frame : List Byte) : WS × Option GoError :=
  match w.sendErrs with
  | [] => ({ w with events := w.events ++ [WsEvent.Send frame] }, none)
  | r :: rest => ({ w with events := w.events ++ [WsEvent.Send frame], sendErrs := rest }, r)

/-- The call `websocket.Message.Receive(ws, &data)` as seen by the connection: it is
recorded; what it yields is supplied by the caller of the model. -/
def WS.Receive (w : WS) : WS :=
  { w with events := w.events ++ [WsEvent.Receive] }

/-- The call `ws.Close()`. -/
def WS.Close (w : WS) : WS :=
  { w with events := w.events ++ [WsEvent.Close] }

/-- The frames handed to `Send` so far, oldest first. -/
def WS.sent (w : WS) : List (List Byte) :=
  w.events.filterMap (fun e => match e with
    | WsEvent.Send frame => some frame
    | _ => none)

/-- The deadline in force: the argument of the latest `SetDeadline`, if any. -/
def WS.deadline (w : WS) : Option Int :=
  (w.events.filterMap (fun e => match e with
    | WsEvent.SetDeadline t => some t
    | _ => none)).getLast?

/-! ## Pipes -/

/-- An `io.Pipe()`: the chunks written and not yet read, oldest first, and whether the
write end has been closed. -/
structure Pipe where
  buf : List (List Byte)
  closed : Bool
  deriving DecidableEq, Repr

/-- The call `io.Pipe()`. -/
def Pipe.new : Pipe := { buf := [], closed := false }

/-- Method `Write` of the pipe's write end. -/
def Pipe.Write (p : Pipe) (data : List Byte) : Pipe × Int × Option GoError :=
  if p.closed then (p, 0, some GoError.ErrClosedPipe)
  else ({ p with buf := p.buf ++ [data] }, data.length, none)

/-- Method `Close` of the pipe's write end; it always returns nil. -/
def Pipe.Close (p : Pipe) : Pipe × Option GoError :=
  ({ p with closed := true }, none)

/-! ## `wsstream.go` -/

/-- ChannelType represents the type of channel. -/
inductive ChannelType where
  | IgnoreChannel
  | ReadChannel
  | WriteChannel
  | ReadWriteChannel
  deriving DecidableEq, Repr

/-- The struct `websocketChannel`.  The two ends `r`, `w` of its pipe are the one field
`pipe`; the back pointer `conn` is passed to the methods that use it. -/
structure websocketChannel where
  num : Byte
  pipe : Pipe
  read : Bool
  write : Bool
  deriving DecidableEq, Repr

/-- The struct `Conn`.  `ready` tells whether the channel `ready` has been closed. -/
structure Conn where
  channels : List websocketChannel
  ready : Bool
  ws : Option WS
  timeout : Int
  deriving DecidableEq, Repr

/-- Function `newWebsocketChannel`. -/
def newWebsocketChannel (num : Byte) (read write : Bool) : websocketChannel :=
  { num := num, pipe := Pipe.new, read := read, write := write }

/-- The loop of `NewConn` from index `i` on. -/
def NewConn.loop (i : Nat) : List ChannelType → List websocketChannel
  | [] => []
  | t :: ts =>
    (match t with
      | ChannelType.ReadChannel => newWebsocketChannel (toByte i) true false
      | ChannelType.WriteChannel => newWebsocketChannel (toByte i) false true
      | ChannelType.ReadWriteChannel => newWebsocketChannel (toByte i) true true
      | ChannelType.IgnoreChannel => newWebsocketChannel (toByte i) false false)
    :: NewConn.loop (i + 1) ts

/-- Function `NewConn`. -/
def NewConn (channels : List ChannelType) : Conn :=
  { channels := NewConn.loop 0 channels, ready := false, ws := none, timeout := 0 }

/-- Method `Conn.SetIdleTimeout`. -/
def Conn.SetIdleTimeout (conn : Conn) (duration : Int) : Conn :=
  { conn with timeout := duration }

/-- Method `Conn.initialize`. -/
def Conn.initialize (conn : Conn) (ws : Option WS) : Exec Conn :=
  if conn.ready then throw Fault.closeOfClosedChannel
  else pure { conn with ws := ws, ready := true }

/-- Method `Conn.Open`: the handles it returns are the channels, in order. -/
def Conn.Open (conn : Conn) (ws : Option WS) : Exec (Conn × List websocketChannel) := do
  let conn ← conn.initialize ws
  pure (conn, conn.channels)

/-- Method `Conn.resetTimeout`. -/
def Conn.resetTimeout (conn : Conn) : Exec Conn :=
  if conn.timeout > 0 then
    match conn.ws with
    | none => throw Fault.nilDereference
    | some w => pure { conn with ws := some (w.SetDeadline (w.now + conn.timeout)) }
  else pure conn

/-- The built-in `copy(dst[off:], src)`. -/
def copyAt (dst : List Byte) (off : Nat) (src : List Byte) : List Byte :=
  dst.take off ++ src.take (dst.length - off)
    ++ dst.drop (off + min (dst.length - off) src.length)

/-- Method `Conn.write`: multiplexes the specified channel onto the websocket. -/
def Conn.write (conn : Conn) (num : Byte) (data : List Byte) :
    Exec (Conn × Int × Option GoError) := do
  let conn ← conn.resetTimeout
  let frame : List Byte := List.replicate (data.length + 1) 0
  let frame := frame.set 0 num
  let frame := copyAt frame 1 data
  match conn.ws with
  | none => throw Fault.nilDereference
  | some w =>
    match w.Send frame with
    | (w, some err) => pure ({ conn with ws := some w }, 0, some err)
    | (w, none) => pure ({ conn with ws := some w }, data.length, none)

/-- Method `websocketChannel.Write`. -/
def websocketChannel.Write (p : websocketChannel) (conn : Conn) (data : List Byte) :
    Exec (Conn × Int × Option GoError) :=
  if !p.write then
    pure (conn, data.length, none)
  else
    conn.write p.num data

/-- Method `websocketChannel.DataFromSocket`. -/
def websocketChannel.DataFromSocket (p : websocketChannel) (data : List Byte) :
    websocketChannel × Int × Option GoError :=
  if !p.read then
    (p, data.length, none)
  else
    match p.pipe.Write data with
    | (pipe, n, err) => ({ p with pipe := pipe }, n, err)

/-- Method `websocketChannel.Close`. -/
def websocketChannel.Close (p : websocketChannel) (conn : Conn) :
    Exec (websocketChannel × Conn × Option GoError) := do
  let (conn, _, _) ← conn.write p.num []
  match p.pipe.Close with
  | (pipe, err) => pure ({ p with pipe := pipe }, conn, err)

/-- The loop `for _, s := range conn.channels { s.Close() }` of `Conn.Close`. -/
def Conn.Close.loop (conn : Conn) : List websocketChannel → Exec (Conn × List websocketChannel)
  | [] => pure (conn, [])
  | s :: rest => do
    let (s, conn, _) ← s.Close conn
    let (conn, rest) ← Conn.Close.loop conn rest
    pure (conn, s :: rest)

/-- Method `Conn.Close`. -/
def Conn.Close (conn : Conn) : Exec (Conn × Option GoError) :=
  if !conn.ready then throw Fault.blocksForever
  else do
    let (conn, channels) ← Conn.Close.loop conn conn.channels
    let conn := { conn with channels := channels }
    match conn.ws with
    | none => throw Fault.nilDereference
    | some w => pure ({ conn with ws := some w.Close }, none)

/-- The body of the loop of `Conn.readLoop` after a successful receive (from
`if len(data) == 0` on).  Every path through it is a `continue`, so it yields the
connection with which the next iteration starts. -/
def Conn.readLoop.dispatch (conn : Conn) (data : List Byte) : Exec Conn :=
  match data with
  | [] => pure conn
  | channel :: data =>
    if channel.val ≥ conn.channels.length then
      pure conn
    else
      match conn.channels[channel.val]? with
      | none => throw Fault.indexOutOfRange
      | some p =>
        match p.DataFromSocket data with
        | (p, _, some _) => pure { conn with channels := conn.channels.set channel.val p }
        | (p, _, none) => pure { conn with channels := conn.channels.set channel.val p }

/-- The call `websocket.Message.Receive(conn.ws, &data)`. -/
def Conn.receive (conn : Conn) : Exec Conn :=
  match conn.ws with
  | none => throw Fault.nilDereference
  | some w => pure { conn with ws := some w.Receive }

/-- Method `Conn.readLoop`.  The second argument lists the results of the successive
`Receive` calls; when it is exhausted the next `Receive` never returns.  The deferred
`conn.Close()` runs on both ways out. -/
def Conn.readLoop (conn : Conn) : List (Except GoError (List Byte)) → Exec (Conn × Option GoError)
  | [] => do
    let conn ← conn.resetTimeout
    let _ ← conn.receive
    throw Fault.blocksForever
  | Except.error err :: _ => do
    let conn ← conn.resetTimeout
    let conn ← conn.receive
    if err = GoError.EOF then
      let (conn, _) ← conn.Close
      pure (conn, none)
    else
      let (conn, _) ← conn.Close
      pure (conn, some err)
  | Except.ok data :: rest => do
    let conn ← conn.resetTimeout
    let conn ← conn.receive
    let conn ← Conn.readLoop.dispatch conn data
    conn.readLoop rest

/-! ## `exec.go` -/

/-- The struct `clientOpts`. -/
structure clientOpts where
  Tty : Bool
  Width : Int
  Height : Int
  deriving DecidableEq, Repr

/-- The call `json.Marshal(opts)` for a `clientOpts`, following its struct tags:
`json:"tty"`, `json:"width,omitempty"`, `json:"height,omitempty"`.  The encoder writes
the fields in declaration order without white space and leaves out an `omitempty`
integer that is zero. -/
def json.Marshal (opts : clientOpts) : String :=
  "\x7b\"tty\":" ++ (if opts.Tty then "true" else "false")
    ++ (if opts.Width = 0 then "" else ",\"width\":" ++ toString opts.Width)
    ++ (if opts.Height = 0 then "" else ",\"height\":" ++ toString opts.Height)
    ++ "\x7d"

/-- The struct `streamOptions`. -/
structure streamOptions where
  stdin : Bool
  stdout : Bool
  stderr : Bool
  tty : Bool
  expectedStreams : Int
  deriving DecidableEq, Repr

/-- Function `newStreamOptions`. -/
def newStreamOptions (opts : clientOpts) : streamOptions :=
  let tty := opts.Tty
  let (stdin, stdout, stderr) :=
    if tty then (true, true, false) else (true, true, true)
  let expectedStreams : Int := 1
  let expectedStreams := if stdin then expectedStreams + 1 else expectedStreams
  let expectedStreams := if stdout then expectedStreams + 1 else expectedStreams
  let expectedStreams := if stderr then expectedStreams + 1 else expectedStreams
  { stdin := stdin, stdout := stdout, stderr := stderr, tty := tty,
    expectedStreams := expectedStreams }

/-- Function `standardShellChannels`. -/
def standardShellChannels (stdin stdout stderr : Bool) : List ChannelType :=
  let channels :=
    [ChannelType.WriteChannel, ChannelType.ReadChannel, ChannelType.ReadChannel]
  let channels := if !stdin then channels.set 0 ChannelType.IgnoreChannel else channels
  let channels := if !stdout then channels.set 1 ChannelType.IgnoreChannel else channels
  let channels := if !stderr then channels.set 2 ChannelType.IgnoreChannel else channels
  channels

/-- The struct `remoteExec`.  `callback` tells whether the caller supplied one; the HTTP
client, the TLS configuration and the logger do not enter any modelled value. -/
structure remoteExec where
  endpoint : String
  enableTty : Bool
  ws : Option WS
  showAttaching : Bool
  callback : Bool
  streamOpts : Option streamOptions
  deriving DecidableEq, Repr

/-- The struct `context`; a stream is the channel record behind the handle. -/
structure context where
  conn : Conn
  stdinStream : websocketChannel
  stdoutStream : websocketChannel
  stderrStream : websocketChannel
  controlStream : websocketChannel
  tty : Bool
  deriving DecidableEq, Repr

/-- The constant `time.Second`, in nanoseconds. -/
def time.Second : Int := 1000000000

/-- The constant `time.Minute`, in nanoseconds. -/
def time.Minute : Int := 60 * time.Second

/-- The channel list built on the first line of `createStreams`. -/
def remoteExec.createStreams.channels (sOpts : streamOptions) : List ChannelType :=
  standardShellChannels sOpts.stdin sOpts.stdout sOpts.stderr
    ++ [ChannelType.ReadWriteChannel]

/-- Method `remoteExec.createStreams`. -/
def remoteExec.createStreams (re : remoteExec) : Exec context :=
  match re.streamOpts with
  | none => throw Fault.nilDereference
  | some sOpts => do
    let channels := remoteExec.createStreams.channels sOpts
    let conn := NewConn channels
    let conn := conn.SetIdleTimeout (10 * time.Second)
    let (conn, streams) ← conn.Open re.ws
    match streams[0]?, streams[1]?, streams[2]?, streams[3]? with
    | some s0, some s1, some s2, some s3 =>
      pure { conn := conn, stdinStream := s0, stdoutStream := s1, stderrStream := s2,
             controlStream := s3, tty := sOpts.tty }
    | _, _, _, _ => throw Fault.indexOutOfRange

/-- What the first goroutine of `interact` sends on `errch`, given what
`ioutil.ReadAll(ctx.controlStream)` returned. -/
def remoteExec.interact.drained (data : List Byte) (err : Option GoError) : Option GoError :=
  match err with
  | some e =>
    if e ≠ GoError.EOF then
      some (GoError.Errorf (ascii "reading from control stream: " ++ e.Error))
    else if data.length > 0 then
      some (GoError.Errorf (ascii "executing remote command: " ++ data))
    else none
  | none =>
    if data.length > 0 then
      some (GoError.Errorf (ascii "executing remote command: " ++ data))
    else none

/-- The period of the heartbeat in `interact`: `time.Tick(5 * time.Second)`. -/
def remoteExec.interact.period : Int := 5 * time.Second

/-- The receive `<-time.Tick(d)`: it is served when the time `d` has passed, so the
clock reads `d` more afterwards. -/
def WS.Tick (w : WS) (d : Int) : WS :=
  { w with now := w.now + d }

/-- The `time.Tick` case of the `select` in `interact`, taken `ticks` times: each time
the period passes and the heartbeat byte is written to the control stream. -/
def remoteExec.interact.heartbeats (controlStream : websocketChannel) (conn : Conn) :
    Nat → Exec Conn
  | 0 => pure conn
  | ticks + 1 => do
    let conn := { conn with ws := conn.ws.map (fun w => w.Tick remoteExec.interact.period) }
    let (conn, _, _) ← controlStream.Write conn [1]
    remoteExec.interact.heartbeats controlStream conn ticks

/-- Method `remoteExec.interact` as run by its own goroutine: `ticks` is the number of
times the `time.Tick` case fires before `errch` delivers, `data` and `err` are what
`ioutil.ReadAll(ctx.controlStream)` returned in the first goroutine it starts.  The
relays and the read loop run in goroutines of their own and are not part of this
function; `remoteExec.interact.drain` below gives what the read loop and the first
goroutine make of the messages the websocket delivers.  The deferred `re.ws.Close()`
acts on the websocket shared with the connection. -/
def remoteExec.interact (re : remoteExec) (ticks : Nat) (data : List Byte)
    (err : Option GoError) : Exec (remoteExec × Int × Option GoError) := do
  let ctx ← re.createStreams
  let conn ← remoteExec.interact.heartbeats ctx.controlStream ctx.conn ticks
  match conn.ws with
  | none => throw Fault.nilDereference
  | some w =>
    match remoteExec.interact.drained data err with
    | some err => pure ({ re with ws := some w.Close }, 1, some err)
    | none => pure ({ re with ws := some w.Close }, 0, none)

/-- What the program does to the world outside the connection, in order. -/
inductive Event where
  /-- The call `httpClient.Get(url)`. -/
  | Get (url : String)
  /-- The call `fmt.Fprintf(outs, text)`. -/
  | Fprintf (text : String)
  /-- The call `re.callback(err)`. -/
  | callback (err : Option GoError)
  /-- The call `failure(s)`: the line `ERROR: s` on the standard error. -/
  | failure (s : List Byte)
  /-- The call `terminal.GetSize`. -/
  | GetSize
  /-- The call `terminal.MakeRaw`. -/
  | MakeRaw
  /-- The call `terminal.Restore` with the recorded state. -/
  | Restore (state : Nat)
  /-- The handshake request of `attach`: the URL and the value of `X-Pipe-Opts`. -/
  | Dial (url : String) (header : String)
  deriving DecidableEq, Repr

/-- An HTTP response as far as the readiness probe reads it. -/
structure Response where
  StatusCode : Int
  Status : List Byte
  deriving DecidableEq, Repr

/-- Everything one run of `execute` takes from its surroundings.  `probe`, `probes` are
the results of the successive `httpClient.Get` calls the readiness budget leaves time
for, `dial`, `dials` those of the successive handshake attempts (`websocket.NewConfig`
followed by `websocket.DialConfig`); `size` and `raw` are the results of
`terminal.GetSize` and `terminal.MakeRaw`; `ticks`, `data`, `err` are the arguments of
`interact`: the number of heartbeat ticks and what `ioutil.ReadAll` returns on the
control stream in this run. -/
structure Env where
  stdoutIsTerminal : Bool
  stderrIsTerminal : Bool
  stdinIsTerminal : Bool
  probe : Except GoError Response
  probes : List (Except GoError Response)
  size : Except GoError (Int × Int)
  raw : Except GoError Nat
  dial : Except GoError WS
  dials : List (Except GoError WS)
  ticks : Nat
  data : List Byte
  err : Option GoError

/-- Modelled from the spec: `attempt.Strategy.Run` of `github.com/flynn/flynn/pkg/attempt`,
which is not among the sources.  It calls the function, calls it again after each failure
for as long as the budget leaves time for another try, and returns the result of the last
call.  The budget is represented by the list of tries it leaves time for: `a` is the first
try, the list holds the further ones. -/
def attempt.Run {α σ : Type} (f : α → σ → σ × Option GoError) :
    α → List α → σ → σ × Option GoError
  | a, [], s => f a s
  | a, b :: more, s =>
    match f a s with
    | (s, none) => (s, none)
    | (s, some _) => attempt.Run f b more s

/-- The function literal passed to the first `Run` in `execute`: one readiness try. -/
def remoteExec.execute.ok (re : remoteExec) (resp : Except GoError Response)
    (trace : List Event) : List Event × Option GoError :=
  let okURL := "http://" ++ re.endpoint ++ "/ok"
  let trace := trace ++ [Event.Get okURL]
  match resp with
  | Except.error err => (trace, some err)
  | Except.ok resp =>
    if resp.StatusCode = 200 then (trace, none)
    else (trace, some (GoError.Errorf (ascii "http error " ++ resp.Status)))

/-- Method `remoteExec.attach`; `dial` is what `websocket.NewConfig` followed by
`websocket.DialConfig` yields. -/
def remoteExec.attach (re : remoteExec) (opts : clientOpts) (dial : Except GoError WS)
    (trace : List Event) : (remoteExec × List Event) × Option GoError :=
  let encoded := json.Marshal opts
  let trace := trace ++ [Event.Dial ("ws://" ++ re.endpoint ++ "/") encoded]
  match dial with
  | Except.error err => ((re, trace), some err)
  | Except.ok ws =>
    (({ re with ws := some ws, streamOpts := some (newStreamOptions opts) }, trace), none)

/-- How a run of `execute` ends. -/
inductive Outcome where
  /-- The method returns `code`. -/
  | returns (code : Int)
  /-- The process ends inside the method through `os.Exit(status)`. -/
  | exits (status : Int)
  /-- The method stops with a fault. -/
  | fault (f : Fault)
  deriving DecidableEq, Repr

/-- A finished run of `execute`. -/
structure Run where
  outcome : Outcome
  re : remoteExec
  trace : List Event
  deriving DecidableEq, Repr

/-- The call `re.callback(err)`; a nil callback was replaced by the one that calls
`failure(err.Error())` for a non-nil error. -/
def remoteExec.call (re : remoteExec) (err : Option GoError) (trace : List Event) :
    List Event :=
  let trace := trace ++ [Event.callback err]
  if re.callback then trace
  else
    match err with
    | some e => trace ++ [Event.failure e.Error]
    | none => trace

/-- The options built at the head of the function literal that `execute` returns
through.  The result is the error message given to `fatal`, or the options together with
the terminal state whose `Restore` has been deferred. -/
def remoteExec.execute.opts (re : remoteExec) (env : Env) (trace : List Event) :
    Except (List Byte) (clientOpts × Option Nat) × List Event :=
  let opts : clientOpts := { Tty := false, Width := 0, Height := 0 }
  if re.enableTty then
    if env.stdinIsTerminal then
      let trace := trace ++ [Event.GetSize]
      match env.size with
      | Except.error err => (Except.error err.Error, trace)
      | Except.ok (w, h) =>
        let trace := trace ++ [Event.MakeRaw]
        match env.raw with
        | Except.error err => (Except.error err.Error, trace)
        | Except.ok state =>
          (Except.ok ({ opts with Tty := true, Width := w, Height := h }, some state), trace)
    else (Except.ok (opts, none), trace)
  else (Except.ok (opts, none), trace)

/-- The deferred `terminal.Restore`, if one was registered. -/
def remoteExec.execute.restore (state : Option Nat) (trace : List Event) : List Event :=
  match state with
  | some st => trace ++ [Event.Restore st]
  | none => trace

/-- The function literal that `execute` returns through (from `opts := clientOpts{}`
on). -/
def remoteExec.execute.session (re : remoteExec) (env : Env) (showIndicator : Bool)
    (trace : List Event) : Run :=
  match remoteExec.execute.opts re env trace with
  | (Except.error msg, trace) =>
    { outcome := Outcome.exits 1, re := re, trace := trace ++ [Event.failure msg] }
  | (Except.ok (opts, state), trace) =>
    match attempt.Run (fun dial s => remoteExec.attach s.1 opts dial s.2)
        env.dial env.dials (re, trace) with
    | ((re, trace), some err) =>
      let trace :=
        if re.showAttaching && showIndicator then
          trace ++ [Event.Fprintf "\r\x1b[36mAttaching...\x1b[m error\n"]
        else trace
      let trace := re.call (some err) trace
      { outcome := Outcome.returns 1, re := re,
        trace := remoteExec.execute.restore state trace }
    | ((re, trace), none) =>
      let trace :=
        if re.showAttaching && showIndicator then
          trace ++ [Event.Fprintf "\r\x1b[36mAttaching...\x1b[m ok\n"]
        else trace
      let trace := re.call none trace
      match re.interact env.ticks env.data env.err with
      | Except.error f =>
        { outcome := Outcome.fault f, re := re,
          trace := remoteExec.execute.restore state trace }
      | Except.ok (re, _, some err) =>
        { outcome := Outcome.returns 1, re := re,
          trace := remoteExec.execute.restore state (trace ++ [Event.failure err.Error]) }
      | Except.ok (re, exitCode, none) =>
        { outcome := Outcome.returns exitCode, re := re,
          trace := remoteExec.execute.restore state trace }

/-- Method `remoteExec.execute`.  The goroutine that animates the indicator writes to the
terminal only and is left out. -/
def remoteExec.execute (re : remoteExec) (env : Env) : Run :=
  let showIndicator := env.stdoutIsTerminal || env.stderrIsTerminal
  match attempt.Run (remoteExec.execute.ok re) env.probe env.probes [] with
  | (trace, some err) =>
    let trace :=
      if re.showAttaching && showIndicator then
        trace ++ [Event.Fprintf "\r\x1b[36mAttaching...\x1b[m failed\n"]
      else trace
    let trace := re.call (some err) trace
    { outcome := Outcome.returns 1, re := re, trace := trace }
  | (trace, none) => remoteExec.execute.session re env showIndicator trace

/-! ## Reading from a channel -/

/-- Method `Read` of the pipe's read end with a buffer of `n` bytes: it takes bytes from
the oldest chunk; with no chunk left it reports `io.EOF` once the write end is closed
and does not return while the write end is open. -/
def Pipe.Read (p : Pipe) (n : Nat) : Exec (Pipe × List Byte × Option GoError) :=
  match p.buf with
  | chunk :: rest =>
    if (chunk.drop n).isEmpty then pure ({ p with buf := rest }, chunk.take n, none)
    else pure ({ p with buf := chunk.drop n :: rest }, chunk.take n, none)
  | [] =>
    if p.closed then pure (p, [], some GoError.EOF)
    else throw Fault.blocksForever

/-- Method `websocketChannel.Read` with a buffer of `n` bytes; the bytes returned are
those put into the buffer. -/
def websocketChannel.Read (p : websocketChannel) (n : Nat) :
    Exec (websocketChannel × List Byte × Option GoError) :=
  if !p.read then
    pure (p, [], some GoError.EOF)
  else do
    let (pipe, data, err) ← p.pipe.Read n
    pure ({ p with pipe := pipe }, data, err)

/-- The call `ioutil.ReadAll(p)` on a channel: it calls `Read` until an error comes,
collects the bytes, and turns `io.EOF` into a nil error.  `fuel` bounds the number of
reads, each with a buffer of `n` bytes. -/
def websocketChannel.ReadAll (n : Nat) :
    Nat → websocketChannel → Exec (websocketChannel × List Byte × Option GoError)
  | 0, _ => throw Fault.blocksForever
  | fuel + 1, p => do
    let (p, data, err) ← p.Read n
    match err with
    | some e =>
      if e = GoError.EOF then pure (p, data, none) else pure (p, data, some e)
    | none => do
      let (p, more, err) ← websocketChannel.ReadAll n fuel p
      pure (p, data ++ more, err)

/-- The goroutines `interact` starts that feed `errch`, run to the point where the first
one holds the result of its read.  `go ctx.conn.readLoop()` runs the read loop on the
results `script` of the successive `Receive` calls, and nothing takes what the loop
returns; its deferred `conn.Close()` closes the pipes, and that lets
`ioutil.ReadAll(ctx.controlStream)` in the first goroutine return.  `ctx.controlStream`
is the handle `streams[3]`, the channel stored at index 3 of the connection.  The result
is what the read loop returned and what `ReadAll` returned; `n` is the size of the reads,
`fuel` bounds their number. -/
def remoteExec.interact.drain (re : remoteExec)
    (script : List (Except GoError (List Byte))) (n fuel : Nat) :
    Exec (Option GoError × List Byte × Option GoError) := do
  let ctx ← re.createStreams
  let (conn, looped) ← ctx.conn.readLoop script
  match conn.channels[3]? with
  | none => throw Fault.indexOutOfRange
  | some controlStream => do
    let (_, data, err) ← websocketChannel.ReadAll n fuel controlStream
    pure (looped, data, err)

/-! ## `config.go`: persisting the identity -/

/-- The struct `OAuth2Config`. -/
structure OAuth2Config where
  AccessToken : String
  RefreshToken : String
  deriving DecidableEq, Repr

/-- The struct `Identity`. -/
structure Identity where
  Provider : String
  Username : String
  OAuth2 : OAuth2Config
  deriving DecidableEq, Repr

/-- The struct `CloudIdentityProvider`; `Type_` is its field `Type`. -/
structure CloudIdentityProvider where
  Type_ : String
  Location : String
  ClientID : String
  deriving DecidableEq, Repr

/-- The struct `Cloud` without its clusters. -/
structure Cloud where
  Name : String
  Identity : CloudIdentityProvider
  CurrentCluster : String
  deriving DecidableEq, Repr

/-- The struct `GlobalConfig` as far as `Persist` uses it. -/
structure GlobalConfig where
  Identities : List Identity
  Cloud : Option Cloud
  Identity : Option Identity
  deriving DecidableEq, Repr

/-- The field `Auth` of `gondor.Config`. -/
structure ConfigAuth where
  Username : String
  AccessToken : String
  RefreshToken : String
  deriving DecidableEq, Repr

/-- The assignment `m[k] = v` on a Go map kept as a list of entries: an entry with the
key is replaced, otherwise a new entry is added. -/
def mapAssign (m : List (String × Identity)) (k : String) (v : Identity) :
    List (String × Identity) :=
  if m.any (fun e => e.1 = k) then m.map (fun e => if e.1 = k then (k, v) else e)
  else m ++ [(k, v)]

/-- The loop over `p.cfg.Identities` in `Persist`. -/
def clientConfigPersister.Persist.loop (cfg : GlobalConfig) :
    List Identity → List (String × Identity) → Exec (List (String × Identity))
  | [], m => pure m
  | i :: rest, m =>
    match cfg.Cloud with
    | none => throw Fault.nilDereference
    | some cloud =>
      if i.Provider = cloud.Identity.Location then
        match cfg.Identity with
        | some id => clientConfigPersister.Persist.loop cfg rest (mapAssign m i.Provider id)
        | none => clientConfigPersister.Persist.loop cfg rest m
      else
        clientConfigPersister.Persist.loop cfg rest (mapAssign m i.Provider i)

/-- Method `clientConfigPersister.Persist`.  `saveErr` is what `SaveIdentities` returns.
Ranging over a Go map visits the entries in an order the runtime picks; the list built
here takes them in the order in which their keys were first assigned. -/
def clientConfigPersister.Persist (cfg : GlobalConfig) (auth : ConfigAuth)
    (saveErr : Option GoError) : Exec (GlobalConfig × Option GoError) := do
  let cfg ←
    if auth.Username = "" then
      pure { cfg with Identity := none }
    else
      match cfg.Cloud with
      | none => throw Fault.nilDereference
      | some cloud =>
        pure { cfg with
          Identity := some
            { Provider := cloud.Identity.Location, Username := auth.Username,
              OAuth2 := { AccessToken := auth.AccessToken,
                          RefreshToken := auth.RefreshToken } } }
  let m ←
    match cfg.Identities, cfg.Identity with
    | [], some id =>
      match cfg.Cloud with
      | none => throw Fault.nilDereference
      | some cloud => pure (mapAssign [] cloud.Identity.Location id)
    | identities, _ => clientConfigPersister.Persist.loop cfg identities []
  let identities := m.map (fun e => e.2)
  let cfg := { cfg with Identities := identities }
  pure (cfg, saveErr)

/-! ## Notions used to state the properties -/

/-- What `NewConn` fixes for a channel and nothing changes afterwards. -/
def websocketChannel.descriptor (p : websocketChannel) : Byte × Bool × Bool :=
  (p.num, p.read, p.write)

/-- The connection `conn` is a connection made by `NewConn` for `layout`, in any later
state: its channels carry the numbers and capabilities `NewConn` gave them. -/
def Conn.hasLayout (conn : Conn) (layout : List ChannelType) : Prop :=
  conn.channels.map websocketChannel.descriptor
    = (NewConn layout).channels.map websocketChannel.descriptor

instance (conn : Conn) (layout : List ChannelType) : Decidable (conn.hasLayout layout) := by
  unfold Conn.hasLayout
  infer_instance

/-- Successive calls of `Write` on the handle of channel `i`, one per payload. -/
def Conn.writeAll (conn : Conn) (i : Nat) : List (List Byte) → Exec Conn
  | [] => pure conn
  | data :: more =>
    match conn.channels[i]? with
    | none => throw Fault.indexOutOfRange
    | some p => do
      let (conn, _, _) ← p.Write conn data
      conn.writeAll i more

/-- Successive iterations of the read loop on the received messages `frames`. -/
def Conn.dispatchAll (conn : Conn) : List (List Byte) → Exec Conn
  | [] => pure conn
  | frame :: more => do
    let conn ← Conn.readLoop.dispatch conn frame
    conn.dispatchAll more

/-- The chunks waiting in the inbound pipe of channel `i`. -/
def Conn.inbound (conn : Conn) (i : Nat) : Option (List (List Byte)) :=
  conn.channels[i]?.map (fun p => p.pipe.buf)

/-- The websocket after `resetTimeout`. -/
def Conn.rearmed (conn : Conn) (w : WS) : WS :=
  if conn.timeout > 0 then w.SetDeadline (w.now + conn.timeout) else w

/-- The connection made by `NewConn(layout...)`, given the idle timeout `d`, opened on
the websocket `w`, after the read loop has dispatched the messages `before`. -/
def openedConn (layout : List ChannelType) (d : Int) (w : WS)
    (before : List (List Byte)) : Exec Conn := do
  let conn := (NewConn layout).SetIdleTimeout d
  let (conn, _) ← conn.Open (some w)
  conn.dispatchAll before

/-- One readiness try succeeds: the request returns and the status code is 200. -/
def Response.ready (resp : Except GoError Response) : Bool :=
  match resp with
  | Except.ok r => decide (r.StatusCode = 200)
  | Except.error _ => false

/-- The readiness probe succeeded: one of the tries the budget leaves time for did. -/
def Env.ready (env : Env) : Bool :=
  (env.probe :: env.probes).any Response.ready

/-- The handshake succeeded: one of the tries the budget leaves time for connected. -/
def Env.dialed (env : Env) : Bool :=
  (env.dial :: env.dials).any (fun r => match r with
    | Except.ok _ => true
    | Except.error _ => false)

/-- The interaction phase returns no error. -/
def Env.clean (env : Env) : Bool :=
  (remoteExec.interact.drained env.data env.err).isNone

/-- The terminal is consulted and `terminal.GetSize` or `terminal.MakeRaw` fails. -/
def remoteExec.terminalFails (re : remoteExec) (env : Env) : Bool :=
  re.enableTty && env.stdinIsTerminal &&
    (match env.size, env.raw with
      | Except.ok _, Except.ok _ => false
      | _, _ => true)

/-- The arguments of the calls of the completion callback, in order. -/
def callbacks (trace : List Event) : List (Option GoError) :=
  trace.filterMap (fun e => match e with
    | Event.callback err => some err
    | _ => none)

/-- The messages given to `failure`, in order. -/
def failures (trace : List Event) : List (List Byte) :=
  trace.filterMap (fun e => match e with
    | Event.failure s => some s
    | _ => none)

/-- The header values of the handshake requests made, in order. -/
def dialHeaders (trace : List Event) : List String :=
  trace.filterMap (fun e => match e with
    | Event.Dial _ header => some header
    | _ => none)

/-- The call `streams[i].Close()` on the handle of channel `i`: the handle is the channel
stored in the connection, so the closed pipe is seen through the connection. -/
def Conn.closeHandle (conn : Conn) (i : Nat) : Exec (Conn × Option GoError) :=
  match conn.channels[i]? with
  | none => throw Fault.indexOutOfRange
  | some p => do
    let (p, conn, err) ← p.Close conn
    pure ({ conn with channels := conn.channels.set i p }, err)

/-- Successive calls of `conn.Close()`, `k` of them, with the list of what they
returned. -/
def Conn.CloseTimes (conn : Conn) : Nat → Exec (Conn × List (Option GoError))
  | 0 => pure (conn, [])
  | k + 1 => do
    let (conn, err) ← conn.Close
    let (conn, errs) ← conn.CloseTimes k
    pure (conn, err :: errs)

/-- In the list of calls `evs`, made after the call `prev`, every `Send` and every
`Receive` comes directly after a `SetDeadline t`. -/
def armed (t : Int) : Option WsEvent → List WsEvent → Bool
  | _, [] => true
  | prev, e :: rest =>
    (match e with
      | WsEvent.Send _ => decide (prev = some (WsEvent.SetDeadline t))
      | WsEvent.Receive => decide (prev = some (WsEvent.SetDeadline t))
      | _ => true)
    && armed t (some e) rest

/-- No call in `evs` is a `SetDeadline`. -/
def noDeadline (evs : List WsEvent) : Bool :=
  evs.all (fun e => match e with
    | WsEvent.SetDeadline _ => false
    | _ => true)

/-- The struct `attempt.Strategy` as `execute` fills it in (total duration and delay
between tries, in nanoseconds). -/
structure attempt.Strategy where
  Total : Int
  Delay : Int
  deriving DecidableEq, Repr

/-- The strategy literal of the readiness `Run` in `execute`. -/
def remoteExec.execute.okStrategy : attempt.Strategy :=
  { Total := 2 * time.Minute, Delay := 1 * time.Second }

/-- The strategy literal of the handshake `Run` in `execute`. -/
def remoteExec.execute.attachStrategy : attempt.Strategy :=
  { Total := 10 * time.Second, Delay := 1 * time.Second }

/-- Modelled from the spec: the retry budget of `attempt.Strategy`, whose code is not
among the sources.  The spec gives a bounded total budget and a fixed delay between
tries and no duration for a try: try number `j`, counted from 0, starts `j * Delay`
after the first one; the first try is always made, a later one exactly when its start
lies before the end of the budget. -/
def attempt.Strategy.allows (s : attempt.Strategy) (j : Nat) : Bool :=
  decide (j = 0) || decide ((j : Int) * s.Delay < s.Total)

/-- Modelled from the spec: the number of tries a strategy with a positive delay leaves
time for when every try fails. -/
def attempt.Strategy.tries (s : attempt.Strategy) : Nat :=
  if 0 < s.Delay ∧ 0 < s.Total then ((s.Total - 1) / s.Delay).toNat + 1 else 1

/-- Modelled from the spec: the results the tries of a strategy see when the `j`-th call,
counted from 0, would yield `outcome j`: the first one and the list of the further
ones. -/
def attempt.Strategy.schedule {α : Type} (s : attempt.Strategy) (outcome : Nat → α) :
    α × List α :=
  (outcome 0, (List.range (s.tries - 1)).map (fun j => outcome (j + 1)))

/-- A probe that fails its first `K` calls with status 503 and then gets status 200. -/
def failsThenReady (K : Nat) (j : Nat) : Except GoError Response :=
  if j < K then Except.ok { StatusCode := 503, Status := ascii "503 Service Unavailable" }
  else Except.ok { StatusCode := 200, Status := ascii "200 OK" }

/-- The line the attaching indicator prints when it is shown. -/
def remoteExec.execute.indicator (shown : Bool) (text : String) : List Event :=
  if shown then [Event.Fprintf text] else []

/-- The options `opts`, the recorded terminal state `st` and the terminal calls `term`
are what `execute` builds in `env`: no TTY and no terminal call when TTY is not enabled
or stdin is no terminal, otherwise the size read and the state recorded by the two
terminal calls. -/
def remoteExec.builds (re : remoteExec) (env : Env) (opts : clientOpts)
    (st : Option Nat) (term : List Event) : Prop :=
  ((re.enableTty && env.stdinIsTerminal) = false ∧
    opts = { Tty := false, Width := 0, Height := 0 } ∧ st = none ∧ term = []) ∨
  ((re.enableTty && env.stdinIsTerminal) = true ∧
    ∃ w h s, env.size = Except.ok (w, h) ∧ env.raw = Except.ok s ∧
      opts = { Tty := true, Width := w, Height := h } ∧ st = some s ∧
      term = [Event.GetSize, Event.MakeRaw])

/-- The calls made on the local terminal (`GetSize`, `MakeRaw`, `Restore`), in order. -/
def terminalCalls (trace : List Event) : List Event :=
  trace.filter (fun e => match e with
    | Event.GetSize => true
    | Event.MakeRaw => true
    | Event.Restore _ => true
    | _ => false)

/-- The result the script of the websocket gives to the next `Send`. -/
def WS.nextSend (w : WS) : Option GoError :=
  match w.sendErrs with
  | [] => none
  | r :: _ => r

/-- The payloads of the messages of `frames` that are addressed to channel `i`, in
order. -/
def payloadsFor (i : Nat) (frames : List (List Byte)) : List (List Byte) :=
  frames.filterMap (fun m => match m with
    | c :: data => if c.val = i then some data else none
    | [] => none)

/-- The bytes the messages `received` carry on the control channel. -/
def controlData (received : List (List Byte)) : List Byte :=
  (payloadsFor 3 received).flatten

/-! ## Sample values -/

/-- A websocket on which nothing has happened yet and every send succeeds. -/
def sampleWS : WS := { now := 1000, events := [], sendErrs := [] }

/-- The layout of a session without TTY. -/
def sampleLayout : List ChannelType :=
  [ChannelType.WriteChannel, ChannelType.ReadChannel, ChannelType.ReadChannel,
   ChannelType.ReadWriteChannel]

/-- The connection of a session without TTY, opened, idle timeout ten seconds. -/
def sampleConn : Conn :=
  { channels := NewConn.loop 0 sampleLayout, ready := true, ws := some sampleWS,
    timeout := 10 * time.Second }

/-- The control channel of `sampleConn`. -/
def sampleControl : websocketChannel := newWebsocketChannel 3 true true

/-- The standard output channel of `sampleConn`. -/
def sampleStdout : websocketChannel := newWebsocketChannel 1 true false

/-- A session as `runCmd` sets it up. -/
def sampleExec : remoteExec :=
  { endpoint := "host:80", enableTty := true, ws := none, showAttaching := true,
    callback := false, streamOpts := none }

/-- A run away from any terminal in which everything succeeds. -/
def sampleEnvPiped : Env :=
  { stdoutIsTerminal := false, stderrIsTerminal := false, stdinIsTerminal := false,
    probe := Except.ok { StatusCode := 200, Status := ascii "200 OK" }, probes := [],
    size := Except.ok (0, 0), raw := Except.ok 0, dial := Except.ok sampleWS, dials := [],
    ticks := 1, data := [], err := none }

/-- The calls `resetTimeout` makes on the websocket when the clock reads `now`. -/
def Conn.resetEvents (conn : Conn) (now : Int) : List WsEvent :=
  if conn.timeout > 0 then [WsEvent.SetDeadline (now + conn.timeout)] else []

/-- The calls the loop of `Conn.Close` makes on the websocket for the channels given,
`reset` being the calls of one `resetTimeout`. -/
def Conn.Close.events (reset : List WsEvent) : List websocketChannel → List WsEvent
  | [] => []
  | p :: rest => reset ++ [WsEvent.Send [p.num]] ++ Conn.Close.events reset rest

/-- A channel after `p.w.Close()`. -/
def websocketChannel.closed (p : websocketChannel) : websocketChannel :=
  { p with pipe := { p.pipe with closed := true } }

/-- The calls `evs` respect the idle timeout `d` at clock reading `now`: with `d > 0`
every `Send` and every `Receive` comes directly after `SetDeadline (now + d)`, otherwise
no `SetDeadline` occurs. -/
def timed (d now : Int) (evs : List WsEvent) : Bool :=
  if d > 0 then armed (now + d) none evs else noDeadline evs

/-- A connection like `sampleConn` whose standard output handle has been closed. -/
def sampleConnStdoutClosed : Conn :=
  { channels :=
      [newWebsocketChannel 0 false true, (newWebsocketChannel 1 true false).closed,
       newWebsocketChannel 2 true false, newWebsocketChannel 3 true true],
    ready := true, ws := some { now := 1000, events := [], sendErrs := [] },
    timeout := 0 }

/-- The connection of a session with TTY (stderr ignored), opened, no idle timeout. -/
def sampleConnTty : Conn :=
  { channels := NewConn.loop 0
      [ChannelType.WriteChannel, ChannelType.ReadChannel, ChannelType.IgnoreChannel,
       ChannelType.ReadWriteChannel],
    ready := true, ws := some { now := 1000, events := [], sendErrs := [] },
    timeout := 0 }

/-- A run away from any terminal in which the remote command fails: the control channel
delivers `boom` before it ends. -/
def sampleEnvBoom : Env :=
  { stdoutIsTerminal := false, stderrIsTerminal := false, stdinIsTerminal := false,
    probe := Except.ok { StatusCode := 200, Status := ascii "200 OK" }, probes := [],
    size := Except.ok (0, 0), raw := Except.ok 0, dial := Except.ok sampleWS, dials := [],
    ticks := 0, data := ascii "boom", err := none }

/-- A run away from any terminal in which both handshake tries are refused. -/
def sampleEnvRefused : Env :=
  { stdoutIsTerminal := false, stderrIsTerminal := false, stdinIsTerminal := false,
    probe := Except.ok { StatusCode := 200, Status := ascii "200 OK" }, probes := [],
    size := Except.ok (0, 0), raw := Except.ok 0,
    dial := Except.error (GoError.other (ascii "connection reset")),
    dials := [Except.error (GoError.other (ascii "connection refused"))],
    ticks := 0, data := [], err := none }

/-- A run away from any terminal whose readiness tries are those the readiness strategy
leaves time for when the probe fails twice and then gets status 200. -/
def sampleEnvSlowStart : Env :=
  { stdoutIsTerminal := false, stderrIsTerminal := false, stdinIsTerminal := false,
    probe := (remoteExec.execute.okStrategy.schedule (failsThenReady 2)).1,
    probes := (remoteExec.execute.okStrategy.schedule (failsThenReady 2)).2,
    size := Except.ok (0, 0), raw := Except.ok 0, dial := Except.ok sampleWS, dials := [],
    ticks := 0, data := [], err := none }

/-- A websocket whose next send fails. -/
def sampleWSFailing : WS :=
  { now := 1000, events := [], sendErrs := [some (GoError.other (ascii "broken pipe"))] }

/-- A run on a terminal of 80 columns and 24 lines in which everything succeeds. -/
def sampleEnvTty : Env :=
  { stdoutIsTerminal := true, stderrIsTerminal := true, stdinIsTerminal := true,
    probe := Except.ok { StatusCode := 200, Status := ascii "200 OK" }, probes := [],
    size := Except.ok (80, 24), raw := Except.ok 7, dial := Except.ok sampleWS, dials := [],
    ticks := 1, data := [], err := none }

/-- A run on a terminal in which the probe never gets status 200. -/
def sampleEnvNotReady : Env :=
  { stdoutIsTerminal := true, stderrIsTerminal := true, stdinIsTerminal := true,
    probe := Except.ok { StatusCode := 503, Status := ascii "503 Service Unavailable" },
    probes := [Except.error (GoError.other (ascii "connection refused"))],
    size := Except.ok (80, 24), raw := Except.ok 7, dial := Except.ok sampleWS, dials := [],
    ticks := 0, data := [], err := none }

/-- A run on a terminal in which the handshake is refused. -/
def sampleEnvTtyRefused : Env :=
  { stdoutIsTerminal := true, stderrIsTerminal := true, stdinIsTerminal := true,
    probe := Except.ok { StatusCode := 200, Status := ascii "200 OK" }, probes := [],
    size := Except.ok (80, 24), raw := Except.ok 7,
    dial := Except.error (GoError.other (ascii "connection refused")), dials := [],
    ticks := 0, data := [], err := none }

/-- The cloud whose identity provider is `id.example.com`. -/
def sampleCloud : Cloud :=
  { Name := "primary",
    Identity := { Type_ := "oauth2", Location := "id.example.com", ClientID := "cli" },
    CurrentCluster := "main" }

/-- An identity held for another provider. -/
def sampleOtherIdentity : Identity :=
  { Provider := "id.other.org", Username := "bob",
    OAuth2 := { AccessToken := "b-access", RefreshToken := "b-refresh" } }

/-- A loaded configuration that holds one identity, for another provider. -/
def sampleConfig : GlobalConfig :=
  { Identities := [sampleOtherIdentity], Cloud := some sampleCloud, Identity := none }

/-- The authentication of a user who has just logged in. -/
def sampleAuth : ConfigAuth :=
  { Username := "alice", AccessToken := "a-access", RefreshToken := "a-refresh" }

/-! ## Auxiliary facts -/

theorem toByte_val {i : Nat} (h : i < 256) : (toByte i).val = i := by
  simp [toByte, Nat.mod_eq_of_lt h]

theorem frame_eq (num : Byte) (data : List Byte) :
    copyAt ((List.replicate (data.length + 1) (0 : Byte)).set 0 num) 1 data = num :: data := by
  simp [copyAt, List.replicate_succ]
  omega

theorem WS.sent_SetDeadline (w : WS) (t : Int) : (w.SetDeadline t).sent = w.sent := by
  simp [WS.SetDeadline, WS.sent]

theorem WS.sent_Send (w : WS) (frame : List Byte) :
    (w.Send frame).1.sent = w.sent ++ [frame] := by
  unfold WS.Send
  cases w.sendErrs <;> simp [WS.sent]

theorem NewConn.loop_getElem? (layout : List ChannelType) :
    ∀ (k i : Nat), (NewConn.loop k layout)[i]?
      = layout[i]?.map (fun t => match t with
          | ChannelType.ReadChannel => newWebsocketChannel (toByte (k + i)) true false
          | ChannelType.WriteChannel => newWebsocketChannel (toByte (k + i)) false true
          | ChannelType.ReadWriteChannel => newWebsocketChannel (toByte (k + i)) true true
          | ChannelType.IgnoreChannel => newWebsocketChannel (toByte (k + i)) false false) := by
  induction layout with
  | nil => intro k i; simp [NewConn.loop]
  | cons t ts ih =>
    intro k i
    cases i with
    | zero => simp [NewConn.loop]
    | succ j =>
      simp only [NewConn.loop, List.getElem?_cons_succ]
      rw [ih (k + 1) j]
      have : k + 1 + j = k + (j + 1) := by omega
      rw [this]

theorem NewConn.loop_length (layout : List ChannelType) :
    ∀ k : Nat, (NewConn.loop k layout).length = layout.length := by
  induction layout with
  | nil => intro k; simp [NewConn.loop]
  | cons t ts ih => intro k; simp [NewConn.loop, ih]

theorem Conn.hasLayout_length {conn : Conn} {layout : List ChannelType}
    (h : conn.hasLayout layout) : conn.channels.length = layout.length := by
  have := congrArg List.length h
  simpa [NewConn, NewConn.loop_length] using this

/-- In a connection with layout `layout` the channel at position `i` has the number
`byte(i)` and the capabilities of `layout[i]`. -/
theorem Conn.hasLayout_channel {conn : Conn} {layout : List ChannelType}
    (h : conn.hasLayout layout) {i : Nat} {p : websocketChannel}
    (hp : conn.channels[i]? = some p) :
    p.num = toByte i ∧ ∃ t, layout[i]? = some t ∧
      p.read = (decide (t = ChannelType.ReadChannel) || decide (t = ChannelType.ReadWriteChannel)) ∧
      p.write = (decide (t = ChannelType.WriteChannel) || decide (t = ChannelType.ReadWriteChannel)) := by
  have h1 := congrArg (fun l => l[i]?) h
  simp only [List.getElem?_map, hp, NewConn, NewConn.loop_getElem?, Option.map_some'] at h1
  cases ht : layout[i]? with
  | none => simp [ht] at h1
  | some t =>
    simp only [ht, Option.map_some', Option.some.injEq, Nat.zero_add] at h1
    cases t <;>
      simp [websocketChannel.descriptor, newWebsocketChannel] at h1 <;>
      simp [h1]

theorem Conn.resetTimeout_eq (conn : Conn) (w : WS) (hws : conn.ws = some w) :
    conn.resetTimeout = Except.ok { conn with ws := some (conn.rearmed w) } := by
  unfold Conn.resetTimeout Conn.rearmed
  by_cases h : conn.timeout > 0
  · simp [h, hws]; rfl
  · simp only [h, if_false]
    cases conn
    simp_all
    rfl

theorem Conn.rearmed_sent (conn : Conn) (w : WS) : (conn.rearmed w).sent = w.sent := by
  unfold Conn.rearmed
  split
  · exact WS.sent_SetDeadline _ _
  · rfl

/-- What `Conn.write` does on an opened connection. -/
theorem Conn.write_eq (conn : Conn) (w : WS) (num : Byte) (data : List Byte)
    (hws : conn.ws = some w) :
    conn.write num data = Except.ok
      ({ conn with ws := some ((conn.rearmed w).Send (num :: data)).1 },
        (match ((conn.rearmed w).Send (num :: data)).2 with
          | some _ => 0
          | none => (data.length : Int)),
        ((conn.rearmed w).Send (num :: data)).2) := by
  unfold Conn.write
  rw [Conn.resetTimeout_eq conn w hws]
  simp only [bind, Except.bind, frame_eq]
  rcases hs : (conn.rearmed w).Send (num :: data) with ⟨w1, _ | e⟩ <;> simp [pure, Except.pure]

/-- The loop body on a frame for a readable channel whose pipe is open: the payload is
appended to that channel's pipe and nothing else changes. -/
theorem Conn.dispatch_deliver (conn : Conn) (i : Nat) (p : websocketChannel) (c : Byte)
    (data : List Byte) (hp : conn.channels[i]? = some p) (hc : c.val = i)
    (hr : p.read = true) (ho : p.pipe.closed = false) :
    Conn.readLoop.dispatch conn (c :: data) = Except.ok
      { conn with
        channels := conn.channels.set i
          { p with pipe := { p.pipe with buf := p.pipe.buf ++ [data] } } } := by
  have hi : i < conn.channels.length := (List.getElem?_eq_some_iff.mp hp).1
  have hlt : ¬ (conn.channels.length ≤ i) := by omega
  simp [Conn.readLoop.dispatch, hc, hlt, hp, websocketChannel.DataFromSocket, hr,
    Pipe.Write, ho, pure, Except.pure]

theorem Conn.writeAll_eq (layout : List ChannelType) (i : Nat) (payloads : List (List Byte)) :
    ∀ (conn : Conn) (w : WS) (p : websocketChannel), conn.hasLayout layout →
      conn.ws = some w → conn.channels[i]? = some p → p.write = true →
      ∃ conn1 w1, conn.writeAll i payloads = Except.ok conn1 ∧
        conn1.channels = conn.channels ∧ conn1.ws = some w1 ∧
        w1.sent = w.sent ++ payloads.map (fun data => toByte i :: data) := by
  induction payloads with
  | nil =>
    intro conn w p _ hws _ _
    exact ⟨conn, w, rfl, rfl, hws, by simp⟩
  | cons data more ih =>
    intro conn w p hl hws hp hw
    have hnum := (Conn.hasLayout_channel hl hp).1
    have hwr : p.Write conn data = conn.write p.num data := by
      simp [websocketChannel.Write, hw]
    obtain ⟨conn1, w1, h1, h2, h3, h4⟩ :=
      ih { conn with ws := some ((conn.rearmed w).Send (p.num :: data)).1 }
        ((conn.rearmed w).Send (p.num :: data)).1 p hl rfl hp hw
    refine ⟨conn1, w1, ?_, h2, h3, ?_⟩
    · rw [Conn.writeAll]
      simp only [hp, hwr, Conn.write_eq conn w p.num data hws, bind, Except.bind]
      exact h1
    · rw [h4, WS.sent_Send, Conn.rearmed_sent, hnum]
      simp

theorem Conn.dispatchAll_eq (i : Nat) (c : Byte) (hc : c.val = i)
    (payloads : List (List Byte)) :
    ∀ (conn : Conn) (p : websocketChannel), conn.channels[i]? = some p →
      p.read = true → p.pipe.closed = false →
      conn.dispatchAll (payloads.map (fun data => c :: data)) = Except.ok
        { conn with
          channels := conn.channels.set i
            { p with pipe := { p.pipe with buf := p.pipe.buf ++ payloads } } } := by
  induction payloads with
  | nil =>
    intro conn p hp _ _
    simp only [List.map_nil, Conn.dispatchAll, List.append_nil]
    have : conn.channels.set i p = conn.channels := by
      apply List.ext_getElem?
      intro j
      by_cases hj : j = i
      · subst hj
        rw [List.getElem?_set_self (List.getElem?_eq_some_iff.mp hp).1, hp]
      · rw [List.getElem?_set_ne (Ne.symm hj)]
    rw [this]
    rfl
  | cons data more ih =>
    intro conn p hp hr ho
    have hi : i < conn.channels.length := (List.getElem?_eq_some_iff.mp hp).1
    simp only [List.map_cons, Conn.dispatchAll, bind, Except.bind,
      Conn.dispatch_deliver conn i p c data hp hc hr ho]
    rw [ih _ { p with pipe := { p.pipe with buf := p.pipe.buf ++ [data] } }
      (by simp [List.getElem?_set_self hi]) hr ho]
    simp [List.set_set, List.append_assoc]

theorem map_set_same {α β : Type} (f : α → β) (l : List α) (i : Nat) (a b : α)
    (h : l[i]? = some a) (hf : f b = f a) : (l.set i b).map f = l.map f := by
  have hi : i < l.length := (List.getElem?_eq_some_iff.mp h).1
  apply List.ext_getElem?
  intro j
  by_cases hj : j = i
  · subst hj
    rw [List.getElem?_map, List.getElem?_map, List.getElem?_set_self hi, h]
    simp [hf]
  · rw [List.getElem?_map, List.getElem?_map, List.getElem?_set_ne (Ne.symm hj)]

/-- The loop body never faults and changes nothing but the contents of pipes. -/
theorem Conn.dispatch_preserves (conn : Conn) (frame : List Byte) :
    ∃ conn1, Conn.readLoop.dispatch conn frame = Except.ok conn1 ∧
      conn1.ws = conn.ws ∧ conn1.timeout = conn.timeout ∧ conn1.ready = conn.ready ∧
      conn1.channels.map websocketChannel.descriptor
        = conn.channels.map websocketChannel.descriptor ∧
      conn1.channels.map (fun p => p.pipe.closed)
        = conn.channels.map (fun p => p.pipe.closed) := by
  cases frame with
  | nil => exact ⟨conn, rfl, rfl, rfl, rfl, rfl, rfl⟩
  | cons c data =>
    by_cases hge : c.val ≥ conn.channels.length
    · exact ⟨conn, by simp [Conn.readLoop.dispatch, hge, pure, Except.pure],
        rfl, rfl, rfl, rfl, rfl⟩
    · have hlt : c.val < conn.channels.length := by omega
      have hp : conn.channels[c.val]? = some conn.channels[c.val] :=
        List.getElem?_eq_getElem hlt
      generalize conn.channels[c.val] = p at hp
      have hdesc : (p.DataFromSocket data).1.descriptor = p.descriptor := by
        by_cases hr : p.read <;> by_cases hc : p.pipe.closed <;>
          simp [websocketChannel.DataFromSocket, Pipe.Write, hr, hc,
            websocketChannel.descriptor]
      have hclosed : (p.DataFromSocket data).1.pipe.closed = p.pipe.closed := by
        by_cases hr : p.read <;> by_cases hc : p.pipe.closed <;>
          simp [websocketChannel.DataFromSocket, Pipe.Write, hr, hc]
      refine ⟨{ conn with channels := conn.channels.set c.val (p.DataFromSocket data).1 },
        ?_, rfl, rfl, rfl, ?_, ?_⟩
      · simp only [Conn.readLoop.dispatch, hge, if_false, hp]
        rcases p.DataFromSocket data with ⟨q, n, _ | e⟩ <;> rfl
      · exact map_set_same _ _ _ p _ hp hdesc
      · exact map_set_same _ _ _ p _ hp hclosed

theorem Conn.dispatchAll_preserves (frames : List (List Byte)) :
    ∀ conn : Conn, ∃ conn1, conn.dispatchAll frames = Except.ok conn1 ∧
      conn1.ws = conn.ws ∧ conn1.timeout = conn.timeout ∧ conn1.ready = conn.ready ∧
      conn1.channels.map websocketChannel.descriptor
        = conn.channels.map websocketChannel.descriptor ∧
      conn1.channels.map (fun p => p.pipe.closed)
        = conn.channels.map (fun p => p.pipe.closed) := by
  induction frames with
  | nil => intro conn; exact ⟨conn, rfl, rfl, rfl, rfl, rfl, rfl⟩
  | cons frame more ih =>
    intro conn
    obtain ⟨c1, h1, h2, h3, h4, h5, h6⟩ := Conn.dispatch_preserves conn frame
    obtain ⟨c2, g1, g2, g3, g4, g5, g6⟩ := ih c1
    refine ⟨c2, ?_, g2.trans h2, g3.trans h3, g4.trans h4, g5.trans h5, g6.trans h6⟩
    simp only [Conn.dispatchAll, h1, bind, Except.bind]
    exact g1

theorem NewConn.loop_open (layout : List ChannelType) :
    ∀ k : Nat, (NewConn.loop k layout).map (fun p => p.pipe.closed)
      = List.replicate layout.length false := by
  induction layout with
  | nil => intro k; rfl
  | cons t ts ih =>
    intro k
    cases t <;> simp [NewConn.loop, ih, List.replicate_succ, newWebsocketChannel, Pipe.new]

/-- An opened connection exists, has the layout it was made for, is bound to a websocket
that has seen no other call, keeps its idle timeout, and all its pipes are open. -/
theorem openedConn_ok (layout : List ChannelType) (d : Int) (w : WS)
    (before : List (List Byte)) :
    ∃ conn, openedConn layout d w before = Except.ok conn ∧ conn.hasLayout layout ∧
      conn.ws = some w ∧ conn.timeout = d ∧ conn.ready = true ∧
      ∀ (i : Nat) (p : websocketChannel),
        conn.channels[i]? = some p → p.pipe.closed = false := by
  obtain ⟨c1, h1, h2, h3, h4, h5, h6⟩ := Conn.dispatchAll_preserves before
    { channels := NewConn.loop 0 layout, ready := true, ws := some w, timeout := d }
  refine ⟨c1, ?_, ?_, h2, h3, h4, ?_⟩
  · simpa [openedConn, NewConn, Conn.SetIdleTimeout, Conn.Open, Conn.initialize, bind,
      Except.bind, pure, Except.pure] using h1
  · exact h5
  · intro i p hp
    have := congrArg (fun l => l[i]?) h6
    simp only [List.getElem?_map, hp, NewConn.loop_open, Option.map_some'] at this
    have hi : i < layout.length := by
      have hl := congrArg List.length h5
      simp only [List.length_map, NewConn.loop_length] at hl
      have := (List.getElem?_eq_some_iff.mp hp).1
      omega
    rw [List.getElem?_replicate_of_lt hi] at this
    exact Option.some.inj this

/-- The round trip on any opened connection whose channel `i` is read-write with an
open inbound pipe. -/
theorem Conn.round_trip_open (layout : List ChannelType) (conn : Conn) (w : WS) (i : Nat)
    (payloads : List (List Byte))
    (hlayout : conn.hasLayout layout) (hN : conn.channels.length ≤ 256)
    (hws : conn.ws = some w) (hrw : layout[i]? = some ChannelType.ReadWriteChannel)
    (hopen : conn.channels[i]?.map (fun p => p.pipe.closed) = some false) :
    ∃ conn1 w1 conn2 old,
      conn.writeAll i payloads = Except.ok conn1 ∧ conn1.ws = some w1 ∧
      conn1.dispatchAll (w1.sent.drop w.sent.length) = Except.ok conn2 ∧
      conn.inbound i = some old ∧ conn2.inbound i = some (old ++ payloads) ∧
      ∀ j, j ≠ i → conn2.channels[j]? = conn.channels[j]? := by
  cases hp : conn.channels[i]? with
  | none => simp [hp] at hopen
  | some p =>
    have ho : p.pipe.closed = false := by simpa [hp] using hopen
    have hi : i < conn.channels.length := (List.getElem?_eq_some_iff.mp hp).1
    obtain ⟨-, t, ht, hr, hwr⟩ := Conn.hasLayout_channel hlayout hp
    rw [hrw] at ht
    cases ht
    have hr1 : p.read = true := by simpa using hr
    have hw1 : p.write = true := by simpa using hwr
    obtain ⟨conn1, w1, h1, h2, h3, h4⟩ :=
      Conn.writeAll_eq layout i payloads conn w p hlayout hws hp hw1
    have hc : (toByte i).val = i := toByte_val (by omega)
    have hp1 : conn1.channels[i]? = some p := by rw [h2]; exact hp
    refine ⟨conn1, w1,
      { conn1 with
        channels := conn1.channels.set i
          { p with pipe := { p.pipe with buf := p.pipe.buf ++ payloads } } },
      p.pipe.buf, h1, h3, ?_, ?_, ?_, ?_⟩
    · rw [h4, List.drop_left]
      exact Conn.dispatchAll_eq i (toByte i) hc payloads conn1 p hp1 hr1 ho
    · simp [Conn.inbound, hp]
    · simp [Conn.inbound, h2, List.getElem?_set_self hi]
    · intro j hj
      simp only [h2]
      rw [List.getElem?_set_ne (Ne.symm hj)]

/-- `Write` on a write-capable channel of any opened connection. -/
theorem Conn.Write_frame (layout : List ChannelType) (conn : Conn) (w : WS) (i : Nat)
    (p : websocketChannel) (data : List Byte)
    (hlayout : conn.hasLayout layout) (hN : conn.channels.length ≤ 256)
    (hws : conn.ws = some w) (hp : conn.channels[i]? = some p) (hw : p.write = true) :
    ∃ conn1 w1 n err frame,
      p.Write conn data = Except.ok (conn1, n, err) ∧ conn1.ws = some w1 ∧
      w1.sent = w.sent ++ [frame] ∧ frame.length = data.length + 1 ∧
      frame.head?.map Fin.val = some i ∧ frame.tail = data := by
  have hi : i < 256 := by
    have := (List.getElem?_eq_some_iff.mp hp).1
    omega
  have hnum := (Conn.hasLayout_channel hlayout hp).1
  have hwrite := Conn.write_eq conn w p.num data hws
  have hW : p.Write conn data = conn.write p.num data := by
    simp [websocketChannel.Write, hw]
  rw [← hW] at hwrite
  exact ⟨_, _, _, _, p.num :: data, hwrite, rfl,
    by rw [WS.sent_Send, Conn.rearmed_sent], by simp, by simp [hnum, toByte_val hi], rfl⟩

theorem Conn.resetTimeout_channels {conn c : Conn} (h : conn.resetTimeout = Except.ok c) :
    c.channels = conn.channels := by
  unfold Conn.resetTimeout at h
  split at h
  · cases hws : conn.ws with
    | none => simp [hws, throw, throwThe, MonadExceptOf.throw] at h
    | some w =>
      simp only [hws, pure, Except.pure, Except.ok.injEq] at h
      rw [← h]
  · simp only [pure, Except.pure, Except.ok.injEq] at h
    rw [← h]

theorem Conn.receive_channels {conn c : Conn} (h : conn.receive = Except.ok c) :
    c.channels = conn.channels := by
  unfold Conn.receive at h
  cases hws : conn.ws with
  | none => simp [hws, throw, throwThe, MonadExceptOf.throw] at h
  | some w =>
    simp only [hws, pure, Except.pure, Except.ok.injEq] at h
    rw [← h]

theorem execute_ok_snd (re : remoteExec) (a : Except GoError Response)
    (tr : List Event) :
    ((remoteExec.execute.ok re a tr).2 = none) ↔ Response.ready a = true := by
  unfold remoteExec.execute.ok Response.ready
  cases a with
  | error e => simp
  | ok r => by_cases h : r.StatusCode = 200 <;> simp [h]

/-- The readiness `Run` returns nil exactly when one of the tries succeeds. -/
theorem Run_ready (re : remoteExec) (more : List (Except GoError Response)) :
    ∀ (a : Except GoError Response) (tr : List Event),
      ((attempt.Run (remoteExec.execute.ok re) a more tr).2 = none)
        ↔ (a :: more).any Response.ready = true := by
  induction more with
  | nil =>
    intro a tr
    simp [attempt.Run, execute_ok_snd]
  | cons b more ih =>
    intro a tr
    rw [attempt.Run]
    have h0 := execute_ok_snd re a tr
    rcases h : remoteExec.execute.ok re a tr with ⟨s, _ | e⟩
    · rw [h] at h0
      simp only [true_iff] at h0
      simp [h0]
    · rw [h] at h0
      have h1 : Response.ready a = false := by
        cases hr : Response.ready a with
        | false => rfl
        | true => exact absurd (h0.mpr hr) (by simp)
      simp only [ih b s]
      simp [h1]

/-- The handshake `Run` returns nil exactly when one of the tries connects, and then the
session holds the websocket of that try and the stream options of `opts`. -/
theorem Run_dial (opts : clientOpts) (more : List (Except GoError WS)) :
    ∀ (a : Except GoError WS) (re : remoteExec) (tr : List Event),
      ∃ tr1, (((a :: more).any (fun r => match r with
            | Except.ok _ => true
            | Except.error _ => false) = true) ∧
          ∃ ws, attempt.Run (fun dial s => remoteExec.attach s.1 opts dial s.2) a more
              (re, tr)
            = (({ re with ws := some ws, streamOpts := some (newStreamOptions opts) }, tr1),
                none)) ∨
        (((a :: more).any (fun r => match r with
            | Except.ok _ => true
            | Except.error _ => false) = false) ∧
          ∃ err, attempt.Run (fun dial s => remoteExec.attach s.1 opts dial s.2) a more
              (re, tr)
            = ((re, tr1), some err)) := by
  induction more with
  | nil =>
    intro a re tr
    cases a with
    | error e =>
      exact ⟨tr ++ [Event.Dial ("ws://" ++ re.endpoint ++ "/") (json.Marshal opts)],
        Or.inr ⟨by simp, e, by simp [attempt.Run, remoteExec.attach]⟩⟩
    | ok ws =>
      exact ⟨tr ++ [Event.Dial ("ws://" ++ re.endpoint ++ "/") (json.Marshal opts)],
        Or.inl ⟨by simp, ws, by simp [attempt.Run, remoteExec.attach]⟩⟩
  | cons b more ih =>
    intro a re tr
    cases a with
    | ok ws =>
      exact ⟨tr ++ [Event.Dial ("ws://" ++ re.endpoint ++ "/") (json.Marshal opts)],
        Or.inl ⟨by simp, ws, by simp [attempt.Run, remoteExec.attach]⟩⟩
    | error e =>
      obtain ⟨tr1, h⟩ := ih b re
        (tr ++ [Event.Dial ("ws://" ++ re.endpoint ++ "/") (json.Marshal opts)])
      refine ⟨tr1, ?_⟩
      rcases h with ⟨h1, ws, h2⟩ | ⟨h1, err, h2⟩
      · refine Or.inl ⟨by simpa using h1, ws, ?_⟩
        rw [attempt.Run]
        simpa [remoteExec.attach] using h2
      · refine Or.inr ⟨by simpa using h1, err, ?_⟩
        rw [attempt.Run]
        simpa [remoteExec.attach] using h2

/-! ## The multiplexed connection -/

/-- C1: take a connection made by `NewConn` for a layout of at most 256 channels,
opened, on which the read loop may already have dispatched messages, and a channel `i`
of type `ReadWriteChannel`.  Writing the payloads one after the other on channel `i`
and handing the frames these writes put on the underlying connection, in that order, to
the body of the read loop appends exactly the payloads, unchanged and in the order
written, to the inbound pipe of channel `i` and leaves every other channel as it
was. -/
theorem round_trip (layout : List ChannelType) (d : Int) (w : WS)
    (before : List (List Byte)) (i : Nat) (payloads : List (List Byte))
    (hN : layout.length ≤ 256) (hrw : layout[i]? = some ChannelType.ReadWriteChannel) :
    ∃ conn conn1 w1 conn2 old,
      openedConn layout d w before = Except.ok conn ∧
      conn.writeAll i payloads = Except.ok conn1 ∧ conn1.ws = some w1 ∧
      conn1.dispatchAll (w1.sent.drop w.sent.length) = Except.ok conn2 ∧
      conn.inbound i = some old ∧ conn2.inbound i = some (old ++ payloads) ∧
      ∀ j, j ≠ i → conn2.channels[j]? = conn.channels[j]? := by
  obtain ⟨conn, h1, h2, h3, -, -, h6⟩ := openedConn_ok layout d w before
  have hlen := Conn.hasLayout_length h2
  have hi : i < conn.channels.length := by
    rw [hlen]
    exact (List.getElem?_eq_some_iff.mp hrw).1
  have hopen : conn.channels[i]?.map (fun p => p.pipe.closed) = some false := by
    rw [List.getElem?_eq_getElem hi]
    simp [h6 i _ (List.getElem?_eq_getElem hi)]
  obtain ⟨conn1, w1, conn2, old, g⟩ :=
    Conn.round_trip_open layout conn w i payloads h2 (by omega) h3 hrw hopen
  exact ⟨conn, conn1, w1, conn2, old, h1, g⟩

theorem round_trip_witness :
    ∃ conn conn1 w1 conn2 old,
      openedConn sampleLayout (10 * time.Second) sampleWS [[1, 111]] = Except.ok conn ∧
      conn.writeAll 3 [[104, 105], [], [33]] = Except.ok conn1 ∧ conn1.ws = some w1 ∧
      conn1.dispatchAll (w1.sent.drop sampleWS.sent.length) = Except.ok conn2 ∧
      conn.inbound 3 = some old ∧ conn2.inbound 3 = some (old ++ [[104, 105], [], [33]]) ∧
      ∀ j, j ≠ 3 → conn2.channels[j]? = conn.channels[j]? :=
  round_trip sampleLayout (10 * time.Second) sampleWS [[1, 111]] 3 [[104, 105], [], [33]]
    (by decide) (by decide)

/-- C2: take a connection made by `NewConn` for a layout of at most 256 channels,
opened, in any later state of its inbound side.  `Write(data)` on the channel at
position `i`, when its type is `WriteChannel` or `ReadWriteChannel`, hands exactly one
frame to the underlying connection; the frame has length `len(data)+1`, its first byte
is `i` and the rest of it is `data`. -/
theorem Write_sends_one_frame (layout : List ChannelType) (d : Int) (w : WS)
    (before : List (List Byte)) (i : Nat) (data : List Byte)
    (hN : layout.length ≤ 256)
    (hcap : layout[i]? = some ChannelType.WriteChannel
      ∨ layout[i]? = some ChannelType.ReadWriteChannel) :
    ∃ conn p conn1 w1 n err frame,
      openedConn layout d w before = Except.ok conn ∧ conn.channels[i]? = some p ∧
      p.Write conn data = Except.ok (conn1, n, err) ∧ conn1.ws = some w1 ∧
      w1.sent = w.sent ++ [frame] ∧ frame.length = data.length + 1 ∧
      frame.head?.map Fin.val = some i ∧ frame.tail = data := by
  obtain ⟨conn, h1, h2, h3, -, -, -⟩ := openedConn_ok layout d w before
  have hlen := Conn.hasLayout_length h2
  have hi : i < conn.channels.length := by
    rw [hlen]
    rcases hcap with h | h <;> exact (List.getElem?_eq_some_iff.mp h).1
  have hp := List.getElem?_eq_getElem hi
  obtain ⟨-, t, ht, -, hwr⟩ := Conn.hasLayout_channel h2 hp
  have hw : (conn.channels[i]).write = true := by
    rcases hcap with h | h <;> rw [h] at ht <;> cases ht <;> simpa using hwr
  obtain ⟨conn1, w1, n, err, frame, g⟩ :=
    Conn.Write_frame layout conn w i _ data h2 (by omega) h3 hp hw
  exact ⟨conn, _, conn1, w1, n, err, frame, h1, hp, g⟩

theorem Write_sends_one_frame_witness :
    ∃ conn p conn1 w1 n err frame,
      openedConn sampleLayout (10 * time.Second) sampleWS [] = Except.ok conn ∧
      conn.channels[3]? = some p ∧
      p.Write conn [] = Except.ok (conn1, n, err) ∧ conn1.ws = some w1 ∧
      w1.sent = sampleWS.sent ++ [frame] ∧ frame.length = ([] : List Byte).length + 1 ∧
      frame.head?.map Fin.val = some 3 ∧ frame.tail = [] :=
  Write_sends_one_frame sampleLayout (10 * time.Second) sampleWS [] 3 []
    (by decide) (Or.inr (by decide))

/-- C3: on a connection of any layout, `Write(data)` on a channel whose type is
`IgnoreChannel` or `ReadChannel` returns `(len(data), nil)` and leaves the whole
connection, the underlying websocket and its deadline included, as it was. -/
theorem Write_without_capability (layout : List ChannelType) (conn : Conn) (i : Nat)
    (p : websocketChannel) (data : List Byte)
    (hlayout : conn.hasLayout layout) (hp : conn.channels[i]? = some p)
    (ht : layout[i]? = some ChannelType.IgnoreChannel
      ∨ layout[i]? = some ChannelType.ReadChannel) :
    p.Write conn data = Except.ok (conn, (data.length : Int), none) := by
  obtain ⟨-, t, ht1, -, hwr⟩ := Conn.hasLayout_channel hlayout hp
  have hw : p.write = false := by
    rcases ht with h | h <;> rw [h] at ht1 <;> cases ht1 <;> simpa using hwr
  simp [websocketChannel.Write, hw, pure, Except.pure]

theorem Write_without_capability_witness :
    sampleStdout.Write sampleConn [7, 8] = Except.ok (sampleConn, 2, none) :=
  Write_without_capability sampleLayout sampleConn 1 sampleStdout [7, 8]
    (by decide) (by decide) (Or.inr (by decide))

/-- C4: when the first byte of a non-empty inbound message is at least the number of
channels, the loop body changes nothing (no channel receives anything) and does not
fault on an index, and the iteration of the read loop that receives the message
consists of the deadline reset and the receive alone, after which the loop goes on with
the remaining messages. -/
theorem readLoop_drops_out_of_range (conn : Conn) (channel : Byte)
    (data : List Byte) (rest : List (Except GoError (List Byte)))
    (h : channel.val ≥ conn.channels.length) :
    Conn.readLoop.dispatch conn (channel :: data) = Except.ok conn ∧
    conn.readLoop (Except.ok (channel :: data) :: rest)
      = (do
          let c ← conn.resetTimeout
          let c ← c.receive
          c.readLoop rest) := by
  have hd : ∀ c : Conn, c.channels = conn.channels →
      Conn.readLoop.dispatch c (channel :: data) = Except.ok c := by
    intro c hc
    simp [Conn.readLoop.dispatch, hc, h, pure, Except.pure]
  refine ⟨hd conn rfl, ?_⟩
  rw [Conn.readLoop]
  cases h1 : conn.resetTimeout with
  | error f => rfl
  | ok c1 =>
    simp only [bind, Except.bind]
    cases h2 : c1.receive with
    | error f => rfl
    | ok c2 =>
      simp only []
      rw [hd c2 ((Conn.receive_channels h2).trans (Conn.resetTimeout_channels h1))]

theorem readLoop_drops_out_of_range_witness :
    Conn.readLoop.dispatch sampleConn [9, 65, 66] = Except.ok sampleConn ∧
    sampleConn.readLoop [Except.ok [9, 65, 66], Except.ok [1, 67]]
      = (do
          let c ← sampleConn.resetTimeout
          let c ← c.receive
          c.readLoop [Except.ok [1, 67]]) :=
  readLoop_drops_out_of_range sampleConn 9 [65, 66] [Except.ok [1, 67]] (by decide)

/-! ## The attach session -/

theorem heartbeats_eq (p : websocketChannel) (hw : p.write = true) :
    ∀ (ticks : Nat) (conn : Conn) (w : WS), conn.ws = some w →
      ∃ w1, remoteExec.interact.heartbeats p conn ticks
          = Except.ok { conn with ws := some w1 } ∧
        w1.sent = w.sent ++ List.replicate ticks [p.num, 1] := by
  intro ticks
  induction ticks with
  | zero =>
    intro conn w hws
    refine ⟨w, ?_, by simp⟩
    cases conn
    simp_all [remoteExec.interact.heartbeats, pure, Except.pure]
  | succ t ih =>
    intro conn w hws
    have hW : ∀ c : Conn, p.Write c [1] = c.write p.num [1] := by
      intro c
      simp [websocketChannel.Write, hw]
    have hwr := Conn.write_eq
      { conn with ws := some (w.Tick remoteExec.interact.period) }
      (w.Tick remoteExec.interact.period) p.num [1] rfl
    obtain ⟨w1, h1, h2⟩ :=
      ih { conn with
            ws := some ((({ conn with ws := some (w.Tick remoteExec.interact.period) }
              : Conn).rearmed (w.Tick remoteExec.interact.period)).Send [p.num, 1]).1 }
        _ rfl
    refine ⟨w1, ?_, ?_⟩
    · rw [remoteExec.interact.heartbeats]
      simp only [hws, Option.map_some', hW, hwr, bind, Except.bind]
      exact h1
    · rw [h2, WS.sent_Send, Conn.rearmed_sent, List.replicate_succ]
      simp [WS.Tick, WS.sent]

/-- What `createStreams` builds once `attach` has succeeded with `opts` on the websocket
`dialed`. -/
theorem createStreams_eq (re : remoteExec) (opts : clientOpts) (dialed : WS) :
    ({ re with ws := some dialed, streamOpts := some (newStreamOptions opts) }
        : remoteExec).createStreams = Except.ok
      { conn :=
          { channels := NewConn.loop 0
              [ChannelType.WriteChannel, ChannelType.ReadChannel,
               if opts.Tty then ChannelType.IgnoreChannel else ChannelType.ReadChannel,
               ChannelType.ReadWriteChannel],
            ready := true, ws := some dialed, timeout := 10 * time.Second },
        stdinStream := newWebsocketChannel 0 false true,
        stdoutStream := newWebsocketChannel 1 true false,
        stderrStream := newWebsocketChannel 2 (!opts.Tty) false,
        controlStream := newWebsocketChannel 3 true true,
        tty := opts.Tty } := by
  rcases opts with ⟨tty, width, height⟩
  cases tty <;> rfl

/-- What `interact` returns once `attach` has succeeded. -/
theorem interact_eq (re : remoteExec) (opts : clientOpts) (dialed : WS) (ticks : Nat)
    (data : List Byte) (err : Option GoError) :
    ∃ w1 : WS, w1.sent = dialed.sent ++ List.replicate ticks [3, 1] ∧
      ({ re with ws := some dialed, streamOpts := some (newStreamOptions opts) }
          : remoteExec).interact ticks data err = Except.ok
        ({ re with ws := some w1.Close, streamOpts := some (newStreamOptions opts) },
          (match remoteExec.interact.drained data err with
            | some _ => 1
            | none => 0),
          remoteExec.interact.drained data err) := by
  obtain ⟨w1, h1, h2⟩ := heartbeats_eq (newWebsocketChannel 3 true true) rfl ticks
    { channels := NewConn.loop 0
        [ChannelType.WriteChannel, ChannelType.ReadChannel,
         if opts.Tty then ChannelType.IgnoreChannel else ChannelType.ReadChannel,
         ChannelType.ReadWriteChannel],
      ready := true, ws := some dialed, timeout := 10 * time.Second } dialed rfl
  refine ⟨w1, h2, ?_⟩
  unfold remoteExec.interact
  rw [createStreams_eq]
  simp only [bind, Except.bind, h1]
  cases remoteExec.interact.drained data err <;> rfl

/-- C5: whatever the client options, the connection the session opens after a
successful `attach` has exactly the four channels stdin, stdout, stderr, control, in
that order, of types (write, read, ignore, read-write) when `Tty` is set and
(write, read, read, read-write) when it is not. -/
theorem session_layout (re : remoteExec) (opts : clientOpts) (dialed : WS)
    (trace : List Event) :
    remoteExec.createStreams.channels (newStreamOptions opts)
      = (if opts.Tty then
          [ChannelType.WriteChannel, ChannelType.ReadChannel, ChannelType.IgnoreChannel,
           ChannelType.ReadWriteChannel]
        else
          [ChannelType.WriteChannel, ChannelType.ReadChannel, ChannelType.ReadChannel,
           ChannelType.ReadWriteChannel]) ∧
    ∃ ctx, (re.attach opts (Except.ok dialed) trace).1.1.createStreams = Except.ok ctx ∧
      ctx.conn.hasLayout (if opts.Tty then
          [ChannelType.WriteChannel, ChannelType.ReadChannel, ChannelType.IgnoreChannel,
           ChannelType.ReadWriteChannel]
        else
          [ChannelType.WriteChannel, ChannelType.ReadChannel, ChannelType.ReadChannel,
           ChannelType.ReadWriteChannel]) ∧
      ctx.conn.channels
        = [ctx.stdinStream, ctx.stdoutStream, ctx.stderrStream, ctx.controlStream] := by
  refine ⟨?_, _, createStreams_eq re opts dialed, ?_, ?_⟩
  · rcases opts with ⟨tty, width, height⟩
    cases tty <;> rfl
  · rcases opts with ⟨tty, width, height⟩
    cases tty <;> rfl
  · rcases opts with ⟨tty, width, height⟩
    cases tty <;> rfl

/-- C6: when `ioutil.ReadAll` on the control channel ends cleanly (no error, or
`io.EOF`) with no data, `interact`, called after a successful `attach`, returns exit
code 0 and a nil error, after any number of heartbeat ticks. -/
theorem interact_clean_end (re : remoteExec) (opts : clientOpts) (dialed : WS)
    (trace : List Event) (ticks : Nat) (err : Option GoError)
    (herr : err = none ∨ err = some GoError.EOF) :
    ∃ re2, (re.attach opts (Except.ok dialed) trace).1.1.interact ticks [] err
      = Except.ok (re2, 0, none) := by
  obtain ⟨w1, -, h⟩ := interact_eq re opts dialed ticks [] err
  have hd : remoteExec.interact.drained [] err = none := by
    rcases herr with h | h <;> subst h <;> simp [remoteExec.interact.drained]
  rw [hd] at h
  exact ⟨_, h⟩

theorem interact_clean_end_witness :
    ∃ re2, ((⟨"host:80", true, none, true, false, none⟩ : remoteExec).attach
        ⟨false, 0, 0⟩ (Except.ok sampleWS) []).1.1.interact 2 [] none
      = Except.ok (re2, 0, none) :=
  interact_clean_end ⟨"host:80", true, none, true, false, none⟩ ⟨false, 0, 0⟩ sampleWS []
    2 none (Or.inl rfl)

/-- C7: when `ioutil.ReadAll` on the control channel ends cleanly with a non-empty
payload `d`, `interact`, called after a successful `attach`, returns exit code 1 and an
error whose message is `executing remote command: ` followed by `d` (so it contains
`d`), and the last call made on the underlying websocket is `Close`. -/
theorem interact_error_payload (re : remoteExec) (opts : clientOpts) (dialed : WS)
    (trace : List Event) (ticks : Nat) (d : List Byte) (err : Option GoError)
    (hd : d ≠ []) (herr : err = none ∨ err = some GoError.EOF) :
    ∃ re2 w2 e, (re.attach opts (Except.ok dialed) trace).1.1.interact ticks d err
        = Except.ok (re2, 1, some e) ∧
      e.Error = ascii "executing remote command: " ++ d ∧ d <:+: e.Error ∧
      re2.ws = some w2 ∧ w2.events.getLast? = some WsEvent.Close := by
  obtain ⟨w1, -, h⟩ := interact_eq re opts dialed ticks d err
  have hlen : d.length > 0 := List.length_pos.mpr hd
  have hdr : remoteExec.interact.drained d err
      = some (GoError.Errorf (ascii "executing remote command: " ++ d)) := by
    rcases herr with h | h <;> subst h <;> simp [remoteExec.interact.drained, hlen]
  rw [hdr] at h
  refine ⟨_, w1.Close, _, h, rfl, ?_, rfl, by simp [WS.Close]⟩
  exact ⟨ascii "executing remote command: ", [], by simp [GoError.Error]⟩

theorem interact_error_payload_witness :
    ∃ re2 w2 e, ((⟨"host:80", true, none, true, false, none⟩ : remoteExec).attach
          ⟨false, 0, 0⟩ (Except.ok sampleWS) []).1.1.interact 0 (ascii "boom") none
        = Except.ok (re2, 1, some e) ∧
      e.Error = ascii "executing remote command: " ++ ascii "boom" ∧
      ascii "boom" <:+: e.Error ∧
      re2.ws = some w2 ∧ w2.events.getLast? = some WsEvent.Close :=
  interact_error_payload ⟨"host:80", true, none, true, false, none⟩ ⟨false, 0, 0⟩ sampleWS
    [] 0 (ascii "boom") none (by decide) (Or.inl rfl)

/-- The options either are not built because `fatal` ends the process, exactly when the
terminal fails, or are built; options without TTY have zero width and height and no
terminal state to restore. -/
theorem opts_cases (re : remoteExec) (env : Env) (tr : List Event) :
    (re.terminalFails env = true ∧
      ∃ msg tr1, remoteExec.execute.opts re env tr = (Except.error msg, tr1)) ∨
    (re.terminalFails env = false ∧
      ∃ opts st tr1, remoteExec.execute.opts re env tr = (Except.ok (opts, st), tr1) ∧
        (opts.Tty = false → opts.Width = 0 ∧ opts.Height = 0 ∧ st = none)) := by
  unfold remoteExec.execute.opts remoteExec.terminalFails
  rcases h1 : re.enableTty with _ | _
  · exact Or.inr ⟨by simp, ⟨false, 0, 0⟩, none, tr, by simp, fun _ => ⟨rfl, rfl, rfl⟩⟩
  · rcases h2 : env.stdinIsTerminal with _ | _
    · exact Or.inr ⟨by simp, ⟨false, 0, 0⟩, none, tr, by simp, fun _ => ⟨rfl, rfl, rfl⟩⟩
    · rcases h3 : env.size with e | ⟨w, h⟩
      · exact Or.inl ⟨by simp, e.Error, tr ++ [Event.GetSize], by simp⟩
      · rcases h4 : env.raw with e | st
        · exact Or.inl ⟨by simp, e.Error, tr ++ [Event.GetSize] ++ [Event.MakeRaw],
            by simp⟩
        · exact Or.inr ⟨by simp, ⟨true, w, h⟩, some st,
            tr ++ [Event.GetSize] ++ [Event.MakeRaw], by simp, by simp⟩

theorem session_outcome (re : remoteExec) (env : Env) (showIndicator : Bool)
    (tr : List Event) :
    (remoteExec.execute.session re env showIndicator tr).outcome =
      if re.terminalFails env then Outcome.exits 1
      else if env.dialed && env.clean then Outcome.returns 0
      else Outcome.returns 1 := by
  unfold remoteExec.execute.session
  rcases opts_cases re env tr with ⟨h1, msg, tr1, h2⟩ | ⟨h1, opts, st, tr1, h2, -⟩
  · simp [h1, h2]
  · simp only [h1, h2, Bool.false_eq_true, if_false]
    obtain ⟨tr2, h⟩ := Run_dial opts env.dials env.dial re tr1
    rcases h with ⟨h3, ws, h4⟩ | ⟨h3, err, h4⟩
    · have hd : env.dialed = true := h3
      obtain ⟨w1, -, h5⟩ := interact_eq re opts ws env.ticks env.data env.err
      simp only [h4, h5, hd, Bool.true_and]
      unfold Env.clean
      cases remoteExec.interact.drained env.data env.err <;> simp
    · have hd : env.dialed = false := h3
      simp [h4, hd]

/-- How a run of `execute` ends, for every environment. -/
theorem execute_outcome (re : remoteExec) (env : Env) :
    (re.execute env).outcome =
      if env.ready && !re.terminalFails env && env.dialed && env.clean then
        Outcome.returns 0
      else if env.ready && re.terminalFails env then Outcome.exits 1
      else Outcome.returns 1 := by
  unfold remoteExec.execute
  have hr := Run_ready re env.probes env.probe []
  rcases h : attempt.Run (remoteExec.execute.ok re) env.probe env.probes []
    with ⟨tr, _ | e⟩
  · rw [h] at hr
    have hready : env.ready = true := by simpa [Env.ready] using hr
    simp only [session_outcome, hready, Bool.true_and]
    cases re.terminalFails env <;> simp
  · rw [h] at hr
    have hready : env.ready = false := by
      cases hx : env.ready with
      | false => rfl
      | true => exact absurd (hr.mpr hx) (by simp)
    simp [hready]

/-- C8, the claim fails as stated: with TTY set and a terminal that reports width 0 the
header is `{"tty":true,"height":24}`; it carries no width field. -/
theorem header_drops_zero_width :
    json.Marshal { Tty := true, Width := 0, Height := 24 }
      = "\x7b\"tty\":true,\"height\":24\x7d" ∧
    ¬ ("width".toList <:+:
        (json.Marshal { Tty := true, Width := 0, Height := 24 }).toList) ∧
    (sampleExec.attach { Tty := true, Width := 0, Height := 24 }
        (Except.ok sampleWS) []).1.2
      = [Event.Dial "ws://host:80/" "\x7b\"tty\":true,\"height\":24\x7d"] := by
  decide

/-- C8, amended: with TTY set and a terminal size `(w, h)` whose width and height are
both non-zero, the value of the handshake header is the JSON object with the keys tty,
width, height in that order and nothing between the tokens; for `(80, 24)` it is exactly
`{"tty":true,"width":80,"height":24}`. -/
theorem handshake_header (re : remoteExec) (w h : Int) (dial : Except GoError WS)
    (trace : List Event) (hw : w ≠ 0) (hh : h ≠ 0) :
    (re.attach { Tty := true, Width := w, Height := h } dial trace).1.2
      = trace ++ [Event.Dial ("ws://" ++ re.endpoint ++ "/")
          ("\x7b\"tty\":true,\"width\":" ++ toString w ++ ",\"height\":" ++ toString h
            ++ "\x7d")] ∧
    json.Marshal { Tty := true, Width := 80, Height := 24 }
      = "\x7b\"tty\":true,\"width\":80,\"height\":24\x7d" := by
  have e : "\x7b\"tty\":true,\"width\":" = "\x7b\"tty\":" ++ "true" ++ ",\"width\":" := by
    decide
  have hm : json.Marshal { Tty := true, Width := w, Height := h }
      = "\x7b\"tty\":true,\"width\":" ++ toString w ++ ",\"height\":" ++ toString h
          ++ "\x7d" := by
    simp only [json.Marshal, hw, hh, ↓reduceIte]
    rw [e]
    simp only [String.append_assoc]
  refine ⟨?_, by decide⟩
  cases dial <;> simp [remoteExec.attach, hm]

theorem handshake_header_witness :
    (sampleExec.attach { Tty := true, Width := 80, Height := 24 } (Except.ok sampleWS) []).1.2
      = [] ++ [Event.Dial ("ws://" ++ sampleExec.endpoint ++ "/")
          ("\x7b\"tty\":true,\"width\":" ++ toString (80 : Int) ++ ",\"height\":"
            ++ toString (24 : Int) ++ "\x7d")] ∧
    json.Marshal { Tty := true, Width := 80, Height := 24 }
      = "\x7b\"tty\":true,\"width\":80,\"height\":24\x7d" :=
  handshake_header sampleExec 80 24 (Except.ok sampleWS) [] (by decide) (by decide)

/-- C9: whenever the options `execute` builds have `Tty = false`, their width and height
are zero and the header `attach` sends for them is exactly `{"tty":false}`. -/
theorem no_tty_header (re : remoteExec) (env : Env) (trace : List Event)
    (opts : clientOpts) (state : Option Nat) (tr : List Event)
    (dial : Except GoError WS) (trace2 : List Event)
    (h : remoteExec.execute.opts re env trace = (Except.ok (opts, state), tr))
    (htty : opts.Tty = false) :
    opts.Width = 0 ∧ opts.Height = 0 ∧
    json.Marshal opts = "\x7b\"tty\":false\x7d" ∧
    (re.attach opts dial trace2).1.2
      = trace2 ++ [Event.Dial ("ws://" ++ re.endpoint ++ "/") "\x7b\"tty\":false\x7d"] := by
  have hz : opts.Width = 0 ∧ opts.Height = 0 := by
    rcases opts_cases re env trace with ⟨-, msg, tr1, h2⟩ | ⟨-, o, st, tr1, h2, h3⟩
    · rw [h] at h2
      simp at h2
    · rw [h] at h2
      simp only [Prod.mk.injEq, Except.ok.injEq] at h2
      obtain ⟨⟨rfl, -⟩, -⟩ := h2
      exact ⟨(h3 htty).1, (h3 htty).2.1⟩
  rcases opts with ⟨t, w, ht⟩
  simp only at htty hz
  obtain ⟨rfl, rfl⟩ := hz
  subst htty
  have hm : json.Marshal { Tty := false, Width := 0, Height := 0 }
      = "\x7b\"tty\":false\x7d" := by decide
  refine ⟨rfl, rfl, hm, ?_⟩
  cases dial <;> simp [remoteExec.attach, hm]

theorem no_tty_header_witness :
    (⟨false, 0, 0⟩ : clientOpts).Width = 0 ∧ (⟨false, 0, 0⟩ : clientOpts).Height = 0 ∧
    json.Marshal ⟨false, 0, 0⟩ = "\x7b\"tty\":false\x7d" ∧
    (sampleExec.attach ⟨false, 0, 0⟩ (Except.ok sampleWS) []).1.2
      = [] ++ [Event.Dial ("ws://" ++ sampleExec.endpoint ++ "/") "\x7b\"tty\":false\x7d"] :=
  no_tty_header sampleExec sampleEnvPiped [] ⟨false, 0, 0⟩ none [] (Except.ok sampleWS) []
    rfl rfl

/-- C19: one readiness try requests `http://<endpoint>/ok`; it succeeds exactly when the
request returns a response and the status code is 200; a transport error is returned as
it is and any other status code gives the error `http error <status>`. -/
theorem readiness_try (re : remoteExec) (resp : Except GoError Response)
    (trace : List Event) :
    (remoteExec.execute.ok re resp trace).1
      = trace ++ [Event.Get ("http://" ++ re.endpoint ++ "/ok")] ∧
    ((remoteExec.execute.ok re resp trace).2 = none
      ↔ ∃ r, resp = Except.ok r ∧ r.StatusCode = 200) ∧
    (∀ e, resp = Except.error e → (remoteExec.execute.ok re resp trace).2 = some e) ∧
    (∀ r, resp = Except.ok r → r.StatusCode ≠ 200 →
      (remoteExec.execute.ok re resp trace).2
        = some (GoError.Errorf (ascii "http error " ++ r.Status))) := by
  unfold remoteExec.execute.ok
  cases resp with
  | error e => simp
  | ok r => by_cases h : r.StatusCode = 200 <;> simp [h]

theorem readiness_try_witness :
    (remoteExec.execute.ok sampleExec
        (Except.ok { StatusCode := 204, Status := ascii "204 No Content" }) []).2
      = some (GoError.Errorf (ascii "http error " ++ ascii "204 No Content")) :=
  (readiness_try sampleExec (Except.ok { StatusCode := 204, Status := ascii "204 No Content" })
    []).2.2.2 _ rfl (by decide)

/-! ## Closing, the read loop and the idle deadline -/

theorem WS.Send_events (w : WS) (frame : List Byte) :
    (w.Send frame).1.events = w.events ++ [WsEvent.Send frame] ∧
    (w.Send frame).1.now = w.now := by
  unfold WS.Send
  cases w.sendErrs <;> exact ⟨rfl, rfl⟩

theorem Conn.rearmed_events (conn : Conn) (w : WS) :
    (conn.rearmed w).events = w.events ++ conn.resetEvents w.now ∧
    (conn.rearmed w).now = w.now := by
  unfold Conn.rearmed Conn.resetEvents
  split
  · exact ⟨rfl, rfl⟩
  · exact ⟨by simp, rfl⟩

/-- The calls `Conn.write` makes on the websocket of an opened connection. -/
theorem Conn.write_events (conn : Conn) (w : WS) (num : Byte) (data : List Byte)
    (hws : conn.ws = some w) :
    ∃ (w1 : WS) (n : Int) (err : Option GoError),
      conn.write num data = Except.ok ({ conn with ws := some w1 }, n, err) ∧
      w1.now = w.now ∧
      w1.events = w.events ++ conn.resetEvents w.now ++ [WsEvent.Send (num :: data)] := by
  refine ⟨_, _, _, Conn.write_eq conn w num data hws, ?_, ?_⟩
  · rw [(WS.Send_events _ _).2, (Conn.rearmed_events conn w).2]
  · rw [(WS.Send_events _ _).1, (Conn.rearmed_events conn w).1]

theorem Conn.Close_loop_eq (chans : List websocketChannel) :
    ∀ (conn : Conn) (w : WS), conn.ws = some w →
      ∃ w1 : WS, Conn.Close.loop conn chans
          = Except.ok ({ conn with ws := some w1 }, chans.map websocketChannel.closed) ∧
        w1.now = w.now ∧
        w1.events = w.events ++ Conn.Close.events (conn.resetEvents w.now) chans := by
  induction chans with
  | nil =>
    intro conn w hws
    refine ⟨w, ?_, rfl, by simp [Conn.Close.events]⟩
    cases conn
    simp_all [Conn.Close.loop, pure, Except.pure]
  | cons s rest ih =>
    intro conn w hws
    obtain ⟨w1, n, err, h1, h2, h3⟩ := Conn.write_events conn w s.num [] hws
    obtain ⟨w2, g1, g2, g3⟩ := ih { conn with ws := some w1 } w1 rfl
    refine ⟨w2, ?_, g2.trans h2, ?_⟩
    · rw [Conn.Close.loop]
      simp only [websocketChannel.Close, h1, bind, Except.bind, Pipe.Close, pure,
        Except.pure, g1, List.map_cons]
      rfl
    · rw [g3, h3, h2]
      simp [Conn.Close.events, Conn.resetEvents]

/-- `Conn.Close` on an opened connection: it returns nil, leaves every pipe closed and
ends with `ws.Close()`. -/
theorem Conn.Close_eq (conn : Conn) (w : WS) (hr : conn.ready = true)
    (hws : conn.ws = some w) :
    ∃ w1 : WS, conn.Close
        = Except.ok ({ conn with channels := conn.channels.map websocketChannel.closed,
                                 ws := some w1 }, none) ∧
      w1.now = w.now ∧
      w1.events = w.events ++ Conn.Close.events (conn.resetEvents w.now) conn.channels
        ++ [WsEvent.Close] := by
  obtain ⟨w1, h1, h2, h3⟩ := Conn.Close_loop_eq conn.channels conn w hws
  refine ⟨w1.Close, ?_, h2, ?_⟩
  · unfold Conn.Close
    simp only [hr, Bool.not_true, Bool.false_eq_true, if_false, h1, bind, Except.bind,
      pure, Except.pure]
  · simp [WS.Close, h3]

theorem sent_of_events (w w1 : WS) (new : List WsEvent)
    (h : w1.events = w.events ++ new) :
    w1.sent = w.sent ++ new.filterMap (fun e => match e with
      | WsEvent.Send frame => some frame
      | _ => none) := by
  simp [WS.sent, h, List.filterMap_append]

theorem Close_events_sent (reset : List WsEvent)
    (hreset : reset.filterMap (fun e => match e with
      | WsEvent.Send frame => some frame
      | _ => none) = [])
    (chans : List websocketChannel) :
    (Conn.Close.events reset chans).filterMap (fun e => match e with
      | WsEvent.Send frame => some frame
      | _ => none) = chans.map (fun p => [p.num]) := by
  induction chans with
  | nil => rfl
  | cons p rest ih =>
    simp only [Conn.Close.events, List.filterMap_append, hreset, ih, List.map_cons]
    rfl

theorem resetEvents_sent (conn : Conn) (now : Int) :
    (conn.resetEvents now).filterMap (fun e => match e with
      | WsEvent.Send frame => some frame
      | _ => none) = [] := by
  unfold Conn.resetEvents
  split <;> rfl

theorem armed_of_none (t : Int) (evs : List WsEvent) (prev : Option WsEvent)
    (h : armed t none evs = true) : armed t prev evs = true := by
  cases evs with
  | nil => rfl
  | cons e rest =>
    cases e <;> simp_all [armed]

theorem armed_append (t : Int) (a : List WsEvent) :
    ∀ (prev : Option WsEvent) (b : List WsEvent),
      armed t prev a = true → armed t none b = true → armed t prev (a ++ b) = true := by
  induction a with
  | nil =>
    intro prev b _ hb
    exact armed_of_none t b prev hb
  | cons e rest ih =>
    intro prev b ha hb
    simp only [List.cons_append, armed, Bool.and_eq_true] at ha ⊢
    exact ⟨ha.1, ih (some e) b ha.2 hb⟩

theorem timed_append (d now : Int) (a b : List WsEvent)
    (ha : timed d now a = true) (hb : timed d now b = true) :
    timed d now (a ++ b) = true := by
  unfold timed at *
  split
  · rename_i h
    simp only [h, if_true] at ha hb
    exact armed_append _ a none b ha hb
  · rename_i h
    simp only [h, if_false] at ha hb
    simp only [noDeadline, List.all_append, Bool.and_eq_true] at *
    exact ⟨ha, hb⟩

theorem timed_send (conn : Conn) (now : Int) (frame : List Byte) :
    timed conn.timeout now (conn.resetEvents now ++ [WsEvent.Send frame]) = true := by
  unfold timed Conn.resetEvents
  by_cases h : conn.timeout > 0 <;> simp [h, armed, noDeadline]

theorem timed_receive (conn : Conn) (now : Int) :
    timed conn.timeout now (conn.resetEvents now ++ [WsEvent.Receive]) = true := by
  unfold timed Conn.resetEvents
  by_cases h : conn.timeout > 0 <;> simp [h, armed, noDeadline]

theorem timed_close (d now : Int) : timed d now [WsEvent.Close] = true := by
  unfold timed
  split <;> simp [armed, noDeadline]

theorem timed_nil (d now : Int) : timed d now [] = true := by
  unfold timed
  split <;> simp [armed, noDeadline]

theorem timed_closing (conn : Conn) (now : Int) (chans : List websocketChannel) :
    timed conn.timeout now (Conn.Close.events (conn.resetEvents now) chans) = true := by
  induction chans with
  | nil => exact timed_nil _ _
  | cons p rest ih =>
    simp only [Conn.Close.events]
    exact timed_append _ _ _ _ (timed_send conn now [p.num]) ih

/-- The read loop on a script that ends with a receive error, run on an opened
connection: what it returns, the calls it makes and the state it leaves. -/
theorem Conn.readLoop_eq (msgs : List (List Byte)) (e : GoError) :
    ∀ (conn : Conn) (w : WS), conn.ready = true → conn.ws = some w →
      ∃ (conn1 : Conn) (w1 : WS) (new : List WsEvent),
        conn.readLoop (msgs.map Except.ok ++ [Except.error e])
          = Except.ok (conn1, if e = GoError.EOF then none else some e) ∧
        conn1.ws = some w1 ∧ w1.now = w.now ∧ w1.events = w.events ++ new ∧
        new.getLast? = some WsEvent.Close ∧ timed conn.timeout w.now new = true ∧
        (∀ p ∈ conn1.channels, p.pipe.closed = true) ∧
        conn1.channels.map websocketChannel.descriptor
          = conn.channels.map websocketChannel.descriptor := by
  induction msgs with
  | nil =>
    intro conn w hr hws
    obtain ⟨w1, h1, h2, h3⟩ := Conn.Close_eq
      { conn with ws := some (conn.rearmed w).Receive } (conn.rearmed w).Receive hr rfl
    have hnow : (conn.rearmed w).Receive.now = w.now := (Conn.rearmed_events conn w).2
    have hev : (conn.rearmed w).Receive.events
        = w.events ++ (conn.resetEvents w.now ++ [WsEvent.Receive]) := by
      simp [WS.Receive, (Conn.rearmed_events conn w).1]
    refine ⟨{ conn with channels := conn.channels.map websocketChannel.closed,
                        ws := some w1 }, w1,
      (conn.resetEvents w.now ++ [WsEvent.Receive])
        ++ (Conn.Close.events (conn.resetEvents w.now) conn.channels ++ [WsEvent.Close]),
      ?_, rfl, h2.trans hnow, ?_,
      by rw [← List.append_assoc, List.getLast?_concat], ?_, ?_, ?_⟩
    · simp only [List.map_nil, List.nil_append, Conn.readLoop,
        Conn.resetTimeout_eq conn w hws, bind, Except.bind, Conn.receive, pure, Except.pure]
      by_cases he : e = GoError.EOF
      · simp only [he, if_true, h1]
      · simp only [he, if_false, h1]
    · rw [h3, hev, hnow]
      simp [Conn.resetEvents]
    · exact timed_append _ _ _ _ (timed_receive conn w.now)
        (timed_append _ _ _ _ (timed_closing conn w.now conn.channels) (timed_close _ _))
    · intro p hp
      simp only [List.mem_map] at hp
      obtain ⟨q, -, rfl⟩ := hp
      rfl
    · simp only [List.map_map]
      rfl
  | cons m rest ih =>
    intro conn w hr hws
    obtain ⟨c1, d1, d2, d3, d4, d5, -⟩ := Conn.dispatch_preserves
      { conn with ws := some (conn.rearmed w).Receive } m
    have hnow : (conn.rearmed w).Receive.now = w.now := (Conn.rearmed_events conn w).2
    have hev : (conn.rearmed w).Receive.events
        = w.events ++ (conn.resetEvents w.now ++ [WsEvent.Receive]) := by
      simp [WS.Receive, (Conn.rearmed_events conn w).1]
    obtain ⟨conn1, w1, new, g1, g2, g3, g4, g5, g6, g7, g8⟩ :=
      ih c1 (conn.rearmed w).Receive (d4.trans hr) d2
    refine ⟨conn1, w1, (conn.resetEvents w.now ++ [WsEvent.Receive]) ++ new,
      ?_, g2, g3.trans hnow, ?_, ?_, ?_, g7, g8.trans d5⟩
    · simp only [List.map_cons, List.cons_append, Conn.readLoop,
        Conn.resetTimeout_eq conn w hws, bind, Except.bind, Conn.receive, pure,
        Except.pure, d1]
      exact g1
    · rw [g4, hev]
      simp
    · rw [List.getLast?_append, g5]
      rfl
    · rw [d3, hnow] at g6
      exact timed_append _ _ _ _ (timed_receive conn w.now) g6

/-- The frames `Conn.Close` hands to `Send` on an opened connection: one frame holding the
channel number alone for every channel, whatever its capabilities. -/
theorem Conn.Close_sent (conn : Conn) (w : WS) (hr : conn.ready = true)
    (hws : conn.ws = some w) :
    ∃ (conn1 : Conn) (w1 : WS), conn.Close = Except.ok (conn1, none) ∧
      conn1.ws = some w1 ∧
      w1.sent = w.sent ++ conn.channels.map (fun p => [p.num]) := by
  obtain ⟨w1, h1, -, h3⟩ := Conn.Close_eq conn w hr hws
  refine ⟨_, w1, h1, rfl, ?_⟩
  rw [List.append_assoc] at h3
  rw [sent_of_events w w1 _ h3, List.filterMap_append,
    Close_events_sent _ (resetEvents_sent conn w.now)]
  simp

theorem Conn.CloseTimes_eq (k : Nat) :
    ∀ (conn : Conn) (w : WS), conn.ready = true → conn.ws = some w →
      ∃ conn1, conn.CloseTimes k = Except.ok (conn1, List.replicate k none) := by
  induction k with
  | zero =>
    intro conn w _ _
    exact ⟨conn, rfl⟩
  | succ k ih =>
    intro conn w hr hws
    obtain ⟨w1, h1, -, -⟩ := Conn.Close_eq conn w hr hws
    obtain ⟨conn1, h2⟩ := ih
      { conn with channels := conn.channels.map websocketChannel.closed, ws := some w1 }
      w1 hr rfl
    refine ⟨conn1, ?_⟩
    rw [Conn.CloseTimes]
    simp only [h1, h2, bind, Except.bind, pure, Except.pure, List.replicate_succ]

/-- The loop body on a frame for a readable channel whose pipe is closed: the delivery
fails and nothing changes. -/
theorem Conn.dispatch_closed (conn : Conn) (i : Nat) (p : websocketChannel) (c : Byte)
    (data : List Byte) (hp : conn.channels[i]? = some p) (hc : c.val = i)
    (hr : p.read = true) (hclosed : p.pipe.closed = true) :
    Conn.readLoop.dispatch conn (c :: data) = Except.ok conn := by
  have hi : i < conn.channels.length := (List.getElem?_eq_some_iff.mp hp).1
  have hlt : ¬ (conn.channels.length ≤ i) := by omega
  have hset : conn.channels.set i p = conn.channels := by
    apply List.ext_getElem?
    intro k
    by_cases hk : k = i
    · subst hk
      rw [List.getElem?_set_self hi, hp]
    · rw [List.getElem?_set_ne (Ne.symm hk)]
  have hd : p.DataFromSocket data = (p, 0, some GoError.ErrClosedPipe) := by
    rcases p with ⟨num, pipe, read, write⟩
    simp only at hr hclosed
    subst hr
    simp [websocketChannel.DataFromSocket, Pipe.Write, hclosed]
  have hge : ¬ (i ≥ conn.channels.length) := by omega
  simp only [Conn.readLoop.dispatch, hc, hge, if_false, hp, hd, hset, pure, Except.pure]

/-- C13, the code at a failing input: closing the opened connection of a TTY session,
whose channel 1 is read-only and whose channel 2 is ignored, hands the closing frames
`[0]`, `[1]`, `[2]`, `[3]` to the underlying connection: one for every channel, not
only for the write-capable channels 0 and 3. -/
theorem Close_frames_every_channel :
    ∃ (conn1 : Conn) (w1 : WS), sampleConnTty.Close = Except.ok (conn1, none) ∧
      conn1.ws = some w1 ∧ w1.sent = [[0], [1], [2], [3]] ∧
      sampleConnTty.channels.map (fun p => p.write) = [true, false, false, true] ∧
      w1.events.getLast? = some WsEvent.Close ∧
      conn1.channels.map (fun p => p.pipe.closed) = [true, true, true, true] :=
  ⟨_, _, rfl, rfl, by decide, by decide, by decide, by decide⟩

/-- C14, the claim fails as stated: `Close` on a connection that has not been opened
does not return; it waits on the channel `ready`. -/
theorem Close_before_Open_blocks :
    (NewConn sampleLayout).Close = Except.error Fault.blocksForever := by
  rfl

/-- C14, amended: `Close` on a connection on which `Open` has not been called does not
return on its own, whatever the layout and the idle timeout: it waits on the channel
`ready`, which only `Open` closes; on the connection once opened it returns nil. -/
theorem Close_waits_for_Open (layout : List ChannelType) (d : Int) (w : WS)
    (before : List (List Byte)) :
    ((NewConn layout).SetIdleTimeout d).Close = Except.error Fault.blocksForever ∧
    ∃ conn conn1, openedConn layout d w before = Except.ok conn ∧
      conn.Close = Except.ok (conn1, none) := by
  refine ⟨rfl, ?_⟩
  obtain ⟨conn, h1, -, h3, -, h5, -⟩ := openedConn_ok layout d w before
  obtain ⟨w1, h, -, -⟩ := Conn.Close_eq conn w h5 h3
  exact ⟨conn, _, h1, h⟩

/-- C15: on an opened connection, of any layout and in any later state of its inbound
side, `k` successive calls of `Close` all return nil and none of them faults, whatever
results the script of the underlying connection gives to the sends. -/
theorem Close_repeated (layout : List ChannelType) (d : Int) (w : WS)
    (before : List (List Byte)) (k : Nat) :
    ∃ conn conn1, openedConn layout d w before = Except.ok conn ∧
      conn.CloseTimes k = Except.ok (conn1, List.replicate k none) := by
  obtain ⟨conn, h1, -, h3, -, h5, -⟩ := openedConn_ok layout d w before
  obtain ⟨conn1, h⟩ := Conn.CloseTimes_eq k conn w h5 h3
  exact ⟨conn, conn1, h1, h⟩

/-- C16: on an opened connection the read loop whose receives yield the messages `msgs`
and then the error `e` returns nil when `e` is `io.EOF` and `e` itself otherwise; when
it returns every channel's pipe is closed and the last call made on the underlying
connection is `Close`. -/
theorem readLoop_returns (layout : List ChannelType) (d : Int) (w : WS)
    (before : List (List Byte)) (msgs : List (List Byte)) (e : GoError) :
    ∃ (conn conn1 : Conn) (w1 : WS), openedConn layout d w before = Except.ok conn ∧
      conn.readLoop (msgs.map Except.ok ++ [Except.error e])
        = Except.ok (conn1, if e = GoError.EOF then none else some e) ∧
      (∀ p ∈ conn1.channels, p.pipe.closed = true) ∧
      conn1.channels.length = layout.length ∧
      conn1.ws = some w1 ∧ w1.events.getLast? = some WsEvent.Close := by
  obtain ⟨conn, h1, h2, h3, -, h5, -⟩ := openedConn_ok layout d w before
  obtain ⟨conn1, w1, new, g1, g2, -, g4, g5, -, g7, g8⟩ :=
    Conn.readLoop_eq msgs e conn w h5 h3
  refine ⟨conn, conn1, w1, h1, g1, g7, ?_, g2, ?_⟩
  · have := congrArg List.length g8
    simp only [List.length_map] at this
    rw [this, Conn.hasLayout_length h2]
  · rw [g4, List.getLast?_append, g5]
    rfl

/-- C17: let channel `i` be readable with its pipe closed and channel `j` readable with
its pipe open.  Delivering a frame for channel `i` fails with `io.ErrClosedPipe`; the
loop body leaves the connection as it was, the iteration of the read loop that receives
the frame consists of the deadline reset and the receive alone, after which the loop
goes on with the remaining messages, and a frame for channel `j` that follows is
delivered to channel `j`. -/
theorem readLoop_survives_closed_pipe (conn : Conn) (i j : Nat) (p q : websocketChannel)
    (c cj : Byte) (data data2 : List Byte) (rest : List (Except GoError (List Byte)))
    (hp : conn.channels[i]? = some p) (hc : c.val = i) (hr : p.read = true)
    (hclosed : p.pipe.closed = true)
    (hq : conn.channels[j]? = some q) (hcj : cj.val = j) (hqr : q.read = true)
    (hqo : q.pipe.closed = false) :
    p.DataFromSocket data = (p, 0, some GoError.ErrClosedPipe) ∧
    Conn.readLoop.dispatch conn (c :: data) = Except.ok conn ∧
    conn.readLoop (Except.ok (c :: data) :: rest)
      = (do
          let k ← conn.resetTimeout
          let k ← k.receive
          k.readLoop rest) ∧
    conn.dispatchAll [c :: data, cj :: data2] = Except.ok
      { conn with
        channels := conn.channels.set j
          { q with pipe := { q.pipe with buf := q.pipe.buf ++ [data2] } } } := by
  have hd : p.DataFromSocket data = (p, 0, some GoError.ErrClosedPipe) := by
    rcases p with ⟨num, pipe, read, write⟩
    simp only at hr hclosed
    subst hr
    simp [websocketChannel.DataFromSocket, Pipe.Write, hclosed]
  have h1 := Conn.dispatch_closed conn i p c data hp hc hr hclosed
  refine ⟨hd, h1, ?_, ?_⟩
  · rw [Conn.readLoop]
    cases g1 : conn.resetTimeout with
    | error f => rfl
    | ok c1 =>
      simp only [bind, Except.bind]
      cases g2 : c1.receive with
      | error f => rfl
      | ok c2 =>
        have hch : c2.channels = conn.channels :=
          (Conn.receive_channels g2).trans (Conn.resetTimeout_channels g1)
        simp only []
        rw [Conn.dispatch_closed c2 i p c data (by rw [hch]; exact hp) hc hr hclosed]
  · simp only [Conn.dispatchAll, h1, bind, Except.bind,
      Conn.dispatch_deliver conn j q cj data2 hq hcj hqr hqo, pure, Except.pure]

theorem readLoop_survives_closed_pipe_witness :
    (newWebsocketChannel 1 true false).closed.DataFromSocket [111]
      = ((newWebsocketChannel 1 true false).closed, 0, some GoError.ErrClosedPipe) ∧
    Conn.readLoop.dispatch sampleConnStdoutClosed [1, 111]
      = Except.ok sampleConnStdoutClosed ∧
    sampleConnStdoutClosed.readLoop [Except.ok [1, 111], Except.error GoError.EOF]
      = (do
          let k ← sampleConnStdoutClosed.resetTimeout
          let k ← k.receive
          k.readLoop [Except.error GoError.EOF]) ∧
    sampleConnStdoutClosed.dispatchAll [[1, 111], [2, 101]] = Except.ok
      { sampleConnStdoutClosed with
        channels := sampleConnStdoutClosed.channels.set 2
          { newWebsocketChannel 2 true false with
            pipe := { (newWebsocketChannel 2 true false).pipe with
              buf := (newWebsocketChannel 2 true false).pipe.buf ++ [[101]] } } } :=
  readLoop_survives_closed_pipe sampleConnStdoutClosed 1 2
    (newWebsocketChannel 1 true false).closed (newWebsocketChannel 2 true false) 1 2
    [111] [101] [Except.error GoError.EOF] rfl rfl rfl rfl rfl rfl rfl rfl

/-- C18: on the connection made by `NewConn`, given the idle timeout `d` and opened on a
websocket whose clock reads `now`, a `Write` on a write-capable channel makes the calls
`SetDeadline(now + d)`, `Send(frame)` when `d > 0` and the call `Send(frame)` alone when
`d` is zero (or negative); and in the calls a whole run of the read loop makes (every
receive, and the closing frames sent when it ends), every `Send` and every `Receive`
comes directly after a `SetDeadline(now + d)` when `d > 0`, and no `SetDeadline` occurs
when `d` is zero (or negative). -/
theorem idle_deadline (layout : List ChannelType) (d : Int) (w : WS)
    (before : List (List Byte)) (i : Nat) (data : List Byte)
    (msgs : List (List Byte)) (e : GoError)
    (hcap : layout[i]? = some ChannelType.WriteChannel
      ∨ layout[i]? = some ChannelType.ReadWriteChannel) :
    ∃ (conn : Conn) (p : websocketChannel) (conn1 : Conn) (n : Int)
      (err : Option GoError) (w1 : WS) (conn2 : Conn) (err2 : Option GoError) (w2 : WS)
      (new : List WsEvent),
      openedConn layout d w before = Except.ok conn ∧ conn.channels[i]? = some p ∧
      p.Write conn data = Except.ok (conn1, n, err) ∧ conn1.ws = some w1 ∧
      w1.events = w.events
        ++ (if d > 0 then [WsEvent.SetDeadline (w.now + d)] else [])
        ++ [WsEvent.Send (toByte i :: data)] ∧
      conn.readLoop (msgs.map Except.ok ++ [Except.error e]) = Except.ok (conn2, err2) ∧
      conn2.ws = some w2 ∧ w2.events = w.events ++ new ∧
      (if d > 0 then armed (w.now + d) none new else noDeadline new) = true := by
  obtain ⟨conn, h1, h2, h3, h4, h5, -⟩ := openedConn_ok layout d w before
  have hlen := Conn.hasLayout_length h2
  have hi : i < conn.channels.length := by
    rw [hlen]
    rcases hcap with h | h <;> exact (List.getElem?_eq_some_iff.mp h).1
  have hp := List.getElem?_eq_getElem hi
  obtain ⟨hnum, t, ht, -, hwr⟩ := Conn.hasLayout_channel h2 hp
  have hw : (conn.channels[i]).write = true := by
    rcases hcap with h | h <;> rw [h] at ht <;> cases ht <;> simpa using hwr
  obtain ⟨w1, n, err, g1, -, g3⟩ := Conn.write_events conn w (conn.channels[i]).num data h3
  have hW : (conn.channels[i]).Write conn data = conn.write (conn.channels[i]).num data := by
    simp [websocketChannel.Write, hw]
  obtain ⟨conn2, w2, new, k1, k2, -, k4, -, k6, -, -⟩ :=
    Conn.readLoop_eq msgs e conn w h5 h3
  refine ⟨conn, _, _, n, err, w1, conn2, _, w2, new, h1, hp, hW.trans g1, rfl, ?_, k1, k2,
    k4, ?_⟩
  · rw [g3, hnum]
    simp [Conn.resetEvents, h4]
  · rw [h4] at k6
    exact k6

theorem idle_deadline_witness :
    ∃ (conn : Conn) (p : websocketChannel) (conn1 : Conn) (n : Int)
      (err : Option GoError) (w1 : WS) (conn2 : Conn) (err2 : Option GoError) (w2 : WS)
      (new : List WsEvent),
      openedConn sampleLayout (10 * time.Second) sampleWS [] = Except.ok conn ∧
      conn.channels[3]? = some p ∧
      p.Write conn [1] = Except.ok (conn1, n, err) ∧ conn1.ws = some w1 ∧
      w1.events = sampleWS.events
        ++ (if 10 * time.Second > 0 then
              [WsEvent.SetDeadline (sampleWS.now + 10 * time.Second)] else [])
        ++ [WsEvent.Send (toByte 3 :: [1])] ∧
      conn.readLoop ([[1, 97]].map Except.ok ++ [Except.error GoError.EOF])
        = Except.ok (conn2, err2) ∧
      conn2.ws = some w2 ∧ w2.events = sampleWS.events ++ new ∧
      (if 10 * time.Second > 0 then armed (sampleWS.now + 10 * time.Second) none new
        else noDeadline new) = true :=
  idle_deadline sampleLayout (10 * time.Second) sampleWS [] 3 [1] [[1, 97]] GoError.EOF
    (Or.inr (by decide))

/-! ## The trace of `execute` -/

theorem execute_ok_fst (re : remoteExec) (resp : Except GoError Response)
    (tr : List Event) :
    (remoteExec.execute.ok re resp tr).1
      = tr ++ [Event.Get ("http://" ++ re.endpoint ++ "/ok")] := by
  unfold remoteExec.execute.ok
  cases resp with
  | error e => rfl
  | ok r => by_cases h : r.StatusCode = 200 <;> simp [h]

theorem execute_ok_snd_eq (re : remoteExec) (resp : Except GoError Response)
    (tr : List Event) :
    (remoteExec.execute.ok re resp tr).2 = (remoteExec.execute.ok re resp []).2 := by
  unfold remoteExec.execute.ok
  cases resp with
  | error e => rfl
  | ok r => by_cases h : r.StatusCode = 200 <;> simp [h]

/-- The readiness `Run` records one `Get` per try, and the error it returns is the error
of one of the tries. -/
theorem Run_ready_full (re : remoteExec) (more : List (Except GoError Response)) :
    ∀ (a : Except GoError Response) (tr : List Event),
      ∃ (n : Nat) (e : Option GoError),
        attempt.Run (remoteExec.execute.ok re) a more tr
          = (tr ++ List.replicate (n + 1) (Event.Get ("http://" ++ re.endpoint ++ "/ok")),
              e) ∧
        ∀ err, e = some err →
          ∃ resp, resp ∈ a :: more ∧ (remoteExec.execute.ok re resp []).2 = some err := by
  induction more with
  | nil =>
    intro a tr
    refine ⟨0, (remoteExec.execute.ok re a tr).2, ?_, ?_⟩
    · rw [attempt.Run]
      exact Prod.ext (execute_ok_fst re a tr) rfl
    · intro err herr
      exact ⟨a, by simp, by rw [← execute_ok_snd_eq]; exact herr⟩
  | cons b more ih =>
    intro a tr
    rw [attempt.Run]
    have h1 := execute_ok_fst re a tr
    rcases h : remoteExec.execute.ok re a tr with ⟨s, _ | e0⟩
    · rw [h] at h1
      simp only at h1
      exact ⟨0, none, by simp [h1], by intro err herr; cases herr⟩
    · rw [h] at h1
      simp only at h1
      obtain ⟨n, e, g1, g2⟩ := ih b s
      refine ⟨n + 1, e, ?_, ?_⟩
      · show attempt.Run (remoteExec.execute.ok re) b more s = _
        rw [g1, h1]
        simp [List.replicate_succ]
      · intro err herr
        obtain ⟨resp, hm, hr⟩ := g2 err herr
        exact ⟨resp, List.mem_cons_of_mem _ hm, hr⟩

/-- The handshake `Run` records one `Dial` per try; it returns nil exactly when one of
the tries connects, and then the session holds the websocket of that try and the stream
options of `opts`; otherwise it returns the error of the last try and leaves the session
as it was. -/
theorem Run_dial_full (opts : clientOpts) (more : List (Except GoError WS)) :
    ∀ (a : Except GoError WS) (re : remoteExec) (tr : List Event),
      ∃ m : Nat,
        (((a :: more).any (fun r => match r with
            | Except.ok _ => true
            | Except.error _ => false) = true) ∧
          ∃ ws, attempt.Run (fun dial s => remoteExec.attach s.1 opts dial s.2) a more
              (re, tr)
            = (({ re with ws := some ws, streamOpts := some (newStreamOptions opts) },
                tr ++ List.replicate (m + 1)
                  (Event.Dial ("ws://" ++ re.endpoint ++ "/") (json.Marshal opts))),
                none)) ∨
        (((a :: more).any (fun r => match r with
            | Except.ok _ => true
            | Except.error _ => false) = false) ∧
          ∃ err, (a :: more).getLast? = some (Except.error err) ∧
            attempt.Run (fun dial s => remoteExec.attach s.1 opts dial s.2) a more
              (re, tr)
            = ((re, tr ++ List.replicate (m + 1)
                  (Event.Dial ("ws://" ++ re.endpoint ++ "/") (json.Marshal opts))),
                some err)) := by
  induction more with
  | nil =>
    intro a re tr
    cases a with
    | error e =>
      exact ⟨0, Or.inr ⟨by simp, e, rfl, by simp [attempt.Run, remoteExec.attach]⟩⟩
    | ok ws =>
      exact ⟨0, Or.inl ⟨by simp, ws, by simp [attempt.Run, remoteExec.attach]⟩⟩
  | cons b more ih =>
    intro a re tr
    cases a with
    | ok ws =>
      exact ⟨0, Or.inl ⟨by simp, ws, by simp [attempt.Run, remoteExec.attach]⟩⟩
    | error e =>
      obtain ⟨m, h⟩ := ih b re
        (tr ++ [Event.Dial ("ws://" ++ re.endpoint ++ "/") (json.Marshal opts)])
      refine ⟨m + 1, ?_⟩
      rcases h with ⟨h1, ws, h2⟩ | ⟨h1, err, h0, h2⟩
      · refine Or.inl ⟨by simpa using h1, ws, ?_⟩
        rw [attempt.Run]
        simpa [remoteExec.attach, List.replicate_succ] using h2
      · refine Or.inr ⟨by simpa using h1, err, ?_, ?_⟩
        · rw [List.getLast?_cons_cons]
          exact h0
        · rw [attempt.Run]
          simpa [remoteExec.attach, List.replicate_succ] using h2

/-- The three ways the options are built. -/
theorem opts_full (re : remoteExec) (env : Env) (tr : List Event) :
    (re.terminalFails env = true ∧ ∃ msg term,
      remoteExec.execute.opts re env tr = (Except.error msg, tr ++ term) ∧
      (term = [Event.GetSize] ∨ term = [Event.GetSize, Event.MakeRaw])) ∨
    (re.terminalFails env = false ∧ (re.enableTty && env.stdinIsTerminal) = false ∧
      remoteExec.execute.opts re env tr
        = (Except.ok ({ Tty := false, Width := 0, Height := 0 }, none), tr)) ∨
    (re.terminalFails env = false ∧ (re.enableTty && env.stdinIsTerminal) = true ∧
      ∃ w h st, env.size = Except.ok (w, h) ∧ env.raw = Except.ok st ∧
        remoteExec.execute.opts re env tr
          = (Except.ok ({ Tty := true, Width := w, Height := h }, some st),
              tr ++ [Event.GetSize, Event.MakeRaw])) := by
  unfold remoteExec.execute.opts remoteExec.terminalFails
  rcases h1 : re.enableTty with _ | _
  · exact Or.inr (Or.inl ⟨by simp, by simp, by simp⟩)
  · rcases h2 : env.stdinIsTerminal with _ | _
    · exact Or.inr (Or.inl ⟨by simp, by simp, by simp⟩)
    · rcases h3 : env.size with e | ⟨w, h⟩
      · exact Or.inl ⟨by simp, e.Error, [Event.GetSize], by simp, Or.inl rfl⟩
      · rcases h4 : env.raw with e | st
        · exact Or.inl ⟨by simp, e.Error, [Event.GetSize, Event.MakeRaw], by simp,
            Or.inr rfl⟩
        · exact Or.inr (Or.inr ⟨by simp, by simp, w, h, st, rfl, rfl, by simp⟩)

theorem indicator_eq (shown : Bool) (text : String) (tr : List Event) :
    (if shown = true then tr ++ [Event.Fprintf text] else tr)
      = tr ++ remoteExec.execute.indicator shown text := by
  cases shown <;> simp [remoteExec.execute.indicator]

/-- Every way the function literal of `execute` ends, with the trace it leaves. -/
theorem session_cases (re : remoteExec) (env : Env) (showIndicator : Bool)
    (tr : List Event) :
    (re.terminalFails env = true ∧ ∃ msg term,
      (term = [Event.GetSize] ∨ term = [Event.GetSize, Event.MakeRaw]) ∧
      remoteExec.execute.session re env showIndicator tr
        = { outcome := Outcome.exits 1, re := re,
            trace := tr ++ term ++ [Event.failure msg] }) ∨
    (re.terminalFails env = false ∧ ∃ opts st term m, re.builds env opts st term ∧
      ((env.dialed = false ∧ ∃ err,
          (env.dial :: env.dials).getLast? = some (Except.error err) ∧
          remoteExec.execute.session re env showIndicator tr
            = { outcome := Outcome.returns 1, re := re,
                trace := remoteExec.execute.restore st (re.call (some err)
                  (tr ++ term
                    ++ List.replicate (m + 1)
                        (Event.Dial ("ws://" ++ re.endpoint ++ "/") (json.Marshal opts))
                    ++ remoteExec.execute.indicator (re.showAttaching && showIndicator)
                        "\r\x1b[36mAttaching...\x1b[m error\n")) }) ∨
       (env.dialed = true ∧ ∃ (ws w1 : WS),
          w1.sent = ws.sent ++ List.replicate env.ticks [3, 1] ∧
          remoteExec.execute.session re env showIndicator tr
            = { outcome :=
                  (match remoteExec.interact.drained env.data env.err with
                    | some _ => Outcome.returns 1
                    | none => Outcome.returns 0),
                re := { re with ws := some w1.Close,
                                streamOpts := some (newStreamOptions opts) },
                trace := remoteExec.execute.restore st (re.call none
                    (tr ++ term
                      ++ List.replicate (m + 1)
                          (Event.Dial ("ws://" ++ re.endpoint ++ "/") (json.Marshal opts))
                      ++ remoteExec.execute.indicator (re.showAttaching && showIndicator)
                          "\r\x1b[36mAttaching...\x1b[m ok\n")
                  ++ (match remoteExec.interact.drained env.data env.err with
                    | some e => [Event.failure e.Error]
                    | none => [])) }))) := by
  have key : ∀ (opts : clientOpts) (st : Option Nat) (term : List Event),
      re.builds env opts st term →
      remoteExec.execute.opts re env tr = (Except.ok (opts, st), tr ++ term) →
      ∃ m, ((env.dialed = false ∧ ∃ err,
          (env.dial :: env.dials).getLast? = some (Except.error err) ∧
          remoteExec.execute.session re env showIndicator tr
            = { outcome := Outcome.returns 1, re := re,
                trace := remoteExec.execute.restore st (re.call (some err)
                  (tr ++ term
                    ++ List.replicate (m + 1)
                        (Event.Dial ("ws://" ++ re.endpoint ++ "/") (json.Marshal opts))
                    ++ remoteExec.execute.indicator (re.showAttaching && showIndicator)
                        "\r\x1b[36mAttaching...\x1b[m error\n")) }) ∨
       (env.dialed = true ∧ ∃ (ws w1 : WS),
          w1.sent = ws.sent ++ List.replicate env.ticks [3, 1] ∧
          remoteExec.execute.session re env showIndicator tr
            = { outcome :=
                  (match remoteExec.interact.drained env.data env.err with
                    | some _ => Outcome.returns 1
                    | none => Outcome.returns 0),
                re := { re with ws := some w1.Close,
                                streamOpts := some (newStreamOptions opts) },
                trace := remoteExec.execute.restore st (re.call none
                    (tr ++ term
                      ++ List.replicate (m + 1)
                          (Event.Dial ("ws://" ++ re.endpoint ++ "/") (json.Marshal opts))
                      ++ remoteExec.execute.indicator (re.showAttaching && showIndicator)
                          "\r\x1b[36mAttaching...\x1b[m ok\n")
                  ++ (match remoteExec.interact.drained env.data env.err with
                    | some e => [Event.failure e.Error]
                    | none => [])) })) := by
    intro opts st term _ hopts
    obtain ⟨m, h⟩ := Run_dial_full opts env.dials env.dial re (tr ++ term)
    refine ⟨m, ?_⟩
    rcases h with ⟨hd, ws, h⟩ | ⟨hd, err, hl, h⟩
    · refine Or.inr ⟨hd, ws, ?_⟩
      obtain ⟨w1, hs, hi⟩ := interact_eq re opts ws env.ticks env.data env.err
      refine ⟨w1, hs, ?_⟩
      unfold remoteExec.execute.session
      simp only [hopts, h, hi, indicator_eq]
      have hcall : ∀ (e : Option GoError) (t : List Event),
          ({ re with ws := some ws, streamOpts := some (newStreamOptions opts) }
            : remoteExec).call e t = re.call e t := fun _ _ => rfl
      simp only [hcall]
      cases remoteExec.interact.drained env.data env.err <;> simp
    · refine Or.inl ⟨hd, err, hl, ?_⟩
      unfold remoteExec.execute.session
      simp only [hopts, h, indicator_eq]
  rcases opts_full re env tr with ⟨h1, msg, term, h2, h3⟩ | ⟨h1, h2, h3⟩ | ⟨h1, h2, w, h, s, h3, h4, h5⟩
  · refine Or.inl ⟨h1, msg, term, h3, ?_⟩
    unfold remoteExec.execute.session
    simp only [h2]
  · have hb : re.builds env { Tty := false, Width := 0, Height := 0 } none [] :=
      Or.inl ⟨h2, rfl, rfl, rfl⟩
    obtain ⟨m, hk⟩ := key _ _ [] hb (by simpa using h3)
    exact Or.inr ⟨h1, _, _, [], m, hb, hk⟩
  · have hb : re.builds env { Tty := true, Width := w, Height := h } (some s)
        [Event.GetSize, Event.MakeRaw] :=
      Or.inr ⟨h2, w, h, s, h3, h4, rfl, rfl, rfl⟩
    obtain ⟨m, hk⟩ := key _ _ _ hb h5
    exact Or.inr ⟨h1, _, _, _, m, hb, hk⟩

theorem callbacks_append (a b : List Event) :
    callbacks (a ++ b) = callbacks a ++ callbacks b := by
  simp [callbacks, List.filterMap_append]

theorem failures_append (a b : List Event) :
    failures (a ++ b) = failures a ++ failures b := by
  simp [failures, List.filterMap_append]

theorem dialHeaders_append (a b : List Event) :
    dialHeaders (a ++ b) = dialHeaders a ++ dialHeaders b := by
  simp [dialHeaders, List.filterMap_append]

theorem call_eq (re : remoteExec) (err : Option GoError) (tr : List Event) :
    re.call err tr = tr ++ [Event.callback err]
      ++ (if re.callback then []
          else match err with
            | some e => [Event.failure e.Error]
            | none => []) := by
  unfold remoteExec.call
  cases re.callback <;> cases err <;> simp

theorem restore_eq (st : Option Nat) (tr : List Event) :
    remoteExec.execute.restore st tr
      = tr ++ (match st with
          | some s => [Event.Restore s]
          | none => []) := by
  cases st <;> simp [remoteExec.execute.restore]

theorem callbacks_call (re : remoteExec) (err : Option GoError) (tr : List Event) :
    callbacks (re.call err tr) = callbacks tr ++ [err] := by
  rw [call_eq]
  cases re.callback <;> cases err <;> simp [callbacks, List.filterMap_append]

theorem dialHeaders_call (re : remoteExec) (err : Option GoError) (tr : List Event) :
    dialHeaders (re.call err tr) = dialHeaders tr := by
  rw [call_eq]
  cases re.callback <;> cases err <;> simp [dialHeaders, List.filterMap_append]

theorem callbacks_restore (st : Option Nat) (tr : List Event) :
    callbacks (remoteExec.execute.restore st tr) = callbacks tr := by
  cases st <;> simp [remoteExec.execute.restore, callbacks, List.filterMap_append]

theorem failures_restore (st : Option Nat) (tr : List Event) :
    failures (remoteExec.execute.restore st tr) = failures tr := by
  cases st <;> simp [remoteExec.execute.restore, failures, List.filterMap_append]

theorem dialHeaders_restore (st : Option Nat) (tr : List Event) :
    dialHeaders (remoteExec.execute.restore st tr) = dialHeaders tr := by
  cases st <;> simp [remoteExec.execute.restore, dialHeaders, List.filterMap_append]

theorem callbacks_indicator (shown : Bool) (text : String) :
    callbacks (remoteExec.execute.indicator shown text) = [] := by
  cases shown <;> rfl

theorem failures_indicator (shown : Bool) (text : String) :
    failures (remoteExec.execute.indicator shown text) = [] := by
  cases shown <;> rfl

theorem dialHeaders_indicator (shown : Bool) (text : String) :
    dialHeaders (remoteExec.execute.indicator shown text) = [] := by
  cases shown <;> rfl

theorem callbacks_Get (n : Nat) (url : String) :
    callbacks (List.replicate n (Event.Get url)) = [] := by
  simp [callbacks]

theorem failures_Get (n : Nat) (url : String) :
    failures (List.replicate n (Event.Get url)) = [] := by
  simp [failures]

theorem dialHeaders_Get (n : Nat) (url : String) :
    dialHeaders (List.replicate n (Event.Get url)) = [] := by
  simp [dialHeaders]

theorem callbacks_Dial (n : Nat) (url header : String) :
    callbacks (List.replicate n (Event.Dial url header)) = [] := by
  simp [callbacks]

theorem failures_Dial (n : Nat) (url header : String) :
    failures (List.replicate n (Event.Dial url header)) = [] := by
  simp [failures]

theorem dialHeaders_Dial (n : Nat) (url header : String) :
    dialHeaders (List.replicate n (Event.Dial url header)) = List.replicate n header := by
  induction n with
  | zero => rfl
  | succ n ih =>
    rw [List.replicate_succ, List.replicate_succ]
    show header :: dialHeaders (List.replicate n (Event.Dial url header)) = _
    rw [ih]

theorem builds_term {re : remoteExec} {env : Env} {opts : clientOpts} {st : Option Nat}
    {term : List Event} (h : re.builds env opts st term) :
    callbacks term = [] ∧ failures term = [] ∧ dialHeaders term = [] := by
  rcases h with ⟨-, -, -, rfl⟩ | ⟨-, w, h, s, -, -, -, -, rfl⟩ <;> exact ⟨rfl, rfl, rfl⟩

/-- The two ways `execute` leaves the readiness stage. -/
theorem execute_cases (re : remoteExec) (env : Env) :
    (env.ready = false ∧ ∃ n err resp, resp ∈ env.probe :: env.probes ∧
      (remoteExec.execute.ok re resp []).2 = some err ∧
      re.execute env
        = { outcome := Outcome.returns 1, re := re,
            trace := re.call (some err)
              (List.replicate (n + 1) (Event.Get ("http://" ++ re.endpoint ++ "/ok"))
                ++ remoteExec.execute.indicator
                    (re.showAttaching && (env.stdoutIsTerminal || env.stderrIsTerminal))
                    "\r\x1b[36mAttaching...\x1b[m failed\n") }) ∨
    (env.ready = true ∧ ∃ n,
      re.execute env = remoteExec.execute.session re env
        (env.stdoutIsTerminal || env.stderrIsTerminal)
        (List.replicate (n + 1) (Event.Get ("http://" ++ re.endpoint ++ "/ok")))) := by
  have hr := Run_ready re env.probes env.probe []
  obtain ⟨n, e, h1, h2⟩ := Run_ready_full re env.probes env.probe []
  rw [h1] at hr
  cases e with
  | none =>
    have hready : env.ready = true := by simpa [Env.ready] using hr
    refine Or.inr ⟨hready, n, ?_⟩
    unfold remoteExec.execute
    simp only [h1, List.nil_append]
  | some err =>
    have hready : env.ready = false := by
      cases hx : env.ready with
      | false => rfl
      | true => exact absurd (hr.mpr hx) (by simp)
    obtain ⟨resp, hm, he⟩ := h2 err rfl
    refine Or.inl ⟨hready, n, err, resp, hm, he, ?_⟩
    unfold remoteExec.execute
    simp only [h1, List.nil_append, indicator_eq]

theorem failures_call_nil (re : remoteExec) (tr : List Event) :
    failures (re.call none tr) = failures tr := by
  rw [call_eq]
  cases re.callback <;> simp [failures, List.filterMap_append]

/-- C11: on every run of `execute` that returns (readiness failure, handshake failure,
interaction success, interaction failure) the completion callback has been called
exactly once. -/
theorem callback_once (re : remoteExec) (env : Env) (code : Int)
    (h : (re.execute env).outcome = Outcome.returns code) :
    ∃ err, callbacks (re.execute env).trace = [err] := by
  rcases execute_cases re env with ⟨-, n, err, resp, -, -, h1⟩ | ⟨-, n, h1⟩
  · exact ⟨some err, by
      rw [h1]
      simp [callbacks_call, callbacks_append, callbacks_Get, callbacks_indicator]⟩
  · rw [h1] at h ⊢
    rcases session_cases re env (env.stdoutIsTerminal || env.stderrIsTerminal)
        (List.replicate (n + 1) (Event.Get ("http://" ++ re.endpoint ++ "/ok")))
      with ⟨-, msg, term, -, h2⟩ | ⟨-, opts, st, term, m, hb, h2⟩
    · rw [h2] at h
      cases h
    · obtain ⟨ht, -, -⟩ := builds_term hb
      rcases h2 with ⟨-, err, -, h3⟩ | ⟨-, ws, w1, -, h3⟩
      · exact ⟨some err, by
          rw [h3]
          simp [callbacks_restore, callbacks_call, callbacks_append, callbacks_Get,
            callbacks_Dial, callbacks_indicator, ht]⟩
      · refine ⟨none, ?_⟩
        rw [h3]
        simp only [callbacks_restore, callbacks_call, callbacks_append, callbacks_Get,
          callbacks_Dial, callbacks_indicator, ht, List.nil_append, List.append_nil]
        cases remoteExec.interact.drained env.data env.err <;> rfl

theorem callback_once_witness :
    ∃ err, callbacks (sampleExec.execute sampleEnvBoom).trace = [err] :=
  callback_once sampleExec sampleEnvBoom 1 (by decide)

/-- C12, the claim fails as stated: the control channel delivers `boom`, `execute`
returns 1 because the interaction phase failed, and the only call of the callback, made
when the handshake succeeded, had the argument nil; the error went to `failure`. -/
theorem callback_misses_interaction_error :
    (sampleExec.execute sampleEnvBoom).outcome = Outcome.returns 1 ∧
    callbacks (sampleExec.execute sampleEnvBoom).trace = [none] ∧
    failures (sampleExec.execute sampleEnvBoom).trace
      = [ascii "executing remote command: boom"] := by
  decide

/-- C12, amended: when `execute` gets past the readiness probe and the terminal calls,
a failed handshake makes it return 1 after calling the callback once, with the error of
the last handshake try; a failed interaction phase makes it return 1 after the callback
has been called once with nil, when the handshake succeeded, and the error of the
interaction phase is given to `failure`. -/
theorem handshake_error_to_callback (re : remoteExec) (env : Env)
    (hready : env.ready = true) (hterm : re.terminalFails env = false) :
    (env.dialed = false → ∃ err,
      (env.dial :: env.dials).getLast? = some (Except.error err) ∧
      (re.execute env).outcome = Outcome.returns 1 ∧
      callbacks (re.execute env).trace = [some err]) ∧
    (env.dialed = true → ∀ err,
      remoteExec.interact.drained env.data env.err = some err →
      (re.execute env).outcome = Outcome.returns 1 ∧
      callbacks (re.execute env).trace = [none] ∧
      failures (re.execute env).trace = [err.Error]) := by
  rcases execute_cases re env with ⟨h0, -⟩ | ⟨-, n, h1⟩
  · rw [hready] at h0
    cases h0
  · rw [h1]
    rcases session_cases re env (env.stdoutIsTerminal || env.stderrIsTerminal)
        (List.replicate (n + 1) (Event.Get ("http://" ++ re.endpoint ++ "/ok")))
      with ⟨h2, -⟩ | ⟨-, opts, st, term, m, hb, h2⟩
    · rw [hterm] at h2
      cases h2
    · obtain ⟨ht, hf, -⟩ := builds_term hb
      rcases h2 with ⟨hd, err, hl, h3⟩ | ⟨hd, ws, w1, -, h3⟩
      · refine ⟨fun _ => ⟨err, hl, ?_, ?_⟩, fun h => ?_⟩
        · rw [h3]
        · rw [h3]
          simp [callbacks_restore, callbacks_call, callbacks_append, callbacks_Get,
            callbacks_Dial, callbacks_indicator, ht]
        · rw [hd] at h
          cases h
      · refine ⟨fun h => ?_, fun _ err herr => ?_⟩
        · rw [hd] at h
          cases h
        · rw [h3, herr]
          refine ⟨rfl, ?_, ?_⟩
          · simp only [callbacks_restore, callbacks_call, callbacks_append, callbacks_Get,
              callbacks_Dial, callbacks_indicator, ht, List.nil_append, List.append_nil]
            rfl
          · simp only [failures_restore, failures_call_nil, failures_append, failures_Get,
              failures_Dial, failures_indicator, hf, List.nil_append, List.append_nil]
            rfl

theorem handshake_error_to_callback_witness :
    (∃ err, (sampleEnvRefused.dial :: sampleEnvRefused.dials).getLast?
        = some (Except.error err) ∧
      (sampleExec.execute sampleEnvRefused).outcome = Outcome.returns 1 ∧
      callbacks (sampleExec.execute sampleEnvRefused).trace = [some err]) ∧
    ((sampleExec.execute sampleEnvBoom).outcome = Outcome.returns 1 ∧
      callbacks (sampleExec.execute sampleEnvBoom).trace = [none] ∧
      failures (sampleExec.execute sampleEnvBoom).trace
        = [(GoError.Errorf (ascii "executing remote command: boom")).Error]) :=
  ⟨(handshake_error_to_callback sampleExec sampleEnvRefused (by decide) (by decide)).1
      (by decide),
    (handshake_error_to_callback sampleExec sampleEnvBoom (by decide) (by decide)).2
      (by decide) (GoError.Errorf (ascii "executing remote command: boom")) (by decide)⟩

/-! ## The retry budget -/

/-- The closed form `tries` counts exactly the tries the budget allows. -/
theorem tries_spec (s : attempt.Strategy) (hD : 0 < s.Delay) (j : Nat) :
    j < s.tries ↔ s.allows j = true := by
  unfold attempt.Strategy.tries attempt.Strategy.allows
  simp only [Bool.or_eq_true, decide_eq_true_eq]
  by_cases hT : 0 < s.Total
  · simp only [hD, hT, and_self, if_true]
    have hq0 : 0 ≤ (s.Total - 1) / s.Delay :=
      Int.ediv_nonneg (by omega) (le_of_lt hD)
    have hq : (((s.Total - 1) / s.Delay).toNat : Int) = (s.Total - 1) / s.Delay :=
      Int.toNat_of_nonneg hq0
    have hle : (j : Int) ≤ (s.Total - 1) / s.Delay ↔ (j : Int) * s.Delay ≤ s.Total - 1 :=
      Int.le_ediv_iff_mul_le hD
    constructor
    · intro h
      right
      have h1 : (j : Int) ≤ (s.Total - 1) / s.Delay := by omega
      have h2 := hle.mp h1
      omega
    · intro h
      have h2 : (j : Int) * s.Delay ≤ s.Total - 1 := by
        rcases h with h | h
        · subst h
          simp
          omega
        · omega
      have h1 := hle.mpr h2
      omega
  · have hn : ¬ (0 < s.Delay ∧ 0 < s.Total) := fun h => hT h.2
    simp only [hn, if_false]
    have hm : 0 ≤ (j : Int) * s.Delay :=
      Int.mul_nonneg (Int.ofNat_nonneg j) (le_of_lt hD)
    constructor
    · intro h
      left
      omega
    · intro h
      rcases h with h | h
      · omega
      · omega

theorem mem_schedule {α : Type} (s : attempt.Strategy) (hpos : 0 < s.tries)
    (outcome : Nat → α) (x : α) :
    x ∈ (s.schedule outcome).1 :: (s.schedule outcome).2
      ↔ ∃ j, j < s.tries ∧ x = outcome j := by
  simp only [attempt.Strategy.schedule, List.mem_cons, List.mem_map, List.mem_range]
  constructor
  · rintro (h | ⟨k, hk, rfl⟩)
    · exact ⟨0, hpos, h⟩
    · exact ⟨k + 1, by omega, rfl⟩
  · rintro ⟨j, hj, rfl⟩
    cases j with
    | zero => exact Or.inl rfl
    | succ k => exact Or.inr ⟨k, by omega, rfl⟩

theorem okStrategy_tries_pos : 0 < remoteExec.execute.okStrategy.tries := by
  unfold attempt.Strategy.tries
  split <;> omega

/-- C20: the readiness tries are those the configured strategy (total 2 minutes, delay
1 second) leaves time for, and the probe fails its first `K` calls and succeeds at the
next.  When the budget exceeds `K` times the delay the readiness stage succeeds and
`execute` goes on into the function that attaches, which makes a handshake request
unless a terminal call fails; when the budget is smaller than `K` times the delay
`execute` returns 1 after calling the callback with the error of a failed probe, and no
handshake request is made. -/
theorem readiness_retry (re : remoteExec) (env : Env)
    (outcome : Nat → Except GoError Response) (K : Nat)
    (hfail : ∀ j, j < K → Response.ready (outcome j) = false)
    (hok : Response.ready (outcome K) = true)
    (hprobe : env.probe = (remoteExec.execute.okStrategy.schedule outcome).1)
    (hprobes : env.probes = (remoteExec.execute.okStrategy.schedule outcome).2) :
    ((K : Int) * remoteExec.execute.okStrategy.Delay < remoteExec.execute.okStrategy.Total →
      env.ready = true ∧
      (∃ n, re.execute env = remoteExec.execute.session re env
        (env.stdoutIsTerminal || env.stderrIsTerminal)
        (List.replicate (n + 1) (Event.Get ("http://" ++ re.endpoint ++ "/ok")))) ∧
      (re.terminalFails env = false → dialHeaders (re.execute env).trace ≠ [])) ∧
    (remoteExec.execute.okStrategy.Total < (K : Int) * remoteExec.execute.okStrategy.Delay →
      env.ready = false ∧ (re.execute env).outcome = Outcome.returns 1 ∧
      dialHeaders (re.execute env).trace = [] ∧
      ∃ err j, j < K ∧ (remoteExec.execute.ok re (outcome j) []).2 = some err ∧
        callbacks (re.execute env).trace = [some err]) := by
  have hD : 0 < remoteExec.execute.okStrategy.Delay := by decide
  have hT : 0 < remoteExec.execute.okStrategy.Total := by decide
  have hmem := mem_schedule remoteExec.execute.okStrategy okStrategy_tries_pos outcome
  rw [← hprobe, ← hprobes] at hmem
  constructor
  · intro hK
    have hallow : remoteExec.execute.okStrategy.allows K = true := by
      simp [attempt.Strategy.allows, hK]
    have hlt := (tries_spec _ hD K).mpr hallow
    have hready : env.ready = true := by
      unfold Env.ready
      rw [List.any_eq_true]
      exact ⟨outcome K, (hmem _).mpr ⟨K, hlt, rfl⟩, hok⟩
    rcases execute_cases re env with ⟨h0, -⟩ | ⟨-, n, h1⟩
    · rw [hready] at h0
      cases h0
    · refine ⟨hready, ⟨n, h1⟩, fun hterm => ?_⟩
      rw [h1]
      rcases session_cases re env (env.stdoutIsTerminal || env.stderrIsTerminal)
          (List.replicate (n + 1) (Event.Get ("http://" ++ re.endpoint ++ "/ok")))
        with ⟨h2, -⟩ | ⟨-, opts, st, term, m, hb, h2⟩
      · rw [hterm] at h2
        cases h2
      · obtain ⟨-, -, ht⟩ := builds_term hb
        rcases h2 with ⟨-, err, -, h3⟩ | ⟨-, ws, w1, -, h3⟩
        · rw [h3]
          simp only [dialHeaders_restore, dialHeaders_call, dialHeaders_append,
            dialHeaders_Get, dialHeaders_Dial, dialHeaders_indicator, ht,
            List.nil_append, List.append_nil]
          simp [List.replicate_succ]
        · rw [h3]
          simp only [dialHeaders_restore, dialHeaders_call, dialHeaders_append,
            dialHeaders_Get, dialHeaders_Dial, dialHeaders_indicator, ht,
            List.nil_append, List.append_nil]
          simp [List.replicate_succ]
  · intro hK
    have hnot : ∀ j, j < remoteExec.execute.okStrategy.tries → j < K := by
      intro j hj
      have ha := (tries_spec _ hD j).mp hj
      simp only [attempt.Strategy.allows, Bool.or_eq_true, decide_eq_true_eq] at ha
      by_contra hge
      have hKj : K ≤ j := by omega
      have hmul : (K : Int) * remoteExec.execute.okStrategy.Delay
          ≤ (j : Int) * remoteExec.execute.okStrategy.Delay :=
        Int.mul_le_mul_of_nonneg_right (by exact_mod_cast hKj) (le_of_lt hD)
      rcases ha with ha | ha
      · subst ha
        have : K = 0 := by omega
        subst this
        simp at hK
        omega
      · omega
    have hready : env.ready = false := by
      unfold Env.ready
      rw [List.any_eq_false]
      intro x hx
      obtain ⟨j, hj, rfl⟩ := (hmem x).mp hx
      simp [hfail j (hnot j hj)]
    rcases execute_cases re env with ⟨-, n, err, resp, hm, he, h1⟩ | ⟨h0, -⟩
    · obtain ⟨j, hj, rfl⟩ := (hmem resp).mp hm
      refine ⟨hready, by rw [h1], ?_, err, j, hnot j hj, he, ?_⟩
      · rw [h1]
        simp [dialHeaders_call, dialHeaders_append, dialHeaders_Get,
          dialHeaders_indicator]
      · rw [h1]
        simp [callbacks_call, callbacks_append, callbacks_Get, callbacks_indicator]
    · rw [hready] at h0
      cases h0

theorem readiness_retry_witness :
    sampleEnvSlowStart.ready = true ∧
    (∃ n, sampleExec.execute sampleEnvSlowStart = remoteExec.execute.session sampleExec
      sampleEnvSlowStart
      (sampleEnvSlowStart.stdoutIsTerminal || sampleEnvSlowStart.stderrIsTerminal)
      (List.replicate (n + 1) (Event.Get ("http://" ++ sampleExec.endpoint ++ "/ok")))) ∧
    (sampleExec.terminalFails sampleEnvSlowStart = false →
      dialHeaders (sampleExec.execute sampleEnvSlowStart).trace ≠ []) :=
  (readiness_retry sampleExec sampleEnvSlowStart (failsThenReady 2) 2 (by decide)
    (by decide) rfl rfl).1 (by decide)

/-! ## Write results, unreadable channels, empty messages, the heartbeat -/

theorem WS.Send_snd (w : WS) (frame : List Byte) : (w.Send frame).2 = w.nextSend := by
  unfold WS.Send WS.nextSend
  cases w.sendErrs <;> rfl

theorem Conn.rearmed_nextSend (conn : Conn) (w : WS) :
    (conn.rearmed w).nextSend = w.nextSend := by
  unfold Conn.rearmed
  split <;> rfl

theorem WS.sent_Close (w : WS) : w.Close.sent = w.sent := by
  simp [WS.Close, WS.sent]

/-- The loop body leaves a channel without read capability as it is. -/
theorem Conn.dispatch_unreadable (conn : Conn) (i : Nat) (p : websocketChannel)
    (frame : List Byte) (hp : conn.channels[i]? = some p) (hr : p.read = false) :
    ∃ conn1, Conn.readLoop.dispatch conn frame = Except.ok conn1 ∧
      conn1.channels[i]? = some p := by
  cases frame with
  | nil => exact ⟨conn, rfl, hp⟩
  | cons c data =>
    by_cases hge : c.val ≥ conn.channels.length
    · exact ⟨conn, by simp [Conn.readLoop.dispatch, hge, pure, Except.pure], hp⟩
    · have hlt : c.val < conn.channels.length := by omega
      have hq : conn.channels[c.val]? = some conn.channels[c.val] :=
        List.getElem?_eq_getElem hlt
      generalize conn.channels[c.val] = q at hq
      refine ⟨{ conn with channels := conn.channels.set c.val (q.DataFromSocket data).1 },
        ?_, ?_⟩
      · simp only [Conn.readLoop.dispatch, hge, if_false, hq]
        rcases q.DataFromSocket data with ⟨q1, n, _ | e⟩ <;> rfl
      · by_cases hci : c.val = i
        · rw [hci] at hq
          rw [hp] at hq
          cases hq
          have hd : (p.DataFromSocket data).1 = p := by
            simp [websocketChannel.DataFromSocket, hr]
          simp only [hci, hd]
          rw [List.getElem?_set_self (by omega)]
        · simp only []
          rw [List.getElem?_set_ne hci]
          exact hp

theorem Conn.dispatchAll_unreadable (frames : List (List Byte)) :
    ∀ (conn : Conn) (i : Nat) (p : websocketChannel),
      conn.channels[i]? = some p → p.read = false →
      ∃ conn1, conn.dispatchAll frames = Except.ok conn1 ∧
        conn1.channels[i]? = some p := by
  induction frames with
  | nil => intro conn i p hp _; exact ⟨conn, rfl, hp⟩
  | cons frame more ih =>
    intro conn i p hp hr
    obtain ⟨c1, h1, h2⟩ := Conn.dispatch_unreadable conn i p frame hp hr
    obtain ⟨c2, g1, g2⟩ := ih c1 i p h2 hr
    exact ⟨c2, by simp only [Conn.dispatchAll, h1, bind, Except.bind]; exact g1, g2⟩

/-- C26: take the opened connection of any layout and a channel `i` of type
`WriteChannel` or `ReadWriteChannel`.  `Write(data)` returns `(len(data), nil)` when the
send succeeds and `(0, err)` with the error of the send when it fails; in both cases the
only calls made on the underlying connection are the deadline reset and the send (no
`Close`), and the channels are left as they were. -/
theorem Write_result (layout : List ChannelType) (d : Int) (w : WS)
    (before : List (List Byte)) (i : Nat) (data : List Byte)
    (hcap : layout[i]? = some ChannelType.WriteChannel
      ∨ layout[i]? = some ChannelType.ReadWriteChannel) :
    ∃ (conn : Conn) (p : websocketChannel) (conn1 : Conn) (w1 : WS),
      openedConn layout d w before = Except.ok conn ∧ conn.channels[i]? = some p ∧
      p.Write conn data = Except.ok (conn1,
        (match w.nextSend with
          | some _ => 0
          | none => (data.length : Int)),
        w.nextSend) ∧
      conn1.channels = conn.channels ∧ conn1.ready = conn.ready ∧ conn1.ws = some w1 ∧
      w1.events = w.events
        ++ (if d > 0 then [WsEvent.SetDeadline (w.now + d)] else [])
        ++ [WsEvent.Send (p.num :: data)] := by
  obtain ⟨conn, h1, h2, h3, h4, -, -⟩ := openedConn_ok layout d w before
  have hlen := Conn.hasLayout_length h2
  have hi : i < conn.channels.length := by
    rw [hlen]
    rcases hcap with h | h <;> exact (List.getElem?_eq_some_iff.mp h).1
  have hp := List.getElem?_eq_getElem hi
  obtain ⟨-, t, ht, -, hwr⟩ := Conn.hasLayout_channel h2 hp
  have hw : (conn.channels[i]).write = true := by
    rcases hcap with h | h <;> rw [h] at ht <;> cases ht <;> simpa using hwr
  have hW : (conn.channels[i]).Write conn data = conn.write (conn.channels[i]).num data := by
    simp [websocketChannel.Write, hw]
  have hwrite := Conn.write_eq conn w (conn.channels[i]).num data h3
  rw [WS.Send_snd, Conn.rearmed_nextSend] at hwrite
  refine ⟨conn, _, _, _, h1, hp, hW.trans hwrite, rfl, rfl, rfl, ?_⟩
  rw [(WS.Send_events _ _).1, (Conn.rearmed_events conn w).1]
  simp [Conn.resetEvents, h4]

theorem Write_result_witness :
    ∃ (conn : Conn) (p : websocketChannel) (conn1 : Conn) (w1 : WS),
      openedConn sampleLayout 0 sampleWSFailing [] = Except.ok conn ∧
      conn.channels[0]? = some p ∧
      p.Write conn [104, 105] = Except.ok (conn1,
        (match sampleWSFailing.nextSend with
          | some _ => 0
          | none => (([104, 105] : List Byte).length : Int)),
        sampleWSFailing.nextSend) ∧
      conn1.channels = conn.channels ∧ conn1.ready = conn.ready ∧ conn1.ws = some w1 ∧
      w1.events = sampleWSFailing.events
        ++ (if (0 : Int) > 0 then [WsEvent.SetDeadline (sampleWSFailing.now + 0)] else [])
        ++ [WsEvent.Send (p.num :: [104, 105])] :=
  Write_result sampleLayout 0 sampleWSFailing [] 0 [104, 105] (Or.inl (by decide))

/-- C27: a channel without read capability yields no data: `Read` on it returns
`(0, io.EOF)` at once and leaves it as it is, so every later call does the same, and
`DataFromSocket` drops the payload and reports `len(payload)` and no error.  On the
connection of a TTY session, after any messages and a frame for channel 2 (stderr),
the pipe of channel 2 is still empty and `Read` on channel 2 returns `(0, io.EOF)`. -/
theorem unreadable_channel (p : websocketChannel) (n : Nat) (data : List Byte)
    (re : remoteExec) (width height : Int) (dialed : WS) (trace : List Event)
    (before : List (List Byte)) (hr : p.read = false) :
    p.Read n = Except.ok (p, [], some GoError.EOF) ∧
    p.DataFromSocket data = (p, (data.length : Int), none) ∧
    ∃ ctx conn1 q,
      (re.attach { Tty := true, Width := width, Height := height } (Except.ok dialed)
        trace).1.1.createStreams = Except.ok ctx ∧
      ctx.conn.dispatchAll (before ++ [2 :: data]) = Except.ok conn1 ∧
      conn1.channels[2]? = some q ∧ q.pipe.buf = [] ∧
      q.Read n = Except.ok (q, [], some GoError.EOF) := by
  refine ⟨by simp [websocketChannel.Read, hr, pure, Except.pure],
    by simp [websocketChannel.DataFromSocket, hr], ?_⟩
  have hc := createStreams_eq re { Tty := true, Width := width, Height := height } dialed
  obtain ⟨conn1, h1, h2⟩ := Conn.dispatchAll_unreadable (before ++ [2 :: data])
    { channels := NewConn.loop 0
        [ChannelType.WriteChannel, ChannelType.ReadChannel, ChannelType.IgnoreChannel,
         ChannelType.ReadWriteChannel],
      ready := true, ws := some dialed, timeout := 10 * time.Second }
    2 (newWebsocketChannel 2 false false) rfl rfl
  exact ⟨_, conn1, _, hc, h1, h2, rfl, rfl⟩

theorem unreadable_channel_witness :
    (newWebsocketChannel 0 false true).Read 512
      = Except.ok (newWebsocketChannel 0 false true, [], some GoError.EOF) ∧
    (newWebsocketChannel 0 false true).DataFromSocket [101, 114, 114]
      = (newWebsocketChannel 0 false true, (([101, 114, 114] : List Byte).length : Int),
          none) ∧
    ∃ ctx conn1 q,
      (sampleExec.attach { Tty := true, Width := 80, Height := 24 } (Except.ok sampleWS)
        []).1.1.createStreams = Except.ok ctx ∧
      ctx.conn.dispatchAll ([[1, 111]] ++ [2 :: [101, 114, 114]]) = Except.ok conn1 ∧
      conn1.channels[2]? = some q ∧ q.pipe.buf = [] ∧
      q.Read 512 = Except.ok (q, [], some GoError.EOF) :=
  unreadable_channel (newWebsocketChannel 0 false true) 512 [101, 114, 114] sampleExec
    80 24 sampleWS [] [[1, 111]] rfl

/-- C28: on an inbound message of length zero the loop body does nothing (it does not
index into the message, delivers nothing, does not fault), and the iteration of the read
loop that receives it consists of the deadline reset and the receive alone, after which
the loop goes on with the remaining messages. -/
theorem readLoop_skips_empty_message (conn : Conn)
    (rest : List (Except GoError (List Byte))) :
    Conn.readLoop.dispatch conn [] = Except.ok conn ∧
    conn.readLoop (Except.ok [] :: rest)
      = (do
          let c ← conn.resetTimeout
          let c ← c.receive
          c.readLoop rest) := by
  refine ⟨rfl, ?_⟩
  rw [Conn.readLoop]
  cases h1 : conn.resetTimeout with
  | error f => rfl
  | ok c1 =>
    simp only [bind, Except.bind]
    cases h2 : c1.receive with
    | error f => rfl
    | ok c2 => rfl

/-- C24: the heartbeat period is 5 seconds, below the idle timeout of 10 seconds that
`createStreams` sets on the connection, and the control stream is channel 3 with or
without TTY.  Take the connection of the session at any later point: opened on a
websocket in any state `w`, the read loop having dispatched any messages `before`.  A
tick of the `select` in `interact` is served when the period has passed, and its
`ctx.controlStream.Write([]byte{0x1})` makes exactly two calls on the underlying
connection: the deadline is set to 10 seconds after the tick and the frame `[3, 1]` is
handed to `Send`, whatever `Send` answers; the channels are untouched, and the next
tick, one period later, comes before that deadline. -/
theorem heartbeat_frames (re : remoteExec) (opts : clientOpts) (dialed : WS)
    (trace : List Event) (w : WS) (before : List (List Byte)) :
    remoteExec.interact.period = 5 * time.Second ∧
    ∃ ctx, (re.attach opts (Except.ok dialed) trace).1.1.createStreams = Except.ok ctx ∧
      ctx.conn.timeout = 10 * time.Second ∧
      remoteExec.interact.period < ctx.conn.timeout ∧
      ctx.controlStream = newWebsocketChannel 3 true true ∧
      openedConn (remoteExec.createStreams.channels (newStreamOptions opts))
        (10 * time.Second) dialed [] = Except.ok ctx.conn ∧
      ∃ (conn conn1 : Conn) (w1 : WS),
        openedConn (remoteExec.createStreams.channels (newStreamOptions opts))
          (10 * time.Second) w before = Except.ok conn ∧
        remoteExec.interact.heartbeats ctx.controlStream conn 1 = Except.ok conn1 ∧
        conn1.channels = conn.channels ∧ conn1.ws = some w1 ∧
        w1.now = w.now + remoteExec.interact.period ∧
        w1.events = w.events
          ++ [WsEvent.SetDeadline (w1.now + 10 * time.Second), WsEvent.Send [3, 1]] ∧
        w1.now + remoteExec.interact.period < w1.now + 10 * time.Second := by
  have hlt : remoteExec.interact.period < 10 * time.Second := by decide
  have hopen : openedConn (remoteExec.createStreams.channels (newStreamOptions opts))
      (10 * time.Second) dialed [] = Except.ok
        { channels := NewConn.loop 0
            [ChannelType.WriteChannel, ChannelType.ReadChannel,
             if opts.Tty then ChannelType.IgnoreChannel else ChannelType.ReadChannel,
             ChannelType.ReadWriteChannel],
          ready := true, ws := some dialed, timeout := 10 * time.Second } := by
    rcases opts with ⟨tty, width, height⟩
    cases tty <;> rfl
  refine ⟨rfl, _, createStreams_eq re opts dialed, rfl, hlt, rfl, hopen, ?_⟩
  obtain ⟨conn, h1, -, h3, h4, -, -⟩ := openedConn_ok
    (remoteExec.createStreams.channels (newStreamOptions opts)) (10 * time.Second) w before
  obtain ⟨w1, n, err, hwr, hnow, hev⟩ := Conn.write_events
    { conn with ws := some (w.Tick remoteExec.interact.period) }
    (w.Tick remoteExec.interact.period) 3 [1] rfl
  have hW : ∀ c : Conn, (newWebsocketChannel 3 true true).Write c [1] = c.write 3 [1] :=
    fun _ => rfl
  have hpos : conn.timeout > 0 := by
    rw [h4]
    decide
  have hnow1 : w1.now = w.now + remoteExec.interact.period := hnow
  refine ⟨conn, { conn with ws := some w1 }, w1, h1, ?_, rfl, rfl, hnow1, ?_, ?_⟩
  · rw [remoteExec.interact.heartbeats]
    simp only [h3, Option.map_some', hW, hwr, bind, Except.bind]
    rfl
  · have hsec : (0 : Int) < time.Second := by decide
    rw [hev, hnow1]
    simp [Conn.resetEvents, hpos, h4, WS.Tick, hsec]
  · omega

/-! ## The control-channel drain and zero-length payloads -/

theorem ascii_reading_ne (x y : List Byte) :
    ascii "reading from control stream: " ++ x ≠ ascii "executing remote command: " ++ y := by
  intro h
  have h1 : ascii "reading from control stream: "
      = (114 : Byte) :: (ascii "reading from control stream: ").tail := by decide
  have h2 : ascii "executing remote command: "
      = (101 : Byte) :: (ascii "executing remote command: ").tail := by decide
  rw [h1, h2] at h
  simp only [List.cons_append, List.cons.injEq] at h
  exact absurd h.1 (by decide)

/-- C29: when reading the control channel ends with an error other than `io.EOF`,
`interact` returns exit code 1 and the error `reading from control stream: <error>`,
whatever payload had been read; and the error `executing remote command: <payload>` is
produced only when the read ended with nil or `io.EOF`. -/
theorem read_error_precedence (re : remoteExec) (opts : clientOpts) (dialed : WS)
    (trace : List Event) (ticks : Nat) (data : List Byte) (e : GoError)
    (he : e ≠ GoError.EOF) :
    (∃ re2, (re.attach opts (Except.ok dialed) trace).1.1.interact ticks data (some e)
      = Except.ok (re2, 1,
          some (GoError.Errorf (ascii "reading from control stream: " ++ e.Error)))) ∧
    (∀ err, remoteExec.interact.drained data err
        = some (GoError.Errorf (ascii "executing remote command: " ++ data)) →
      err = none ∨ err = some GoError.EOF) := by
  constructor
  · obtain ⟨w1, -, h⟩ := interact_eq re opts dialed ticks data (some e)
    have hd : remoteExec.interact.drained data (some e)
        = some (GoError.Errorf (ascii "reading from control stream: " ++ e.Error)) := by
      simp [remoteExec.interact.drained, he]
    rw [hd] at h
    exact ⟨_, h⟩
  · intro err h
    cases err with
    | none => exact Or.inl rfl
    | some e1 =>
      by_cases h1 : e1 = GoError.EOF
      · exact Or.inr (by rw [h1])
      · simp only [remoteExec.interact.drained, ne_eq, h1, not_false_eq_true, if_true,
          Option.some.injEq, GoError.Errorf.injEq] at h
        exact absurd h (ascii_reading_ne _ _)

theorem read_error_precedence_witness :
    (∃ re2, (sampleExec.attach ⟨false, 0, 0⟩ (Except.ok sampleWS) []).1.1.interact 0
        (ascii "boom") (some (GoError.other (ascii "i/o timeout")))
      = Except.ok (re2, 1,
          some (GoError.Errorf (ascii "reading from control stream: "
            ++ (GoError.other (ascii "i/o timeout")).Error)))) ∧
    (∀ err, remoteExec.interact.drained (ascii "boom") err
        = some (GoError.Errorf (ascii "executing remote command: " ++ ascii "boom")) →
      err = none ∨ err = some GoError.EOF) :=
  read_error_precedence sampleExec ⟨false, 0, 0⟩ sampleWS [] 0 (ascii "boom")
    (GoError.other (ascii "i/o timeout")) (by decide)

theorem Conn.dispatch_ws (conn : Conn) (x : Option WS) (frame : List Byte) :
    Conn.readLoop.dispatch { conn with ws := x } frame
      = (match Conn.readLoop.dispatch conn frame with
          | Except.ok c => Except.ok { c with ws := x }
          | Except.error f => Except.error f) := by
  cases frame with
  | nil => rfl
  | cons c data =>
    by_cases hge : c.val ≥ conn.channels.length
    · simp [Conn.readLoop.dispatch, hge, pure, Except.pure]
    · simp only [Conn.readLoop.dispatch, hge, if_false]
      cases conn.channels[c.val]? with
      | none => rfl
      | some p =>
        rcases h : p.DataFromSocket data with ⟨q, n, _ | e⟩ <;>
          simp [h, pure, Except.pure]

theorem Conn.dispatchAll_ws (frames : List (List Byte)) :
    ∀ (conn : Conn) (x : Option WS),
      Conn.dispatchAll { conn with ws := x } frames
        = (match conn.dispatchAll frames with
            | Except.ok c => Except.ok { c with ws := x }
            | Except.error f => Except.error f) := by
  induction frames with
  | nil => intro conn x; rfl
  | cons frame more ih =>
    intro conn x
    simp only [Conn.dispatchAll, bind, Except.bind, Conn.dispatch_ws]
    cases Conn.readLoop.dispatch conn frame with
    | error f => rfl
    | ok c1 => exact ih c1 x

/-- The channels the read loop leaves are those the dispatched messages produce, with
every pipe closed. -/
theorem Conn.readLoop_channels (msgs : List (List Byte)) (e : GoError) :
    ∀ (conn : Conn) (w : WS) (c2 : Conn), conn.ready = true → conn.ws = some w →
      conn.dispatchAll msgs = Except.ok c2 →
      ∃ conn1, conn.readLoop (msgs.map Except.ok ++ [Except.error e])
          = Except.ok (conn1, if e = GoError.EOF then none else some e) ∧
        conn1.channels = c2.channels.map websocketChannel.closed := by
  induction msgs with
  | nil =>
    intro conn w c2 hr hws hd
    have hc : c2 = conn := by
      simp only [Conn.dispatchAll, pure, Except.pure, Except.ok.injEq] at hd
      exact hd.symm
    subst hc
    obtain ⟨w1, h1, -, -⟩ := Conn.Close_eq
      { c2 with ws := some (c2.rearmed w).Receive } (c2.rearmed w).Receive hr rfl
    refine ⟨{ c2 with channels := c2.channels.map websocketChannel.closed,
                      ws := some w1 }, ?_, rfl⟩
    simp only [List.map_nil, List.nil_append, Conn.readLoop,
      Conn.resetTimeout_eq c2 w hws, bind, Except.bind, Conn.receive, pure, Except.pure]
    by_cases he : e = GoError.EOF
    · simp only [he, if_true, h1]
    · simp only [he, if_false, h1]
  | cons m rest ih =>
    intro conn w c2 hr hws hd
    obtain ⟨c1, d1, -, -, d4, -, -⟩ := Conn.dispatch_preserves conn m
    simp only [Conn.dispatchAll, d1, bind, Except.bind] at hd
    have hd2 : Conn.dispatchAll { c1 with ws := some (conn.rearmed w).Receive } rest
        = Except.ok { c2 with ws := some (conn.rearmed w).Receive } := by
      rw [Conn.dispatchAll_ws, hd]
    obtain ⟨conn1, g1, g2⟩ := ih { c1 with ws := some (conn.rearmed w).Receive }
      (conn.rearmed w).Receive _ (d4.trans hr) rfl hd2
    refine ⟨conn1, ?_, g2⟩
    simp only [List.map_cons, List.cons_append, Conn.readLoop,
      Conn.resetTimeout_eq conn w hws, bind, Except.bind, Conn.receive, pure,
      Except.pure, Conn.dispatch_ws, d1]
    exact g1

/-- `ReadAll` on a readable channel whose pipe is closed and holds empty chunks only
returns no data and a nil error. -/
theorem ReadAll_closed_empty (n : Nat) (k : Nat) :
    ∀ p : websocketChannel, p.read = true → p.pipe.closed = true →
      p.pipe.buf = List.replicate k [] →
      ∃ q, websocketChannel.ReadAll n (k + 1) p = Except.ok (q, [], none) := by
  induction k with
  | zero =>
    intro p hr hc hb
    rcases p with ⟨num, ⟨buf, closed⟩, read, write⟩
    simp only [List.replicate_zero] at hr hc hb
    subst hr hc hb
    exact ⟨_, rfl⟩
  | succ k ih =>
    intro p hr hc hb
    rcases p with ⟨num, ⟨buf, closed⟩, read, write⟩
    simp only at hr hc hb
    subst hr hc hb
    obtain ⟨q, hq⟩ := ih ⟨num, ⟨List.replicate k [], true⟩, true, write⟩ rfl rfl rfl
    refine ⟨q, ?_⟩
    rw [websocketChannel.ReadAll]
    simp only [websocketChannel.Read, Pipe.Read, List.replicate_succ,
      Bool.not_true, Bool.false_eq_true, if_false, List.drop_nil, List.isEmpty_nil,
      if_true, List.take_nil, bind, Except.bind, pure, Except.pure, hq,
      List.nil_append]

/-- C25, as stated, fails: on the connection of a session without TTY the one-byte
message `[3]` leaves the control channel's pipe open with one empty chunk in it; the
reader's next `Read` returns 0 bytes and a nil error, not `io.EOF`, and `ioutil.ReadAll`
then waits for more data. -/
theorem zero_length_frame_keeps_channel_open :
    ∃ conn1 q q1, Conn.readLoop.dispatch sampleConn [3] = Except.ok conn1 ∧
      conn1.channels[3]? = some q ∧ q.pipe.closed = false ∧ q.pipe.buf = [[]] ∧
      q.Read 512 = Except.ok (q1, [], none) ∧
      q1.Read 512 = Except.error Fault.blocksForever ∧
      websocketChannel.ReadAll 512 8 q = Except.error Fault.blocksForever :=
  ⟨_, _, _, rfl, rfl, rfl, rfl, rfl, rfl, rfl⟩

/-- C25, amended: a payload of length 0 does not close a channel.  On the opened
connection of any layout, for a channel `i` of type `ReadChannel` or `ReadWriteChannel`,
the one-byte message `[i]` appends an empty chunk to channel `i`'s pipe, which stays
open, and the `Read` that takes this chunk returns 0 bytes and a nil error.  The pipe
is closed when the read loop ends: after `k` such messages and a failing receive it
holds the earlier chunks and `k` empty ones and is closed.  In a session, when only
zero-length control frames arrived before the read loop ended, `ioutil.ReadAll` on the
control channel returns no data and a nil error, and with that result `interact`
returns exit code 0 and a nil error. -/
theorem zero_length_payload (layout : List ChannelType) (d : Int) (w : WS)
    (before : List (List Byte)) (i : Nat) (c : Byte) (n k : Nat) (e : GoError)
    (re : remoteExec) (opts : clientOpts) (dialed : WS) (trace : List Event) (ticks : Nat)
    (hread : layout[i]? = some ChannelType.ReadChannel
      ∨ layout[i]? = some ChannelType.ReadWriteChannel) (hc : c.val = i) :
    (∃ (conn : Conn) (p : websocketChannel) (conn1 : Conn),
      openedConn layout d w before = Except.ok conn ∧ conn.channels[i]? = some p ∧
      Conn.readLoop.dispatch conn [c] = Except.ok
        { conn with
          channels := conn.channels.set i
            { p with pipe := { buf := p.pipe.buf ++ [[]], closed := false } } } ∧
      ({ p with pipe := { buf := [[]], closed := false } } : websocketChannel).Read n
        = Except.ok ({ p with pipe := { buf := [], closed := false } }, [], none) ∧
      conn.readLoop ((List.replicate k [c]).map Except.ok ++ [Except.error e])
        = Except.ok (conn1, if e = GoError.EOF then none else some e) ∧
      conn1.channels[i]? = some
        { p with pipe := { buf := p.pipe.buf ++ List.replicate k [], closed := true } }) ∧
    (∃ (ctx : context) (conn1 : Conn) (q q1 : websocketChannel) (re2 : remoteExec),
      (re.attach opts (Except.ok dialed) trace).1.1.createStreams = Except.ok ctx ∧
      ctx.conn.readLoop ((List.replicate k [3]).map Except.ok ++ [Except.error e])
        = Except.ok (conn1, if e = GoError.EOF then none else some e) ∧
      conn1.channels[3]? = some q ∧
      websocketChannel.ReadAll n (k + 1) q = Except.ok (q1, [], none) ∧
      (re.attach opts (Except.ok dialed) trace).1.1.interact ticks [] none
        = Except.ok (re2, 0, none)) := by
  have hrep : ∀ b : Byte, List.replicate k [b]
      = (List.replicate k ([] : List Byte)).map (fun data => b :: data) := by
    intro b; simp
  constructor
  · obtain ⟨conn, h1, h2, h3, -, h5, h6⟩ := openedConn_ok layout d w before
    have hlen : i < conn.channels.length := by
      have hl := Conn.hasLayout_length h2
      have : i < layout.length := by
        rcases hread with h | h <;> exact (List.getElem?_eq_some_iff.mp h).1
      omega
    obtain ⟨p, hp⟩ : ∃ p, conn.channels[i]? = some p :=
      ⟨_, List.getElem?_eq_getElem hlen⟩
    obtain ⟨-, t, ht, hr, -⟩ := Conn.hasLayout_channel h2 hp
    have hr1 : p.read = true := by
      rcases hread with h | h <;> rw [h] at ht <;> cases ht <;> simpa using hr
    have ho : p.pipe.closed = false := h6 i p hp
    have hone := Conn.dispatch_deliver conn i p c [] hp hc hr1 ho
    have hall := Conn.dispatchAll_eq i c hc (List.replicate k []) conn p hp hr1 ho
    rw [← hrep c] at hall
    obtain ⟨conn1, g1, g2⟩ := Conn.readLoop_channels (List.replicate k [c]) e conn w _
      h5 h3 hall
    refine ⟨conn, p, conn1, h1, hp, ?_, ?_, g1, ?_⟩
    · rw [hone, ← ho]
    · rcases p with ⟨num, pipe, read, write⟩
      simp only at hr1
      subst hr1
      simp [websocketChannel.Read, Pipe.Read, bind, Except.bind, pure, Except.pure]
    · rw [g2, List.getElem?_map, List.getElem?_set_self hlen]
      rfl
  · have hcs := createStreams_eq re opts dialed
    have hall := Conn.dispatchAll_eq 3 3 rfl (List.replicate k [])
      { channels := NewConn.loop 0
          [ChannelType.WriteChannel, ChannelType.ReadChannel,
           if opts.Tty then ChannelType.IgnoreChannel else ChannelType.ReadChannel,
           ChannelType.ReadWriteChannel],
        ready := true, ws := some dialed, timeout := 10 * time.Second }
      (newWebsocketChannel 3 true true) rfl rfl rfl
    rw [← hrep 3] at hall
    obtain ⟨conn1, g1, g2⟩ := Conn.readLoop_channels (List.replicate k [3]) e _ dialed _
      rfl rfl hall
    obtain ⟨q1, hq⟩ := ReadAll_closed_empty n k
      ⟨3, ⟨List.replicate k [], true⟩, true, true⟩ rfl rfl rfl
    obtain ⟨w1, -, hi⟩ := interact_eq re opts dialed ticks [] none
    refine ⟨_, conn1, ⟨3, ⟨List.replicate k [], true⟩, true, true⟩, q1, _, hcs, g1, ?_,
      hq, hi⟩
    rw [g2]
    rfl

theorem zero_length_payload_witness :
    (∃ (conn : Conn) (p : websocketChannel) (conn1 : Conn),
      openedConn sampleLayout (10 * time.Second) sampleWS [[3, 101]]
        = Except.ok conn ∧ conn.channels[3]? = some p ∧
      Conn.readLoop.dispatch conn [3] = Except.ok
        { conn with
          channels := conn.channels.set 3
            { p with pipe := { buf := p.pipe.buf ++ [[]], closed := false } } } ∧
      ({ p with pipe := { buf := [[]], closed := false } } : websocketChannel).Read 512
        = Except.ok ({ p with pipe := { buf := [], closed := false } }, [], none) ∧
      conn.readLoop ((List.replicate 2 [3]).map Except.ok ++ [Except.error GoError.EOF])
        = Except.ok (conn1, if GoError.EOF = GoError.EOF then none else some GoError.EOF) ∧
      conn1.channels[3]? = some
        { p with pipe := { buf := p.pipe.buf ++ List.replicate 2 [], closed := true } }) ∧
    (∃ (ctx : context) (conn1 : Conn) (q q1 : websocketChannel) (re2 : remoteExec),
      (sampleExec.attach ⟨false, 0, 0⟩ (Except.ok sampleWS) []).1.1.createStreams
        = Except.ok ctx ∧
      ctx.conn.readLoop ((List.replicate 2 [3]).map Except.ok ++ [Except.error GoError.EOF])
        = Except.ok (conn1, if GoError.EOF = GoError.EOF then none else some GoError.EOF) ∧
      conn1.channels[3]? = some q ∧
      websocketChannel.ReadAll 512 (2 + 1) q = Except.ok (q1, [], none) ∧
      (sampleExec.attach ⟨false, 0, 0⟩ (Except.ok sampleWS) []).1.1.interact 1 [] none
        = Except.ok (re2, 0, none)) :=
  zero_length_payload sampleLayout (10 * time.Second) sampleWS [[3, 101]] 3 3 512 2
    GoError.EOF sampleExec ⟨false, 0, 0⟩ sampleWS [] 1 (Or.inr (by decide)) rfl

/-! ## The stages of a session and the local terminal -/

theorem terminalCalls_append (a b : List Event) :
    terminalCalls (a ++ b) = terminalCalls a ++ terminalCalls b := by
  simp [terminalCalls, List.filter_append]

theorem terminalCalls_call (re : remoteExec) (err : Option GoError) (tr : List Event) :
    terminalCalls (re.call err tr) = terminalCalls tr := by
  rw [call_eq]
  cases re.callback <;> cases err <;> simp [terminalCalls, List.filter_append]

theorem terminalCalls_indicator (shown : Bool) (text : String) :
    terminalCalls (remoteExec.execute.indicator shown text) = [] := by
  cases shown <;> rfl

theorem terminalCalls_Get (n : Nat) (url : String) :
    terminalCalls (List.replicate n (Event.Get url)) = [] := by
  induction n with
  | zero => rfl
  | succ n ih =>
    rw [List.replicate_succ]
    show terminalCalls (List.replicate n (Event.Get url)) = []
    exact ih

theorem terminalCalls_Dial (n : Nat) (url header : String) :
    terminalCalls (List.replicate n (Event.Dial url header)) = [] := by
  induction n with
  | zero => rfl
  | succ n ih =>
    rw [List.replicate_succ]
    show terminalCalls (List.replicate n (Event.Dial url header)) = []
    exact ih

/-- What a run of `execute` that gets past the readiness stage and the terminal calls
leaves in the trace: the probes, the terminal calls, the handshake requests, then
events that are neither terminal calls nor handshake requests, then the deferred
`Restore` if a state was recorded. -/
theorem execute_trace (re : remoteExec) (env : Env) (hready : env.ready = true)
    (hterm : re.terminalFails env = false) :
    ∃ (opts : clientOpts) (st : Option Nat) (term : List Event) (n m : Nat)
      (post : List Event), re.builds env opts st term ∧
      (re.execute env).trace
        = List.replicate (n + 1) (Event.Get ("http://" ++ re.endpoint ++ "/ok")) ++ term
          ++ List.replicate (m + 1)
              (Event.Dial ("ws://" ++ re.endpoint ++ "/") (json.Marshal opts))
          ++ post
          ++ (match st with
              | some s => [Event.Restore s]
              | none => []) ∧
      terminalCalls post = [] ∧ dialHeaders post = [] := by
  rcases execute_cases re env with ⟨h0, -⟩ | ⟨-, n, h1⟩
  · rw [hready] at h0
    cases h0
  · rw [h1]
    rcases session_cases re env (env.stdoutIsTerminal || env.stderrIsTerminal)
        (List.replicate (n + 1) (Event.Get ("http://" ++ re.endpoint ++ "/ok")))
      with ⟨h2, -⟩ | ⟨-, opts, st, term, m, hb, h2⟩
    · rw [hterm] at h2
      cases h2
    · rcases h2 with ⟨-, err, -, h3⟩ | ⟨-, ws, w1, -, h3⟩
      · refine ⟨opts, st, term, n, m,
          remoteExec.execute.indicator
              (re.showAttaching && (env.stdoutIsTerminal || env.stderrIsTerminal))
              "\r\x1b[36mAttaching...\x1b[m error\n"
            ++ [Event.callback (some err)]
            ++ (if re.callback then [] else [Event.failure err.Error]), hb, ?_, ?_, ?_⟩
        · rw [h3, restore_eq, call_eq]
          simp only [List.append_assoc]
        · rw [terminalCalls_append, terminalCalls_append, terminalCalls_indicator]
          cases re.callback <;> rfl
        · rw [dialHeaders_append, dialHeaders_append, dialHeaders_indicator]
          cases re.callback <;> rfl
      · refine ⟨opts, st, term, n, m,
          remoteExec.execute.indicator
              (re.showAttaching && (env.stdoutIsTerminal || env.stderrIsTerminal))
              "\r\x1b[36mAttaching...\x1b[m ok\n"
            ++ [Event.callback none]
            ++ (match remoteExec.interact.drained env.data env.err with
                | some e => [Event.failure e.Error]
                | none => []), hb, ?_, ?_, ?_⟩
        · rw [h3, restore_eq, call_eq]
          cases re.callback <;> simp only [List.append_assoc, List.append_nil, if_true,
            Bool.false_eq_true, if_false, List.nil_append]
        · rw [terminalCalls_append, terminalCalls_append, terminalCalls_indicator]
          cases remoteExec.interact.drained env.data env.err <;> rfl
        · rw [dialHeaders_append, dialHeaders_append, dialHeaders_indicator]
          cases remoteExec.interact.drained env.data env.err <;> rfl

/-- When the handshake fails, nothing that `execute` does depends on what the
interaction phase would meet. -/
theorem session_handshake_fails (re : remoteExec) (env : Env) (showIndicator : Bool)
    (tr : List Event) (ticks : Nat) (data : List Byte) (err : Option GoError)
    (hd : env.dialed = false) :
    remoteExec.execute.session re { env with ticks := ticks, data := data, err := err }
        showIndicator tr
      = remoteExec.execute.session re env showIndicator tr := by
  have ho : remoteExec.execute.opts re
      { env with ticks := ticks, data := data, err := err } tr
      = remoteExec.execute.opts re env tr := rfl
  unfold remoteExec.execute.session
  rw [ho]
  rcases remoteExec.execute.opts re env tr with ⟨msg | ⟨opts, st⟩, tr1⟩
  · rfl
  · obtain ⟨m, h⟩ := Run_dial_full opts env.dials env.dial re tr1
    rcases h with ⟨hany, -⟩ | ⟨-, e, -, h⟩
    · have : env.dialed = true := hany
      rw [hd] at this
      cases this
    · simp only [h]

/-- C21: the stages of `execute` are linear.  When the readiness stage fails, `execute`
returns 1 without any handshake request and without any call on the local terminal, and
leaves the receiver as it was.  When the handshake fails, `execute` returns 1 and leaves
the receiver as it was (no websocket stored, no stream options, so no multiplexed
connection), and the run is the same whatever the interaction phase would have met. -/
theorem stages_linear (re : remoteExec) (env : Env) :
    (env.ready = false →
      (re.execute env).outcome = Outcome.returns 1 ∧
      dialHeaders (re.execute env).trace = [] ∧
      terminalCalls (re.execute env).trace = [] ∧
      (re.execute env).re = re) ∧
    (env.ready = true → re.terminalFails env = false → env.dialed = false →
      (re.execute env).outcome = Outcome.returns 1 ∧
      (re.execute env).re = re ∧
      ∀ (ticks : Nat) (data : List Byte) (err : Option GoError),
        re.execute { env with ticks := ticks, data := data, err := err }
          = re.execute env) := by
  constructor
  · intro hready
    rcases execute_cases re env with ⟨-, n, err, resp, -, -, h1⟩ | ⟨h0, -⟩
    · rw [h1]
      refine ⟨rfl, ?_, ?_, rfl⟩
      · simp only [dialHeaders_call, dialHeaders_append, dialHeaders_Get,
          dialHeaders_indicator, List.append_nil]
      · simp only [terminalCalls_call, terminalCalls_append, terminalCalls_Get,
          terminalCalls_indicator, List.append_nil]
    · rw [hready] at h0
      cases h0
  · intro hready hterm hd
    refine ⟨?_, ?_, ?_⟩
    · rw [execute_outcome]
      simp [hready, hterm, hd]
    · rcases execute_cases re env with ⟨h0, -⟩ | ⟨-, n, h1⟩
      · rw [hready] at h0
        cases h0
      · rw [h1]
        rcases session_cases re env (env.stdoutIsTerminal || env.stderrIsTerminal)
            (List.replicate (n + 1) (Event.Get ("http://" ++ re.endpoint ++ "/ok")))
          with ⟨h2, -⟩ | ⟨-, opts, st, term, m, -, h2⟩
        · rw [hterm] at h2
          cases h2
        · rcases h2 with ⟨-, err, -, h3⟩ | ⟨h4, -⟩
          · rw [h3]
          · rw [hd] at h4
            cases h4
    · intro ticks data err
      unfold remoteExec.execute
      show (match attempt.Run (remoteExec.execute.ok re) env.probe env.probes [] with
        | (trace, some err) => _
        | (trace, none) => _) = _
      rcases attempt.Run (remoteExec.execute.ok re) env.probe env.probes []
        with ⟨tr, _ | e⟩
      · exact session_handshake_fails re env _ tr ticks data err hd
      · rfl

theorem stages_linear_witness :
    ((sampleExec.execute sampleEnvNotReady).outcome = Outcome.returns 1 ∧
      dialHeaders (sampleExec.execute sampleEnvNotReady).trace = [] ∧
      terminalCalls (sampleExec.execute sampleEnvNotReady).trace = [] ∧
      (sampleExec.execute sampleEnvNotReady).re = sampleExec) ∧
    ((sampleExec.execute sampleEnvTtyRefused).outcome = Outcome.returns 1 ∧
      (sampleExec.execute sampleEnvTtyRefused).re = sampleExec ∧
      ∀ (ticks : Nat) (data : List Byte) (err : Option GoError),
        sampleExec.execute
            { sampleEnvTtyRefused with ticks := ticks, data := data, err := err }
          = sampleExec.execute sampleEnvTtyRefused) :=
  ⟨(stages_linear sampleExec sampleEnvNotReady).1 (by decide),
    (stages_linear sampleExec sampleEnvTtyRefused).2 (by decide) (by decide) (by decide)⟩

/-- C22: on every run of `execute` that returns and in which `terminal.MakeRaw` was
called and gave the state `s`, the calls on the local terminal are `GetSize`, `MakeRaw`
and one `Restore(s)`, in this order, and `Restore(s)` is the last thing `execute` does
before it returns, after a failed handshake as after an interaction that failed or
succeeded. -/
theorem terminal_restored (re : remoteExec) (env : Env) (code : Int) (s : Nat)
    (hret : (re.execute env).outcome = Outcome.returns code)
    (hraw : Event.MakeRaw ∈ (re.execute env).trace) (hs : env.raw = Except.ok s) :
    (re.execute env).trace.getLast? = some (Event.Restore s) ∧
    terminalCalls (re.execute env).trace
      = [Event.GetSize, Event.MakeRaw, Event.Restore s] := by
  have hm : Event.MakeRaw ∈ terminalCalls (re.execute env).trace :=
    List.mem_filter.mpr ⟨hraw, rfl⟩
  cases hready : env.ready with
  | false =>
    rcases execute_cases re env with ⟨-, n, err, resp, -, -, h1⟩ | ⟨h0, -⟩
    · rw [h1] at hm
      simp only [terminalCalls_call, terminalCalls_append, terminalCalls_Get,
        terminalCalls_indicator, List.append_nil, List.not_mem_nil] at hm
    · rw [hready] at h0
      cases h0
  | true =>
    cases hterm : re.terminalFails env with
    | true =>
      rw [execute_outcome] at hret
      simp [hready, hterm] at hret
    | false =>
      obtain ⟨opts, st, term, n, m, post, hb, ht, hp, -⟩ :=
        execute_trace re env hready hterm
      rcases hb with ⟨-, -, rfl, rfl⟩ | ⟨-, w, h, s1, -, hs1, -, rfl, rfl⟩
      · rw [ht] at hm
        simp only [terminalCalls_append, terminalCalls_Get, terminalCalls_Dial, hp,
          List.append_nil] at hm
        exact absurd hm (List.not_mem_nil _)
      · rw [hs] at hs1
        cases hs1
        rw [ht]
        refine ⟨by rw [List.getLast?_append]; rfl, ?_⟩
        simp only [terminalCalls_append, terminalCalls_Get, terminalCalls_Dial, hp,
          List.append_nil, List.nil_append]
        rfl

theorem terminal_restored_witness :
    ((sampleExec.execute sampleEnvTty).trace.getLast? = some (Event.Restore 7) ∧
      terminalCalls (sampleExec.execute sampleEnvTty).trace
        = [Event.GetSize, Event.MakeRaw, Event.Restore 7]) ∧
    ((sampleExec.execute sampleEnvTtyRefused).trace.getLast? = some (Event.Restore 7) ∧
      terminalCalls (sampleExec.execute sampleEnvTtyRefused).trace
        = [Event.GetSize, Event.MakeRaw, Event.Restore 7]) :=
  ⟨terminal_restored sampleExec sampleEnvTty 0 7 (by decide) (by decide) rfl,
    terminal_restored sampleExec sampleEnvTtyRefused 1 7 (by decide) (by decide) rfl⟩

/-- C23: on a run of `execute` that reaches the handshake, every handshake request
carries the encoding of the same options `opts`, and `opts.Tty` is true exactly when
TTY was enabled by the caller and the standard input is a terminal.  In that case width
and height are the size `terminal.GetSize` gave, `GetSize` and `MakeRaw` were called
before the first handshake request, and the recorded state is restored afterwards;
otherwise the options are the no-TTY value and no call is made on the local
terminal. -/
theorem handshake_options (re : remoteExec) (env : Env) (hready : env.ready = true)
    (hterm : re.terminalFails env = false) :
    ∃ (opts : clientOpts) (n m : Nat) (post : List Event),
      dialHeaders (re.execute env).trace = List.replicate (m + 1) (json.Marshal opts) ∧
      (opts.Tty = true ↔ (re.enableTty = true ∧ env.stdinIsTerminal = true)) ∧
      (opts.Tty = true → ∃ s, env.size = Except.ok (opts.Width, opts.Height) ∧
        env.raw = Except.ok s ∧
        (re.execute env).trace
          = List.replicate (n + 1) (Event.Get ("http://" ++ re.endpoint ++ "/ok"))
            ++ [Event.GetSize, Event.MakeRaw]
            ++ List.replicate (m + 1)
                (Event.Dial ("ws://" ++ re.endpoint ++ "/") (json.Marshal opts))
            ++ post ++ [Event.Restore s] ∧
        terminalCalls post = [] ∧ dialHeaders post = []) ∧
      (opts.Tty = false → opts = { Tty := false, Width := 0, Height := 0 } ∧
        terminalCalls (re.execute env).trace = []) := by
  obtain ⟨opts, st, term, n, m, post, hb, ht, hp, hq⟩ := execute_trace re env hready hterm
  have hdial : dialHeaders (re.execute env).trace
      = List.replicate (m + 1) (json.Marshal opts) := by
    have hterm0 : dialHeaders term = [] := (builds_term hb).2.2
    have hst : ∀ o : Option Nat, dialHeaders (match o with
        | some s => [Event.Restore s]
        | none => []) = [] := by
      intro o
      cases o <;> rfl
    rw [ht]
    simp only [dialHeaders_append, dialHeaders_Get, dialHeaders_Dial, hterm0, hq, hst st,
      List.append_nil, List.nil_append]
  refine ⟨opts, n, m, post, hdial, ?_⟩
  rcases hb with ⟨h1, rfl, rfl, rfl⟩ | ⟨h1, w, h, s, hsz, hrw, rfl, rfl, rfl⟩
  · refine ⟨?_, ?_, ?_⟩
    · constructor
      · intro h
        cases h
      · rintro ⟨ha, hb⟩
        rw [ha, hb] at h1
        cases h1
    · intro h
      cases h
    · intro _
      refine ⟨rfl, ?_⟩
      rw [ht]
      simp only [terminalCalls_append, terminalCalls_Get, terminalCalls_Dial, hp,
        List.append_nil]
  · refine ⟨?_, ?_, ?_⟩
    · constructor
      · intro _
        simpa using h1
      · intro _
        rfl
    · intro _
      exact ⟨s, hsz, hrw, ht, hp, hq⟩
    · intro h
      cases h

theorem handshake_options_witness :
    ∃ (opts : clientOpts) (n m : Nat) (post : List Event),
      dialHeaders (sampleExec.execute sampleEnvTty).trace
        = List.replicate (m + 1) (json.Marshal opts) ∧
      (opts.Tty = true
        ↔ (sampleExec.enableTty = true ∧ sampleEnvTty.stdinIsTerminal = true)) ∧
      (opts.Tty = true → ∃ s, sampleEnvTty.size = Except.ok (opts.Width, opts.Height) ∧
        sampleEnvTty.raw = Except.ok s ∧
        (sampleExec.execute sampleEnvTty).trace
          = List.replicate (n + 1) (Event.Get ("http://" ++ sampleExec.endpoint ++ "/ok"))
            ++ [Event.GetSize, Event.MakeRaw]
            ++ List.replicate (m + 1)
                (Event.Dial ("ws://" ++ sampleExec.endpoint ++ "/") (json.Marshal opts))
            ++ post ++ [Event.Restore s] ∧
        terminalCalls post = [] ∧ dialHeaders post = []) ∧
      (opts.Tty = false → opts = { Tty := false, Width := 0, Height := 0 } ∧
        terminalCalls (sampleExec.execute sampleEnvTty).trace = []) :=
  handshake_options sampleExec sampleEnvTty (by decide) (by decide)

/-! ## Persisting the identity -/

/-- C30: `Persist` evaluated on a configuration that holds one identity, for the
provider `id.other.org`, while the current cloud's provider is `id.example.com`, called
for the user `alice`: it returns nil, `cfg.Identity` is the new identity, but the saved
list is the old one, with no identity for `id.example.com`.  The identity is saved when
the prior list is empty or already has an entry for the provider; with an empty user
name the provider's entry is removed and the other one is kept. -/
theorem Persist_drops_new_identity :
    (∃ cfg1, clientConfigPersister.Persist sampleConfig sampleAuth none
        = Except.ok (cfg1, none) ∧
      cfg1.Identity = some
        { Provider := "id.example.com", Username := "alice",
          OAuth2 := { AccessToken := "a-access", RefreshToken := "a-refresh" } } ∧
      cfg1.Identities = [sampleOtherIdentity] ∧
      cfg1.Identities.all (fun i => decide (i.Provider ≠ "id.example.com")) = true) ∧
    (∃ cfg1, clientConfigPersister.Persist { sampleConfig with Identities := [] }
        sampleAuth none = Except.ok (cfg1, none) ∧
      cfg1.Identities =
        [{ Provider := "id.example.com", Username := "alice",
           OAuth2 := { AccessToken := "a-access", RefreshToken := "a-refresh" } }]) ∧
    (∃ cfg1, clientConfigPersister.Persist
        { sampleConfig with
          Identities := [sampleOtherIdentity,
            { Provider := "id.example.com", Username := "carol",
              OAuth2 := { AccessToken := "c-access", RefreshToken := "c-refresh" } }] }
        sampleAuth none = Except.ok (cfg1, none) ∧
      cfg1.Identities =
        [sampleOtherIdentity,
         { Provider := "id.example.com", Username := "alice",
           OAuth2 := { AccessToken := "a-access", RefreshToken := "a-refresh" } }]) ∧
    (∃ cfg1, clientConfigPersister.Persist
        { sampleConfig with
          Identities := [sampleOtherIdentity,
            { Provider := "id.example.com", Username := "carol",
              OAuth2 := { AccessToken := "c-access", RefreshToken := "c-refresh" } }] }
        { sampleAuth with Username := "" } none = Except.ok (cfg1, none) ∧
      cfg1.Identity = none ∧ cfg1.Identities = [sampleOtherIdentity]) :=
  ⟨⟨_, rfl, rfl, rfl, rfl⟩, ⟨_, rfl, rfl⟩, ⟨_, rfl, rfl⟩, ⟨_, rfl, rfl, rfl⟩⟩

/-! ## The goroutines of the interaction phase -/

theorem payloadsFor_cons (i : Nat) (m : List Byte) (rest : List (List Byte)) :
    payloadsFor i (m :: rest) = payloadsFor i [m] ++ payloadsFor i rest := by
  simp only [payloadsFor, List.filterMap_cons, List.filterMap_nil]
  split <;> rfl

/-- The loop body on any message: a readable channel whose pipe is open gains the
payload when the message is addressed to it and is left as it was otherwise. -/
theorem Conn.dispatch_payloads (conn : Conn) (i : Nat) (num : Byte) (buf : List (List Byte))
    (write : Bool) (frame : List Byte)
    (hp : conn.channels[i]? = some ⟨num, ⟨buf, false⟩, true, write⟩) :
    ∃ conn1, Conn.readLoop.dispatch conn frame = Except.ok conn1 ∧
      conn1.channels[i]? = some ⟨num, ⟨buf ++ payloadsFor i [frame], false⟩, true, write⟩ := by
  have hi : i < conn.channels.length := (List.getElem?_eq_some_iff.mp hp).1
  cases frame with
  | nil => exact ⟨conn, rfl, by simpa [payloadsFor] using hp⟩
  | cons c data =>
    by_cases hci : c.val = i
    · have h := Conn.dispatch_deliver conn i _ c data hp hci rfl rfl
      refine ⟨_, h, ?_⟩
      rw [List.getElem?_set_self hi]
      simp [payloadsFor, hci]
    · have hpl : payloadsFor i [c :: data] = [] := by simp [payloadsFor, hci]
      rw [hpl, List.append_nil]
      by_cases hge : c.val ≥ conn.channels.length
      · exact ⟨conn, by simp [Conn.readLoop.dispatch, hge, pure, Except.pure], hp⟩
      · have hlt : c.val < conn.channels.length := by omega
        have hq : conn.channels[c.val]? = some conn.channels[c.val] :=
          List.getElem?_eq_getElem hlt
        generalize conn.channels[c.val] = q at hq
        refine ⟨{ conn with channels := conn.channels.set c.val (q.DataFromSocket data).1 },
          ?_, ?_⟩
        · simp only [Conn.readLoop.dispatch, hge, if_false, hq]
          rcases q.DataFromSocket data with ⟨q1, n, _ | e⟩ <;> rfl
        · simp only []
          rw [List.getElem?_set_ne hci]
          exact hp

theorem Conn.dispatchAll_payloads (i : Nat) (num : Byte) (write : Bool)
    (frames : List (List Byte)) :
    ∀ (conn : Conn) (buf : List (List Byte)),
      conn.channels[i]? = some ⟨num, ⟨buf, false⟩, true, write⟩ →
      ∃ conn1, conn.dispatchAll frames = Except.ok conn1 ∧
        conn1.channels[i]? = some ⟨num, ⟨buf ++ payloadsFor i frames, false⟩, true, write⟩ := by
  induction frames with
  | nil => intro conn buf hp; exact ⟨conn, rfl, by simpa [payloadsFor] using hp⟩
  | cons frame more ih =>
    intro conn buf hp
    obtain ⟨c1, h1, h2⟩ := Conn.dispatch_payloads conn i num buf write frame hp
    obtain ⟨c2, g1, g2⟩ := ih c1 _ h2
    refine ⟨c2, by simp only [Conn.dispatchAll, h1, bind, Except.bind]; exact g1, ?_⟩
    rw [g2, payloadsFor_cons i frame more, List.append_assoc]

/-- `ReadAll` with reads of a positive size on a readable channel whose pipe is closed
returns, given fuel for the reads, all the bytes waiting in the pipe and a nil error. -/
theorem ReadAll_closed (n : Nat) (hn : 0 < n) :
    ∀ (m : Nat) (num : Byte) (buf : List (List Byte)) (write : Bool),
      (buf.map (fun c => c.length + 1)).sum ≤ m →
      ∀ fuel, m < fuel →
        ∃ q, websocketChannel.ReadAll n fuel ⟨num, ⟨buf, true⟩, true, write⟩
          = Except.ok (q, buf.flatten, none) := by
  intro m
  induction m with
  | zero =>
    intro num buf write hm fuel hf
    cases buf with
    | nil =>
      obtain ⟨f, rfl⟩ : ∃ f, fuel = f + 1 := ⟨fuel - 1, by omega⟩
      exact ⟨_, rfl⟩
    | cons chunk rest =>
      simp only [List.map_cons, List.sum_cons] at hm
      omega
  | succ m ih =>
    intro num buf write hm fuel hf
    obtain ⟨f, rfl⟩ : ∃ f, fuel = f + 1 := ⟨fuel - 1, by omega⟩
    cases buf with
    | nil => exact ⟨_, rfl⟩
    | cons chunk rest =>
      simp only [List.map_cons, List.sum_cons] at hm
      by_cases hd : (chunk.drop n).isEmpty = true
      · have hdn : chunk.drop n = [] := List.isEmpty_iff.mp hd
        have htk : chunk.take n = chunk := by
          have := List.take_append_drop n chunk
          rw [hdn, List.append_nil] at this
          exact this
        obtain ⟨q, hq⟩ := ih num rest write (by omega) f (by omega)
        refine ⟨q, ?_⟩
        rw [websocketChannel.ReadAll]
        simp only [websocketChannel.Read, Pipe.Read, hd, Bool.not_true, Bool.false_eq_true,
          if_false, if_true, bind, Except.bind, pure, Except.pure, hq, htk,
          List.flatten_cons]
      · have hlen : n < chunk.length := by
          by_contra hc
          exact hd (List.isEmpty_iff.mpr (List.drop_eq_nil_iff.mpr (by omega)))
        have hsum : ((chunk.drop n :: rest).map (fun c => c.length + 1)).sum ≤ m := by
          simp only [List.map_cons, List.sum_cons, List.length_drop]
          omega
        obtain ⟨q, hq⟩ := ih num (chunk.drop n :: rest) write hsum f (by omega)
        refine ⟨q, ?_⟩
        rw [websocketChannel.ReadAll]
        simp only [websocketChannel.Read, Pipe.Read, hd, Bool.not_true, Bool.false_eq_true,
          if_false, bind, Except.bind, pure, Except.pure, hq, List.flatten_cons]
        rw [← List.append_assoc, List.take_append_drop]

/-- What the goroutines around the connection yield once `attach` has succeeded: the
read loop returns the error that ended it unless it is `io.EOF`, and `ReadAll` returns
the control bytes received and a nil error, whatever that error was. -/
theorem drain_eq (re : remoteExec) (opts : clientOpts) (dialed : WS)
    (received : List (List Byte)) (e : GoError) (n : Nat) (hn : 0 < n) :
    ∃ fuel0, ∀ fuel, fuel0 ≤ fuel →
      remoteExec.interact.drain
          ({ re with ws := some dialed, streamOpts := some (newStreamOptions opts) }
            : remoteExec)
          (received.map Except.ok ++ [Except.error e]) n fuel
        = Except.ok (if e = GoError.EOF then none else some e, controlData received,
            none) := by
  obtain ⟨c2, h1, h2⟩ := Conn.dispatchAll_payloads 3 3 true received
    { channels := NewConn.loop 0
        [ChannelType.WriteChannel, ChannelType.ReadChannel,
         if opts.Tty then ChannelType.IgnoreChannel else ChannelType.ReadChannel,
         ChannelType.ReadWriteChannel],
      ready := true, ws := some dialed, timeout := 10 * time.Second } [] rfl
  obtain ⟨conn1, g1, g2⟩ := Conn.readLoop_channels received e _ dialed c2 rfl rfl h1
  have h3 : conn1.channels[3]?
      = some ⟨3, ⟨payloadsFor 3 received, true⟩, true, true⟩ := by
    rw [g2, List.getElem?_map, h2]
    rfl
  refine ⟨((payloadsFor 3 received).map (fun c => c.length + 1)).sum + 1, ?_⟩
  intro fuel hf
  obtain ⟨q, hq⟩ := ReadAll_closed n hn _ 3 (payloadsFor 3 received) true (le_refl _)
    fuel (by omega)
  unfold remoteExec.interact.drain
  rw [createStreams_eq]
  simp only [bind, Except.bind, g1, h3, hq, pure, Except.pure]
  rfl

/-- C10: a run of `execute` in which the probe and the handshake succeed and the
websocket, after delivering the messages `received`, fails with the error `e`.  The read
loop returns `e` (nil for `io.EOF`) to nobody, `ioutil.ReadAll` on the control stream
returns the control bytes received and a nil error whatever `e` is, and with that
result `execute` returns 0 when no control byte was received and 1 otherwise: a
transport error that ends the interaction is not reported and does not change the exit
code; with no control bytes the callback gets nil and `failure` is not called. -/
theorem transport_error_exit_zero (re : remoteExec) (env : Env) (opts : clientOpts)
    (dialed : WS) (received : List (List Byte)) (e : GoError) (n : Nat)
    (hready : env.ready = true) (hterm : re.terminalFails env = false)
    (hdial : env.dial = Except.ok dialed) (hn : 0 < n) :
    (∃ fuel0, ∀ fuel, fuel0 ≤ fuel →
      remoteExec.interact.drain (re.attach opts (Except.ok dialed) []).1.1
          (received.map Except.ok ++ [Except.error e]) n fuel
        = Except.ok (if e = GoError.EOF then none else some e, controlData received,
            none)) ∧
    (re.execute { env with data := controlData received, err := none }).outcome
      = (if controlData received = [] then Outcome.returns 0 else Outcome.returns 1) ∧
    (controlData received = [] →
      callbacks (re.execute { env with data := controlData received, err := none }).trace
        = [none] ∧
      failures (re.execute { env with data := controlData received, err := none }).trace
        = []) := by
  have hd : ∀ (data : List Byte), ({ env with data := data, err := none } : Env).dialed
      = true := by
    intro data
    simp [Env.dialed, hdial]
  refine ⟨drain_eq re opts dialed received e n hn, ?_, ?_⟩
  · rw [execute_outcome]
    generalize controlData received = data
    have h1 : ({ env with data := data, err := none } : Env).ready = true := hready
    have h2 : re.terminalFails { env with data := data, err := none } = false := hterm
    by_cases hc : data = []
    · subst hc
      have h4 : ({ env with data := [], err := none } : Env).clean = true := rfl
      simp [h1, h2, hd, h4]
    · have hlen : 0 < data.length := List.length_pos.mpr hc
      have h4 : ({ env with data := data, err := none } : Env).clean = false := by
        simp [Env.clean, remoteExec.interact.drained, hlen]
      simp [h1, h2, hd, h4, hc]
  · intro hc
    rw [hc]
    rcases execute_cases re { env with data := [], err := none } with ⟨h0, -⟩ | ⟨-, k, h1⟩
    · have h1 : ({ env with data := [], err := none } : Env).ready = true := hready
      rw [h1] at h0
      cases h0
    · rw [h1]
      rcases session_cases re { env with data := [], err := none }
          (env.stdoutIsTerminal || env.stderrIsTerminal)
          (List.replicate (k + 1) (Event.Get ("http://" ++ re.endpoint ++ "/ok")))
        with ⟨h2, -⟩ | ⟨-, o, st, term, m, hb, h2⟩
      · have h3 : re.terminalFails { env with data := [], err := none } = false := hterm
        rw [h3] at h2
        cases h2
      · obtain ⟨ht, hf, -⟩ := builds_term hb
        rcases h2 with ⟨h4, -⟩ | ⟨-, ws, w1, -, h3⟩
        · rw [hd []] at h4
          cases h4
        · rw [h3]
          have hdr : remoteExec.interact.drained [] none = none := rfl
          constructor
          · simp only [callbacks_restore, callbacks_call, callbacks_append, callbacks_Get,
              callbacks_Dial, callbacks_indicator, ht, List.nil_append, List.append_nil,
              hdr]
          · simp only [failures_restore, failures_call_nil, failures_append, failures_Get,
              failures_Dial, failures_indicator, hf, List.nil_append, List.append_nil,
              hdr]

theorem transport_error_exit_zero_witness :
    (∃ fuel0, ∀ fuel, fuel0 ≤ fuel →
      remoteExec.interact.drain (sampleExec.attach ⟨false, 0, 0⟩ (Except.ok sampleWS) []).1.1
          [Except.ok [1, 104, 105],
           Except.error (GoError.other (ascii "connection reset by peer"))] 512 fuel
        = Except.ok (some (GoError.other (ascii "connection reset by peer")), [], none)) ∧
    (sampleExec.execute sampleEnvPiped).outcome = Outcome.returns 0 ∧
    callbacks (sampleExec.execute sampleEnvPiped).trace = [none] ∧
    failures (sampleExec.execute sampleEnvPiped).trace = [] :=
  ⟨(transport_error_exit_zero sampleExec sampleEnvPiped ⟨false, 0, 0⟩ sampleWS
      [[1, 104, 105]] (GoError.other (ascii "connection reset by peer")) 512
      (by decide) (by decide) rfl (by decide)).1,
    (transport_error_exit_zero sampleExec sampleEnvPiped ⟨false, 0, 0⟩ sampleWS
      [[1, 104, 105]] (GoError.other (ascii "connection reset by peer")) 512
      (by decide) (by decide) rfl (by decide)).2.1,
    (transport_error_exit_zero sampleExec sampleEnvPiped ⟨false, 0, 0⟩ sampleWS
      [[1, 104, 105]] (GoError.other (ascii "connection reset by peer")) 512
      (by decide) (by decide) rfl (by decide)).2.2 rfl⟩

end gondorcli
